import Mathlib

/-!
# Puffer media server: the per-client streaming scheduler

A shallow embedding of `src/media-server/ws_media_server.cc`.

* Machine integers are natural numbers; arithmetic that the source performs in a
  fixed width is reduced explicitly (`% UINT64_MOD`, `% UINT32_MOD`, `% UINT16_MOD`).
* The mutable objects the scheduler touches (the carrier, one client, the number of
  `rand()` calls made so far) are passed explicitly as a state `St`.
* A C++ exception, a failed `assert` or undefined behaviour is a `Fault`; every
  procedure returns the state it reached together with the fault, if any, so that
  the frames enqueued before a fault stay observable.
* The start-up code of `main` is `main_config`; the map `clients` and the four callbacks
  (open, close, message, timer) work on a state `Sys`, and `sys_run` is the event loop.
* Headers that are not part of the sources at hand (`channel.hh`, `ws_client.hh`,
  `message.hh`, `ws_server.hh`) are modelled from the specification; each such
  definition says so in its doc comment.
-/

namespace Puffer

/-! ## Machine arithmetic -/

/-- Number of values of a `uint64_t`. -/
def UINT64_MOD : Nat := 18446744073709551616

/-- Number of values of an `unsigned int`. -/
def UINT32_MOD : Nat := 4294967296

/-- Number of values of a `uint16_t`. -/
def UINT16_MOD : Nat := 65536

/-- Unsigned 64-bit subtraction `a - b` of two `uint64_t` values. -/
def sub64 (a b : Nat) : Nat := (a % UINT64_MOD + (UINT64_MOD - b % UINT64_MOD)) % UINT64_MOD

/-- Unsigned 64-bit addition `a + b`. -/
def add64 (a b : Nat) : Nat := (a + b) % UINT64_MOD

/-- Conversion of a `size_t` to `int` (two's complement, 32 bits). -/
def to_int (n : Nat) : Int :=
  if n % UINT32_MOD < 2147483648 then ((n % UINT32_MOD : Nat) : Int)
  else ((n % UINT32_MOD : Nat) : Int) - 4294967296

/-- The value of an `int` expression whose exact result is `i` (two's complement, 32
bits). -/
def wrap_int (i : Int) : Int := (i + 2147483648) % 4294967296 - 2147483648

/-- What can go wrong in a call: C++ exceptions, failed assertions, undefined behaviour. -/
inductive Fault
  | bad_optional_access
  | out_of_range
  | assertion_failed
  | division_by_zero
  | bad_client_message
  | runtime_error
  deriving DecidableEq, Repr

/-! ## Data model -/

/-- One byte of media data. -/
abbrev Byte := Fin 256

/-- A blob of bytes (a memory-mapped file, or the data part of a frame). -/
abbrev Bytes := List Byte

/-- Modelled from the spec: `VideoFormat` (declared in the absent `channel.hh`) is a
quality variant identifier with equality and a printable form. -/
structure VideoFormat where
  to_string : String
  deriving DecidableEq, Repr

/-- Modelled from the spec: `AudioFormat` (declared in the absent `channel.hh`) is a
quality variant identifier with equality and a printable form. -/
structure AudioFormat where
  to_string : String
  deriving DecidableEq, Repr

/-- Modelled from the spec: the interface of `Channel` (absent `channel.hh`), one
snapshot of it. Every accessor the scheduler calls is a field. -/
structure Channel where
  name : String
  timescale : Nat
  vduration : Nat
  aduration : Nat
  vformats : List VideoFormat
  aformats : List AudioFormat
  init_vts : Nat
  find_ats : Nat → Nat
  vready : Nat → Bool
  aready : Nat → Bool
  vinit : VideoFormat → Bytes
  ainit : AudioFormat → Bytes
  vdata : VideoFormat → Nat → Bytes
  adata : AudioFormat → Nat → Bytes
  vcodec : String
  acodec : String

/-- Modelled from the spec: an in-progress segment (`VideoSegment` / `AudioSegment` of the
absent `ws_client.hh`): its format, the payload blob, the optional init blob and the
cursor, counted over init ∥ payload. -/
structure Segment (φ : Type) where
  format : φ
  data : Bytes
  init : Option Bytes
  offset : Nat

namespace Segment

variable {φ : Type}

/-- Modelled from the spec: the outbound stream of the segment, init ∥ payload. -/
def stream (s : Segment φ) : Bytes :=
  (match s.init with
   | some i => i
   | none => []) ++ s.data

/-- Modelled from the spec: `length()`, the total byte length of init ∥ payload. -/
def length (s : Segment φ) : Nat := s.stream.length

/-- Modelled from the spec: `done()`, the cursor has reached the total length. -/
def done (s : Segment φ) : Bool := s.offset == s.length

/-- Modelled from the spec: `read(n)` returns up to `n` bytes of init ∥ payload from
the cursor on and advances the cursor by the number of bytes returned. -/
def read (s : Segment φ) (n : Nat) : Bytes × Segment φ :=
  let chunk := (s.stream.drop s.offset).take n
  (chunk, { s with offset := s.offset + chunk.length })

end Segment

abbrev VideoSegment := Segment VideoFormat
abbrev AudioSegment := Segment AudioFormat

/-- Modelled from the spec: the per-connection state `WebSocketClient` (absent
`ws_client.hh`). The fields the source reads through `.value()` are optional. -/
structure WebSocketClient where
  connection_id : Nat
  init_id : Nat
  channel : Option String
  next_vts : Option Nat
  next_ats : Option Nat
  curr_vq : Option VideoFormat
  curr_aq : Option AudioFormat
  next_vsegment : Option VideoSegment
  next_asegment : Option AudioSegment
  client_next_vts : Option Nat
  client_next_ats : Option Nat
  video_playback_buf : Nat
  audio_playback_buf : Nat

namespace WebSocketClient

/-- Modelled from the spec: the constructor `WebSocketClient(connection_id)`, a fresh
client without channel, timestamps, qualities or segments. -/
def fresh (connection_id : Nat) : WebSocketClient :=
  { connection_id := connection_id, init_id := 0, channel := none,
    next_vts := none, next_ats := none, curr_vq := none, curr_aq := none,
    next_vsegment := none, next_asegment := none,
    client_next_vts := none, client_next_ats := none,
    video_playback_buf := 0, audio_playback_buf := 0 }

/-- Modelled from the spec: `init(channel, vts, ats)` of the absent `ws_client.hh`. It
bumps `init_id`, binds the channel, seeds the timestamps and clears both in-progress
segments. After it the client is a freshly initialised one, for which the first tick
sends the first segment of each stream with its init blob (scenario 2): the timestamps
seeded are the server-side cursors and the ones the client is taken to play next, nothing
is buffered, and there is no current quality. -/
def init (c : WebSocketClient) (channel : String) (vts ats : Nat) : WebSocketClient :=
  { c with init_id := c.init_id + 1, channel := some channel,
           next_vts := some vts, next_ats := some ats,
           next_vsegment := none, next_asegment := none,
           curr_vq := none, curr_aq := none,
           client_next_vts := some vts, client_next_ats := some ats,
           video_playback_buf := 0, audio_playback_buf := 0 }

/-- Modelled from the spec: `set_next_vsegment(format, data, init)` records a new
in-progress video segment with its cursor at 0. -/
def set_next_vsegment (c : WebSocketClient) (q : VideoFormat) (data : Bytes)
    (init_mmap : Option Bytes) : WebSocketClient :=
  { c with next_vsegment := some { format := q, data := data, init := init_mmap, offset := 0 } }

/-- Modelled from the spec: `set_next_asegment(format, data, init)` records a new
in-progress audio segment with its cursor at 0. -/
def set_next_asegment (c : WebSocketClient) (q : AudioFormat) (data : Bytes)
    (init_mmap : Option Bytes) : WebSocketClient :=
  { c with next_asegment := some { format := q, data := data, init := init_mmap, offset := 0 } }

def set_next_vts (c : WebSocketClient) (ts : Nat) : WebSocketClient := { c with next_vts := some ts }
def set_next_ats (c : WebSocketClient) (ts : Nat) : WebSocketClient := { c with next_ats := some ts }
def set_curr_vq (c : WebSocketClient) (q : VideoFormat) : WebSocketClient := { c with curr_vq := some q }
def set_curr_aq (c : WebSocketClient) (q : AudioFormat) : WebSocketClient := { c with curr_aq := some q }
def clear_next_vsegment (c : WebSocketClient) : WebSocketClient := { c with next_vsegment := none }
def clear_next_asegment (c : WebSocketClient) : WebSocketClient := { c with next_asegment := none }

end WebSocketClient

/-- Modelled from the spec: the header messages of the absent `message.hh`, as the tuple
of their fields (the byte encoding is left to `Env.header_len`). -/
inductive Msg
  | server_hello (channels : List String)
  | server_init (channel vcodec acodec : String) (timescale init_vts init_id : Nat)
  | video (format : String) (ts duration offset length : Nat)
  | audio (format : String) (ts duration offset length : Nat)
  deriving DecidableEq, Repr

def make_video_msg (format : String) (ts duration offset length : Nat) : Msg :=
  .video format ts duration offset length

def make_audio_msg (format : String) (ts duration offset length : Nat) : Msg :=
  .audio format ts duration offset length

def make_server_init_msg (channel vcodec acodec : String) (timescale init_vts init_id : Nat) : Msg :=
  .server_init channel vcodec acodec timescale init_vts init_id

def make_server_hello_msg (channels : List String) : Msg := .server_hello channels

/-- The opcode of a frame. -/
inductive OpCode
  | Binary
  deriving DecidableEq, Repr

/-- A frame `WSFrame {fin, opcode, payload}`; the payload string is the encoded header
followed by the appended data bytes. -/
structure WSFrame where
  fin : Bool
  opcode : OpCode
  header : Msg
  data : Bytes
  deriving DecidableEq, Repr

/-- One call of `queue_frame`, with the queue size of the connection at that moment. -/
structure Enqueued where
  connection_id : Nat
  frame : WSFrame
  queue_before : Nat
  deriving DecidableEq, Repr

/-- Modelled from the spec: the carrier `WebSocketServer` (absent `ws_server.hh`):
the pending bytes of every connection and the frames enqueued so far, oldest first. -/
structure WebSocketServer where
  pending : Nat → Nat
  sent : List Enqueued

/-- The globals of the program and the collaborators the calls depend on. -/
structure Env where
  -- the entries of the `std::map` `channels`, in its iteration order
  channels : List (String × Channel)
  max_buffer_seconds : Nat
  max_inflight_seconds : Nat
  max_ws_frame_len : Nat
  max_ws_queue_len : Nat
  -- the value returned by the `k`-th call of `rand()`
  rand : Nat → Nat
  -- byte length of the encoded header of a message (`message.hh` is absent)
  header_len : Msg → Nat
  -- queue size of a connection after a frame is enqueued, from the size before
  queue_after : Nat → WSFrame → Nat

/-- Number of payload bytes of a frame: encoded header plus appended data. -/
def payload_len (env : Env) (f : WSFrame) : Nat := env.header_len f.header + f.data.length

namespace WebSocketServer

def queue_size (s : WebSocketServer) (connection_id : Nat) : Nat := s.pending connection_id

/-- Modelled from the spec: `queue_frame(id, frame)` enqueues the frame; the queue of
that connection becomes `env.queue_after`, the other queues are untouched. -/
def queue_frame (env : Env) (s : WebSocketServer) (connection_id : Nat) (frame : WSFrame) :
    WebSocketServer :=
  { pending := fun c =>
      if c = connection_id then env.queue_after (s.pending connection_id) frame else s.pending c,
    sent := s.sent ++ [⟨connection_id, frame, s.pending connection_id⟩] }

end WebSocketServer

/-- The mutable state a scheduler call works on. -/
structure St where
  server : WebSocketServer
  client : WebSocketClient
  rand_calls : Nat

/-- Outcome of a call: the state reached, and the fault that ended it, if any. -/
structure Res where
  st : St
  fault : Option Fault

/-- The map lookup `channels.at(name)`. -/
def channels_at : List (String × Channel) → String → Option Channel
  | [], _ => none
  | (k, ch) :: rest, name => if k = name then some ch else channels_at rest name

/-! ## The procedures of `ws_media_server.cc` -/

/-- The function `randint(a, b)`, given the value `r` that `rand()` returns; `b - a`, the
remainder and the sum are `int` expressions. -/
def randint (a b : Int) (r : Nat) : Except Fault Int :=
  if a < b then
    if wrap_int (b - a) = 0 then .error .division_by_zero
    else
      let ret := wrap_int (a + Int.tmod (r : Int) (wrap_int (b - a)))
      if ret ≥ a ∧ ret < b then .ok ret else .error .assertion_failed
  else .error .assertion_failed

/-- The function `select_video_quality(client)`, with `r` the value of `rand()`. -/
def select_video_quality (env : Env) (client : WebSocketClient) (r : Nat) :
    Except Fault VideoFormat :=
  match client.channel with
  | none => .error .bad_optional_access
  | some name =>
    match channels_at env.channels name with
    | none => .error .out_of_range
    | some channel =>
      match randint 0 (to_int channel.vformats.length) r with
      | .error f => .error f
      | .ok i =>
        match channel.vformats[i.toNat]? with
        | none => .error .out_of_range
        | some q => .ok q

/-- The function `select_audio_quality(client)`, with `r` the value of `rand()`. -/
def select_audio_quality (env : Env) (client : WebSocketClient) (r : Nat) :
    Except Fault AudioFormat :=
  match client.channel with
  | none => .error .bad_optional_access
  | some name =>
    match channels_at env.channels name with
    | none => .error .out_of_range
    | some channel =>
      match randint 0 (to_int channel.aformats.length) r with
      | .error f => .error f
      | .ok i =>
        match channel.aformats[i.toNat]? with
        | none => .error .out_of_range
        | some q => .ok q

/-- Lines 72-92 of `serve_video_to_client`: when no video segment is in progress, start
one (or give `none` when the channel is not ready and the procedure returns). -/
def start_vsegment (env : Env) (channel : Channel) (next_vts : Nat) (st : St) :
    Except Fault (Option St) :=
  match st.client.next_vsegment with
  | some _ => .ok (some st)
  | none =>
    if channel.vready next_vts then
      match select_video_quality env st.client (env.rand st.rand_calls) with
      | .error f => .error f
      | .ok next_vq =>
        let init_mmap : Option Bytes :=
          if st.client.curr_vq = none ∨ st.client.curr_vq ≠ some next_vq
          then some (channel.vinit next_vq) else none
        .ok (some { st with
          rand_calls := st.rand_calls + 1,
          client := st.client.set_next_vsegment next_vq (channel.vdata next_vq next_vts) init_mmap })
    else .ok none

/-- Lines 94-109 of `serve_video_to_client`: build one frame from the in-progress
segment, enqueue it, and complete the segment when it is done. -/
def emit_video (env : Env) (channel : Channel) (next_vts : Nat) (st : St) : Res :=
  match st.client.next_vsegment with
  | none => ⟨st, some .bad_optional_access⟩
  | some next_vsegment =>
    let header := make_video_msg next_vsegment.format.to_string next_vts channel.vduration
      next_vsegment.offset next_vsegment.length
    let chunk := next_vsegment.read env.max_ws_frame_len
    let frame : WSFrame := ⟨true, .Binary, header, chunk.1⟩
    let server := st.server.queue_frame env st.client.connection_id frame
    let client := { st.client with next_vsegment := some chunk.2 }
    if chunk.2.done then
      ⟨{ st with server := server,
                 client := ((client.set_next_vts (add64 next_vts channel.vduration)).set_curr_vq
                              chunk.2.format).clear_next_vsegment }, none⟩
    else ⟨{ st with server := server, client := client }, none⟩

/-- The procedure `serve_video_to_client(server, client)`. -/
def serve_video_to_client (env : Env) (st : St) : Res :=
  match st.client.channel with
  | none => ⟨st, some .bad_optional_access⟩
  | some name =>
    match channels_at env.channels name with
    | none => ⟨st, some .out_of_range⟩
    | some channel =>
      match st.client.next_vts with
      | none => ⟨st, some .bad_optional_access⟩
      | some next_vts =>
        match start_vsegment env channel next_vts st with
        | .error f => ⟨st, some f⟩
        | .ok none => ⟨st, none⟩
        | .ok (some st1) => emit_video env channel next_vts st1

/-- Lines 117-137 of `serve_audio_to_client`: when no audio segment is in progress, start
one (or give `none` when the channel is not ready and the procedure returns). -/
def start_asegment (env : Env) (channel : Channel) (next_ats : Nat) (st : St) :
    Except Fault (Option St) :=
  match st.client.next_asegment with
  | some _ => .ok (some st)
  | none =>
    if channel.aready next_ats then
      match select_audio_quality env st.client (env.rand st.rand_calls) with
      | .error f => .error f
      | .ok next_aq =>
        let init_mmap : Option Bytes :=
          if st.client.curr_aq = none ∨ st.client.curr_aq ≠ some next_aq
          then some (channel.ainit next_aq) else none
        .ok (some { st with
          rand_calls := st.rand_calls + 1,
          client := st.client.set_next_asegment next_aq (channel.adata next_aq next_ats) init_mmap })
    else .ok none

/-- Lines 139-155 of `serve_audio_to_client`: build one frame from the in-progress
segment, enqueue it, and complete the segment when it is done. -/
def emit_audio (env : Env) (channel : Channel) (next_ats : Nat) (st : St) : Res :=
  match st.client.next_asegment with
  | none => ⟨st, some .bad_optional_access⟩
  | some next_asegment =>
    let header := make_audio_msg next_asegment.format.to_string next_ats channel.aduration
      next_asegment.offset next_asegment.length
    let chunk := next_asegment.read env.max_ws_frame_len
    let frame : WSFrame := ⟨true, .Binary, header, chunk.1⟩
    let server := st.server.queue_frame env st.client.connection_id frame
    let client := { st.client with next_asegment := some chunk.2 }
    if chunk.2.done then
      ⟨{ st with server := server,
                 client := ((client.set_next_ats (add64 next_ats channel.aduration)).set_curr_aq
                              chunk.2.format).clear_next_asegment }, none⟩
    else ⟨{ st with server := server, client := client }, none⟩

/-- The procedure `serve_audio_to_client(server, client)`. -/
def serve_audio_to_client (env : Env) (st : St) : Res :=
  match st.client.channel with
  | none => ⟨st, some .bad_optional_access⟩
  | some name =>
    match channels_at env.channels name with
    | none => ⟨st, some .out_of_range⟩
    | some channel =>
      match st.client.next_ats with
      | none => ⟨st, some .bad_optional_access⟩
      | some next_ats =>
        match start_asegment env channel next_ats st with
        | .error f => ⟨st, some f⟩
        | .ok none => ⟨st, none⟩
        | .ok (some st1) => emit_audio env channel next_ats st1

/-- The function `video_in_flight(channel, client)`: a 64-bit subtraction and division,
returned as `unsigned int`. -/
def video_in_flight (channel : Channel) (client : WebSocketClient) : Except Fault Nat :=
  match client.next_vts with
  | none => .error .bad_optional_access
  | some next_vts =>
    match client.client_next_vts with
    | none => .error .bad_optional_access
    | some client_next_vts =>
      if channel.timescale = 0 then .error .division_by_zero
      else .ok ((sub64 next_vts client_next_vts / channel.timescale) % UINT32_MOD)

/-- The function `audio_in_flight(channel, client)`: a 64-bit subtraction and division,
returned as `unsigned int`. -/
def audio_in_flight (channel : Channel) (client : WebSocketClient) : Except Fault Nat :=
  match client.next_ats with
  | none => .error .bad_optional_access
  | some next_ats =>
    match client.client_next_ats with
    | none => .error .bad_optional_access
    | some client_next_ats =>
      if channel.timescale = 0 then .error .division_by_zero
      else .ok ((sub64 next_ats client_next_ats / channel.timescale) % UINT32_MOD)

/-- The local `can_send_video` of `serve_client` (the conjunction short-circuits). -/
def can_send_video (env : Env) (channel : Channel) (client : WebSocketClient) :
    Except Fault Bool :=
  if client.video_playback_buf < env.max_buffer_seconds then
    match video_in_flight channel client with
    | .error f => .error f
    | .ok s => .ok (decide (s < env.max_inflight_seconds))
  else .ok false

/-- The local `can_send_audio` of `serve_client` (the conjunction short-circuits). -/
def can_send_audio (env : Env) (channel : Channel) (client : WebSocketClient) :
    Except Fault Bool :=
  if client.audio_playback_buf < env.max_buffer_seconds then
    match audio_in_flight channel client with
    | .error f => .error f
    | .ok s => .ok (decide (s < env.max_inflight_seconds))
  else .ok false

/-- Lines 186-194 of `serve_client`: audio first, then video if there is still room. -/
def serve_audio_first (env : Env) (csv csa : Bool) (st : St) : Res :=
  let r1 := if csa then serve_audio_to_client env st else ⟨st, none⟩
  match r1.fault with
  | some f => ⟨r1.st, some f⟩
  | none =>
    if csv ∧ r1.st.server.queue_size r1.st.client.connection_id < env.max_ws_queue_len then
      serve_video_to_client env r1.st
    else r1

/-- Lines 196-204 of `serve_client`: video first, then audio if there is still room. -/
def serve_video_first (env : Env) (csv csa : Bool) (st : St) : Res :=
  let r1 := if csv then serve_video_to_client env st else ⟨st, none⟩
  match r1.fault with
  | some f => ⟨r1.st, some f⟩
  | none =>
    if csa ∧ r1.st.server.queue_size r1.st.client.connection_id < env.max_ws_queue_len then
      serve_audio_to_client env r1.st
    else r1

/-- The procedure `serve_client(server, client)`. -/
def serve_client (env : Env) (st : St) : Res :=
  match st.client.channel with
  | none => ⟨st, some .bad_optional_access⟩
  | some name =>
    match channels_at env.channels name with
    | none => ⟨st, some .out_of_range⟩
    | some channel =>
      if st.server.queue_size st.client.connection_id < env.max_ws_queue_len then
        match can_send_video env channel st.client with
        | .error f => ⟨st, some f⟩
        | .ok csv =>
          match can_send_audio env channel st.client with
          | .error f => ⟨st, some f⟩
          | .ok csa =>
            match st.client.next_vts, st.client.next_ats with
            | some next_vts, some next_ats =>
              if next_vts > next_ats then serve_audio_first env csv csa st
              else serve_video_first env csv csa st
            | _, _ => ⟨st, some .bad_optional_access⟩
      else ⟨st, none⟩

/-- Modelled from the spec: the `Init` message of the absent `message.hh`. -/
structure ClientInitMessage where
  channel : Option String

/-- Modelled from the spec: the `Info` message of the absent `message.hh`. -/
structure ClientInfoMessage where
  init_id : Nat
  video_buffer_len : Nat
  audio_buffer_len : Nat
  next_video_timestamp : Nat
  next_audio_timestamp : Nat

/-- The iterator `channels.begin()`: the first entry of the map, if any. The list
`Env.channels` holds the entries of the `std::map` in its iteration order. -/
def channels_begin : List (String × Channel) → Option Channel
  | [] => none
  | (_, ch) :: _ => some ch

/-- The procedure `handle_client_init(server, client, message)`; the two locals
`init_vts` and `init_ats` are `uint16_t`. -/
def handle_client_init (env : Env) (st : St) (message : ClientInitMessage) : Res :=
  let it := match message.channel with
    | some name => channels_at env.channels name
    | none => channels_begin env.channels
  match it with
  | none => ⟨st, some .bad_client_message⟩
  | some channel =>
    let init_vts := channel.init_vts % UINT16_MOD
    let init_ats := channel.find_ats init_vts % UINT16_MOD
    let client := st.client.init channel.name init_vts init_ats
    match client.next_vts with
    | none => ⟨{ st with client := client }, some .bad_optional_access⟩
    | some next_vts =>
      let reply := make_server_init_msg channel.name channel.vcodec channel.acodec
        channel.timescale next_vts client.init_id
      ⟨{ st with client := client,
                 server := st.server.queue_frame env client.connection_id
                   ⟨true, .Binary, reply, []⟩ }, none⟩

/-- The procedure `handle_client_info(client, message)`. -/
def handle_client_info (client : WebSocketClient) (message : ClientInfoMessage) :
    WebSocketClient :=
  if message.init_id = client.init_id then
    { client with audio_playback_buf := message.audio_buffer_len,
                  video_playback_buf := message.video_buffer_len,
                  client_next_vts := some message.next_video_timestamp,
                  client_next_ats := some message.next_audio_timestamp }
  else client

/-- The frames a call enqueued: what `sent` holds beyond the `n` frames it held before. -/
def new_frames (before : St) (after : St) : List Enqueued :=
  after.server.sent.drop before.server.sent.length


/-! ## Predicates used in the statements -/

/-- A frame whose header is a `Video` message. -/
def is_video (f : WSFrame) : Prop := ∃ fmt ts dur off len, f.header = Msg.video fmt ts dur off len

/-- A frame whose header is an `Audio` message. -/
def is_audio (f : WSFrame) : Prop := ∃ fmt ts dur off len, f.header = Msg.audio fmt ts dur off len

/-- A list of formats a selector can draw from: non-empty (the data model says so) and
short enough for its size to be an `int`. -/
def formats_ok (n : Nat) : Prop := 0 < n ∧ n < 2147483648

/-! ## Concrete inputs -/

/-- The channel of the scenarios: `timescale = 90000`, `vduration = 180000`,
`aduration = 96000`; init blobs of 2 and 1 bytes, payloads of 5 and 3 bytes. -/
def demo_channel : Channel :=
  { name := "news", timescale := 90000, vduration := 180000, aduration := 96000,
    vformats := [⟨"1280x720-23"⟩, ⟨"854x480-26"⟩], aformats := [⟨"128k"⟩],
    init_vts := 360000, find_ats := fun v => v / 96000 * 96000,
    vready := fun _ => true, aready := fun _ => true,
    vinit := fun _ => [1, 2], ainit := fun _ => [9],
    vdata := fun _ _ => [3, 4, 5, 6, 7], adata := fun _ _ => [8, 8, 8],
    vcodec := "avc1", acodec := "opus" }

/-- Globals with the buffer caps of the scenarios, a frame cap of `frame_cap` bytes and a
queue cap of `queue_cap` bytes, a one-byte header, and a carrier that counts header and
data bytes. -/
def demo_env (frame_cap queue_cap : Nat) : Env :=
  { channels := [("news", demo_channel)], max_buffer_seconds := 60, max_inflight_seconds := 5,
    max_ws_frame_len := frame_cap, max_ws_queue_len := queue_cap, rand := fun k => k + 3,
    header_len := fun _ => 1, queue_after := fun q f => q + (1 + f.data.length) }

/-- A client subscribed to `news` whose reported timestamps equal the server-side ones. -/
def demo_client (v a : Nat) : WebSocketClient :=
  { WebSocketClient.fresh 7 with
    channel := some "news", init_id := 1, next_vts := some v, next_ats := some a,
    client_next_vts := some v, client_next_ats := some a }

/-- A state with every queue holding `q` bytes and nothing enqueued so far. -/
def demo_st (q v a : Nat) : St := ⟨⟨fun _ => q, []⟩, demo_client v a, 0⟩

/-- The frame that `serve_video_to_client` cuts from a segment: the header with the cursor
and total length before the read, then up to `max_ws_frame_len` bytes. -/
def video_frame (env : Env) (channel : Channel) (ts : Nat) (seg : VideoSegment) : WSFrame :=
  ⟨true, .Binary,
    make_video_msg seg.format.to_string ts channel.vduration seg.offset seg.length,
    (seg.read env.max_ws_frame_len).1⟩

/-- The frame that `serve_audio_to_client` cuts from a segment. -/
def audio_frame (env : Env) (channel : Channel) (ts : Nat) (seg : AudioSegment) : WSFrame :=
  ⟨true, .Binary,
    make_audio_msg seg.format.to_string ts channel.aduration seg.offset seg.length,
    (seg.read env.max_ws_frame_len).1⟩

/-- The specification's in-flight seconds: the quotient of the true difference
`next_ts - client_next_ts` by the timescale. -/
def spec_in_flight (next_ts client_next_ts timescale : Nat) : Int :=
  Int.tdiv ((next_ts : Int) - (client_next_ts : Int)) (timescale : Int)

/-- The specification's eligibility: buffer below its cap and in-flight below its cap. -/
def spec_can_send (buf max_buffer : Nat) (in_flight : Int) (max_inflight : Nat) : Bool :=
  decide (buf < max_buffer ∧ in_flight < (max_inflight : Int))

/-- A client whose `Info` reported `client_next_vts = 90000` while the server-side
`next_vts` is 1000 (and likewise for audio). -/
def ahead_client : WebSocketClient :=
  { demo_client 1000 1000 with client_next_vts := some 90000, client_next_ats := some 90000 }

/-- A client whose server-side timestamps are `2^32` seconds ahead of the reported ones. -/
def far_client : WebSocketClient :=
  { demo_client 386547056640000 386547056640000 with
    client_next_vts := some 0, client_next_ats := some 0 }

/-- A state whose client was opened as connection 7 and initialised once on `news`. -/
def fresh_init_st : St :=
  ⟨⟨fun _ => 0, []⟩, (WebSocketClient.fresh 7).init "news" 360000 288000, 0⟩

/-- The channel `news` with nothing ready yet. -/
def idle_channel : Channel :=
  { demo_channel with vready := fun _ => false, aready := fun _ => false }

/-- Globals whose only channel has nothing ready yet. -/
def idle_env : Env := { demo_env 4 4 with channels := [("news", idle_channel)] }

/-- The channel `news` with video only: no audio format, no audio segment ever ready. -/
def video_only_channel : Channel :=
  { demo_channel with aformats := [], aready := fun _ => false }

/-- The channel `news` with audio only: no video format, no video segment ever ready. -/
def audio_only_channel : Channel :=
  { demo_channel with vformats := [], vready := fun _ => false }

/-- Globals whose only channel has video only. -/
def video_only_env (frame_cap queue_cap : Nat) : Env :=
  { demo_env frame_cap queue_cap with channels := [("news", video_only_channel)] }

/-- Globals whose only channel has audio only. -/
def audio_only_env (frame_cap queue_cap : Nat) : Env :=
  { demo_env frame_cap queue_cap with channels := [("news", audio_only_channel)] }

/-- A state whose `next_vts` and `next_ats` are the largest 64-bit value. -/
def last_ts_st : St := demo_st 0 18446744073709551615 18446744073709551615

/-- A state whose client has just been opened as connection 7. -/
def opened_st : St := ⟨⟨fun _ => 0, []⟩, WebSocketClient.fresh 7, 0⟩

/-! ## A session: the ticks and `Info` messages between two `Init` messages -/

/-- One thing that happens to a client during a session: the timer fires (with the
globals and channel snapshots of that moment and the queue sizes the carrier then
reports), or an `Info` message arrives. -/
inductive SessionEvent
  | tick (env : Env) (pending : Nat → Nat)
  | info (message : ClientInfoMessage)

/-- One event of a session: the body of the loop in `start_global_timer` for this client,
or `handle_client_info`. -/
def session_step (st : St) : SessionEvent → Res
  | .tick env pending =>
    match st.client.channel with
    | some _ => serve_client env { st with server := { st.server with pending := pending } }
    | none => ⟨{ st with server := { st.server with pending := pending } }, none⟩
  | .info message => ⟨{ st with client := handle_client_info st.client message }, none⟩

/-- A run of events, stopping at the first fault. -/
def session_run : List SessionEvent → St → Res
  | [], st => ⟨st, none⟩
  | ev :: rest, st =>
    match (session_step st ev).fault with
    | some f => ⟨(session_step st ev).st, some f⟩
    | none => session_run rest (session_step st ev).st

/-- The pair `(ts, offset)` of a `Video` frame. -/
def video_key (e : Enqueued) : Option (Nat × Nat) :=
  match e.frame.header with
  | .video _ ts _ offset _ => some (ts, offset)
  | _ => none

/-- The pair `(ts, offset)` of an `Audio` frame. -/
def audio_key (e : Enqueued) : Option (Nat × Nat) :=
  match e.frame.header with
  | .audio _ ts _ offset _ => some (ts, offset)
  | _ => none

/-- Lexicographic order on pairs `(ts, offset)`. -/
def key_lt (a b : Nat × Nat) : Prop := a.1 < b.1 ∨ (a.1 = b.1 ∧ a.2 < b.2)

instance (a b : Nat × Nat) : Decidable (key_lt a b) := by
  unfold key_lt
  infer_instance

/-- The conditions of the frame-order property at a tick, for video: the frame cap and
the segment duration are positive and `next_vts + vduration` fits 64 bits. -/
def video_tick_cond (env : Env) (st : St) : Prop :=
  0 < env.max_ws_frame_len ∧
  ∀ name channel ts, st.client.channel = some name →
    channels_at env.channels name = some channel → st.client.next_vts = some ts →
    0 < channel.vduration ∧ ts + channel.vduration ≤ 18446744073709551615

/-- The conditions of the frame-order property at a tick, for audio. -/
def audio_tick_cond (env : Env) (st : St) : Prop :=
  0 < env.max_ws_frame_len ∧
  ∀ name channel ts, st.client.channel = some name →
    channels_at env.channels name = some channel → st.client.next_ats = some ts →
    0 < channel.aduration ∧ ts + channel.aduration ≤ 18446744073709551615

/-- Cursor of the video segment in progress, 0 when there is none. -/
def cur_voff (st : St) : Nat :=
  match st.client.next_vsegment with
  | some seg => seg.offset
  | none => 0

/-- Cursor of the audio segment in progress, 0 when there is none. -/
def cur_aoff (st : St) : Nat :=
  match st.client.next_asegment with
  | some seg => seg.offset
  | none => 0

/-- The invariant behind the frame order: the `Video` frames enqueued since the carrier
held `n0` frames are strictly increasing and all lie below the cursor `(next_vts, offset)`;
a segment in progress has its cursor within its length. -/
def video_order_inv (n0 : Nat) (st : St) : Prop :=
  n0 ≤ st.server.sent.length ∧
  List.Pairwise key_lt ((st.server.sent.drop n0).filterMap video_key) ∧
  (∀ seg, st.client.next_vsegment = some seg → seg.offset ≤ seg.length) ∧
  (∀ k ∈ (st.server.sent.drop n0).filterMap video_key,
    ∃ ts, st.client.next_vts = some ts ∧ key_lt k (ts, cur_voff st))

/-- The invariant behind the frame order, for audio. -/
def audio_order_inv (n0 : Nat) (st : St) : Prop :=
  n0 ≤ st.server.sent.length ∧
  List.Pairwise key_lt ((st.server.sent.drop n0).filterMap audio_key) ∧
  (∀ seg, st.client.next_asegment = some seg → seg.offset ≤ seg.length) ∧
  (∀ k ∈ (st.server.sent.drop n0).filterMap audio_key,
    ∃ ts, st.client.next_ats = some ts ∧ key_lt k (ts, cur_aoff st))

/-- The conditions `video_tick_cond`, as a test that can be run. -/
def video_tick_ok (env : Env) (st : St) : Bool :=
  decide (0 < env.max_ws_frame_len) &&
  match st.client.channel with
  | none => true
  | some name =>
    match channels_at env.channels name with
    | none => true
    | some channel =>
      match st.client.next_vts with
      | none => true
      | some ts =>
        decide (0 < channel.vduration) &&
        decide (ts + channel.vduration ≤ 18446744073709551615)

/-- The conditions `audio_tick_cond`, as a test that can be run. -/
def audio_tick_ok (env : Env) (st : St) : Bool :=
  decide (0 < env.max_ws_frame_len) &&
  match st.client.channel with
  | none => true
  | some name =>
    match channels_at env.channels name with
    | none => true
    | some channel =>
      match st.client.next_ats with
      | none => true
      | some ts =>
        decide (0 < channel.aduration) &&
        decide (ts + channel.aduration ≤ 18446744073709551615)

/-- The conditions of the video frame order hold at every tick a run executes. -/
def video_run_ok : List SessionEvent → St → Bool
  | [], _ => true
  | ev :: rest, st =>
    (match ev with
     | .tick env _ => video_tick_ok env st
     | .info _ => true) &&
    (match (session_step st ev).fault with
     | some _ => true
     | none => video_run_ok rest (session_step st ev).st)

/-- The conditions of the audio frame order hold at every tick a run executes. -/
def audio_run_ok : List SessionEvent → St → Bool
  | [], _ => true
  | ev :: rest, st =>
    (match ev with
     | .tick env _ => audio_tick_ok env st
     | .info _ => true) &&
    (match (session_step st ev).fault with
     | some _ => true
     | none => audio_run_ok rest (session_step st ev).st)

/-- A run of the scenario channel: four ticks with an empty queue and one `Info`. -/
def demo_events : List SessionEvent :=
  [.tick (demo_env 4 100) (fun _ => 0), .info ⟨1, 0, 0, 360000, 288000⟩,
   .tick (demo_env 4 100) (fun _ => 0), .tick (demo_env 4 100) (fun _ => 0),
   .tick (demo_env 4 100) (fun _ => 0)]

/-! ## The session start and the first `Video` frame -/

/-- The `init_vts` field of a `ServerInit` frame. -/
def server_init_vts (e : Enqueued) : Option Nat :=
  match e.frame.header with
  | .server_init _ _ _ _ init_vts _ => some init_vts
  | _ => none

/-- The `Video` pairs `(ts, offset)` enqueued since the carrier held `n0` frames. -/
def video_keys_since (n0 : Nat) (st : St) : List (Nat × Nat) :=
  (st.server.sent.drop n0).filterMap video_key

/-- The `Audio` pairs `(ts, offset)` enqueued since the carrier held `n0` frames. -/
def audio_keys_since (n0 : Nat) (st : St) : List (Nat × Nat) :=
  (st.server.sent.drop n0).filterMap audio_key

/-- An `Init`, an `Info` that reports the seeded timestamps, and three ticks with an empty
queue, on the scenario channel. -/
def info_then_ticks : List SessionEvent :=
  [.info ⟨1, 0, 0, 32320, 0⟩, .tick (demo_env 100 1000) (fun _ => 0),
   .tick (demo_env 100 1000) (fun _ => 0), .tick (demo_env 100 1000) (fun _ => 0)]


/-! ## Start-up: the configuration read by `main` -/

def DEFAULT_MAX_BUFFER_S : Int := 60
def DEFAULT_MAX_INFLIGHT_S : Int := 5
def DEFAULT_MAX_WS_FRAME_LEN : Nat := 100000
def DEFAULT_MAX_WS_QUEUE_LEN : Nat := DEFAULT_MAX_WS_FRAME_LEN

/-- Conversion of an `int` to `unsigned int`. -/
def to_unsigned (i : Int) : Nat := (i % 4294967296).toNat

/-- Conversion of an `int` to `size_t`. -/
def to_size_t (i : Int) : Nat := (i % 18446744073709551616).toNat

/-- Modelled from the spec: the configuration document as `main` reads it: the list
`channel` in document order, the `Channel` that the constructor of the absent `channel.hh`
builds for a name, and the four optional keys, each an `int` when present. -/
structure Config where
  channel : List String
  new_channel : String → Channel
  max_buffer_s : Option Int
  max_inflight_s : Option Int
  max_ws_frame_b : Option Int
  max_ws_queue_b : Option Int

/-- The call `channels.emplace(name, channel)` on the `std::map`: the entries stay in key
order (strings compare by their character sequences) and an entry whose key is present
already is kept. -/
def channels_emplace : List (String × Channel) → String → Channel → List (String × Channel)
  | [], name, ch => [(name, ch)]
  | (k, c) :: rest, name, ch =>
    if name.data < k.data then (name, ch) :: (k, c) :: rest
    else if name = k then (k, c) :: rest
    else (k, c) :: channels_emplace rest name ch

/-- The loop of `main` over `config["channel"]`: the map `channels` and the vector
`channel_names` after the names `names` have been read, starting from `acc`. -/
def load_channels (new_channel : String → Channel) :
    List String → List (String × Channel) × List String → List (String × Channel) × List String
  | [], acc => acc
  | name :: rest, acc =>
    load_channels new_channel rest
      (channels_emplace acc.1 name (new_channel name), acc.2 ++ [name])

/-- The globals that `main` sets from the configuration. -/
structure Globals where
  channels : List (String × Channel)
  channel_names : List String
  max_buffer_seconds : Nat
  max_inflight_seconds : Nat
  max_ws_frame_len : Nat
  max_ws_queue_len : Nat

/-- Lines 298-313 of `main`. -/
def main_config (cfg : Config) : Globals :=
  { channels := (load_channels cfg.new_channel cfg.channel ([], [])).1,
    channel_names := (load_channels cfg.new_channel cfg.channel ([], [])).2,
    max_buffer_seconds := to_unsigned (match cfg.max_buffer_s with
      | some i => i
      | none => DEFAULT_MAX_BUFFER_S),
    max_inflight_seconds := to_unsigned (match cfg.max_inflight_s with
      | some i => i
      | none => DEFAULT_MAX_INFLIGHT_S),
    max_ws_frame_len := (match cfg.max_ws_frame_b with
      | some i => to_size_t i
      | none => DEFAULT_MAX_WS_FRAME_LEN),
    max_ws_queue_len := (match cfg.max_ws_queue_b with
      | some i => to_size_t i
      | none => DEFAULT_MAX_WS_QUEUE_LEN) }

/-- The program's globals as the environment of the scheduler, given the collaborators. -/
def Globals.env (g : Globals) (rand : Nat → Nat) (header_len : Msg → Nat)
    (queue_after : Nat → WSFrame → Nat) : Env :=
  { channels := g.channels, max_buffer_seconds := g.max_buffer_seconds,
    max_inflight_seconds := g.max_inflight_seconds, max_ws_frame_len := g.max_ws_frame_len,
    max_ws_queue_len := g.max_ws_queue_len, rand := rand, header_len := header_len,
    queue_after := queue_after }

/-- The procedure `handle_client_open(server, connection_id)`, with the global
`channel_names`. -/
def handle_client_open (env : Env) (channel_names : List String) (server : WebSocketServer)
    (connection_id : Nat) : WebSocketServer :=
  server.queue_frame env connection_id
    ⟨true, .Binary, make_server_hello_msg channel_names, []⟩

/-- The names a `ServerHello` frame lists. -/
def server_hello_names (e : Enqueued) : Option (List String) :=
  match e.frame.header with
  | .server_hello names => some names
  | _ => none

/-- A configuration that lists `news` before `abc`, with a frame cap of 50000 bytes and
no queue cap. -/
def two_channel_config : Config :=
  { channel := ["news", "abc"], new_channel := fun name => { demo_channel with name := name },
    max_buffer_s := none, max_inflight_s := none,
    max_ws_frame_b := some 50000, max_ws_queue_b := none }

/-- The environment of `two_channel_config`, with the collaborators of `demo_env`. -/
def two_channel_env : Env :=
  (main_config two_channel_config).env (fun k => k + 3) (fun _ => 1)
    (fun q f => q + (1 + f.data.length))


/-- The scenario channel with `2^32` video formats and `2^32` audio formats. -/
def huge_channel : Channel :=
  { demo_channel with
    vformats := List.replicate 4294967296 ⟨"1280x720-23"⟩,
    aformats := List.replicate 4294967296 ⟨"128k"⟩ }

/-- Globals whose only channel is `huge_channel`. -/
def huge_env : Env := { demo_env 4 4 with channels := [("news", huge_channel)] }


/-- An `Info` of the current session that reports 1000 seconds in both playback buffers
and the seeded timestamps. -/
def full_buffer_info : List SessionEvent := [.info ⟨1, 1000, 1000, 32320, 0⟩]

/-- What one call of `serve_video_to_client` (or no call) may do to the cursors and the
carrier, from `st` to `st1`: see `serve_video_cursor`. -/
def video_cursor_step (env : Env) (st st1 : St) : Prop :=
  st1.client.channel = st.client.channel ∧
  st1.client.next_ats = st.client.next_ats ∧
  ∃ l, st1.server.sent = st.server.sent ++ l ∧
    (∀ e ∈ l, is_video e.frame) ∧
    (st1.client.next_vts = st.client.next_vts ∨
      (l ≠ [] ∧ ∃ name channel ts, st.client.channel = some name ∧
        channels_at env.channels name = some channel ∧ st.client.next_vts = some ts ∧
        st1.client.next_vts = some (add64 ts channel.vduration)))

/-- What one call of `serve_audio_to_client` (or no call) may do to the cursors and the
carrier, from `st` to `st1`: see `serve_audio_cursor`. -/
def audio_cursor_step (env : Env) (st st1 : St) : Prop :=
  st1.client.channel = st.client.channel ∧
  st1.client.next_vts = st.client.next_vts ∧
  ∃ l, st1.server.sent = st.server.sent ++ l ∧
    (∀ e ∈ l, is_audio e.frame) ∧
    (st1.client.next_ats = st.client.next_ats ∨
      (l ≠ [] ∧ ∃ name channel ts, st.client.channel = some name ∧
        channels_at env.channels name = some channel ∧ st.client.next_ats = some ts ∧
        st1.client.next_ats = some (add64 ts channel.aduration)))

/-- The cursors and the carrier after a tick, from `st` to `st1`, for a client on
`channel` with cursors `v` and `a`: each cursor stays, or advances by its segment duration
(in 64 bits) with a frame of its stream among the frames `l` of the tick. -/
def tick_cursors (channel : Channel) (v a : Nat) (st st1 : St) : Prop :=
  ∃ l, st1.server.sent = st.server.sent ++ l ∧
    (st1.client.next_vts = some v ∨
      ((∃ e ∈ l, is_video e.frame) ∧
        st1.client.next_vts = some (add64 v channel.vduration))) ∧
    (st1.client.next_ats = some a ∨
      ((∃ e ∈ l, is_audio e.frame) ∧
        st1.client.next_ats = some (add64 a channel.aduration)))


/-! ## Chunking of one segment -/

/-- The state after `n` successive calls of `serve_video_to_client`. -/
def serve_video_n (env : Env) : Nat → St → St
  | 0, st => st
  | n + 1, st => serve_video_n env n (serve_video_to_client env st).st

/-- The state after `n` successive calls of `serve_audio_to_client`. -/
def serve_audio_n (env : Env) : Nat → St → St
  | 0, st => st
  | n + 1, st => serve_audio_n env n (serve_audio_to_client env st).st

/-- The number `ceil(L / F)` of chunks of `F` bytes that cover `L` bytes. -/
def chunk_count (L F : Nat) : Nat := (L + F - 1) / F

/-- The `k`-th chunk of a stream cut into pieces of `F` bytes: the bytes
`[k * F, min((k + 1) * F, L))`. -/
def chunk_bytes (stream : Bytes) (F k : Nat) : Bytes := (stream.drop (k * F)).take F

/-- The `k`-th `Video` frame of a segment whose init ∥ payload is `stream`. -/
def video_chunk (format : String) (ts duration : Nat) (stream : Bytes) (F k : Nat) : WSFrame :=
  ⟨true, .Binary, make_video_msg format ts duration (k * F) stream.length,
    chunk_bytes stream F k⟩

/-- The `k`-th `Audio` frame of a segment whose init ∥ payload is `stream`. -/
def audio_chunk (format : String) (ts duration : Nat) (stream : Bytes) (F k : Nat) : WSFrame :=
  ⟨true, .Binary, make_audio_msg format ts duration (k * F) stream.length,
    chunk_bytes stream F k⟩

/-- The scenario channel with video segments of 249998 payload bytes (250000 with the
2-byte init blob). -/
def big_channel : Channel :=
  { demo_channel with vdata := fun _ _ => List.replicate 249998 3 }

/-- Globals with the caps of the scenarios (100000 bytes per frame and per queue) and
`big_channel`. -/
def big_env : Env := { demo_env 100000 100000 with channels := [("news", big_channel)] }

/-- The channel of `big_channel` with video only: no audio format, no audio segment ever
ready. -/
def big_video_channel : Channel :=
  { big_channel with aformats := [], aready := fun _ => false }

/-- Globals with a frame cap of 100000 bytes whose only channel is `big_video_channel`. -/
def big_video_env : Env :=
  { demo_env 100000 100000 with channels := [("news", big_video_channel)] }


/-! ## The client registry and the callbacks of `main` -/

/-- The mutable state of the program: the carrier, the map `clients` (its entries in key
order) and the number of `rand()` calls so far. -/
structure Sys where
  server : WebSocketServer
  clients : List (Nat × WebSocketClient)
  rand_calls : Nat

/-- Outcome of a callback: the state reached, and the fault that escaped it, if any. -/
structure SysRes where
  sys : Sys
  fault : Option Fault

/-- The map lookup `clients.at(connection_id)`. -/
def clients_at : List (Nat × WebSocketClient) → Nat → Option WebSocketClient
  | [], _ => none
  | (k, c) :: rest, id => if k = id then some c else clients_at rest id

/-- The call `clients.erase(connection_id)`. -/
def clients_erase : List (Nat × WebSocketClient) → Nat → List (Nat × WebSocketClient)
  | [], _ => []
  | (k, c) :: rest, id => if k = id then clients_erase rest id else (k, c) :: clients_erase rest id

/-- Writing through the reference that `clients.at(connection_id)` returned. -/
def clients_set : List (Nat × WebSocketClient) → Nat → WebSocketClient →
    List (Nat × WebSocketClient)
  | [], _, _ => []
  | (k, c) :: rest, id, c1 =>
    if k = id then (k, c1) :: rest else (k, c) :: clients_set rest id c1

/-- Insertion of a new entry at its place in key order. -/
def clients_insert : List (Nat × WebSocketClient) → Nat → WebSocketClient →
    List (Nat × WebSocketClient)
  | [], id, c1 => [(id, c1)]
  | (k, c) :: rest, id, c1 =>
    if id < k then (id, c1) :: (k, c) :: rest else (k, c) :: clients_insert rest id c1

/-- The call `clients.emplace(connection_id, client)`: `none` when the key is present
already (`ret.second` is false), else the map with the new entry in key order. -/
def clients_emplace (clients : List (Nat × WebSocketClient)) (connection_id : Nat)
    (client : WebSocketClient) : Option (List (Nat × WebSocketClient)) :=
  match clients_at clients connection_id with
  | some _ => none
  | none => some (clients_insert clients connection_id client)

/-- Modelled from the spec: what `unpack_client_msg` and the two parse functions of the
absent `message.hh` make of a payload: an unparsable message (they throw
`BadClientMessageException`), an `Init`, an `Info`, or a message of another type. -/
inductive ClientMsg
  | unparsable
  | init (message : ClientInitMessage)
  | info (message : ClientInfoMessage)
  | other

/-- The message callback of `main` (lines 318-347). -/
def on_message (env : Env) (sys : Sys) (connection_id : Nat) (msg : ClientMsg) : SysRes :=
  match clients_at sys.clients connection_id with
  | none => ⟨sys, some .out_of_range⟩
  | some client =>
    match msg with
    | .unparsable => ⟨{ sys with clients := clients_erase sys.clients connection_id }, none⟩
    | .init message =>
      match handle_client_init env ⟨sys.server, client, sys.rand_calls⟩ message with
      | ⟨st, none⟩ =>
        ⟨⟨st.server, clients_set sys.clients connection_id st.client, st.rand_calls⟩, none⟩
      | ⟨st, some .bad_client_message⟩ =>
        ⟨⟨st.server, clients_erase (clients_set sys.clients connection_id st.client)
            connection_id, st.rand_calls⟩, none⟩
      | ⟨st, some f⟩ =>
        ⟨⟨st.server, clients_set sys.clients connection_id st.client, st.rand_calls⟩, some f⟩
    | .info message =>
      ⟨{ sys with clients :=
          clients_set sys.clients connection_id (handle_client_info client message) }, none⟩
    | .other => ⟨sys, none⟩

/-- The open callback of `main` (lines 349-361). -/
def on_open (env : Env) (channel_names : List String) (sys : Sys) (connection_id : Nat) :
    SysRes :=
  match clients_emplace sys.clients connection_id (WebSocketClient.fresh connection_id) with
  | some clients =>
    ⟨{ sys with
        server := handle_client_open env channel_names sys.server connection_id,
        clients := clients }, none⟩
  | none =>
    ⟨{ sys with server := handle_client_open env channel_names sys.server connection_id },
      some .runtime_error⟩

/-- The close callback of `main` (lines 363-370). -/
def on_close (sys : Sys) (connection_id : Nat) : SysRes :=
  ⟨{ sys with clients := clients_erase sys.clients connection_id }, none⟩

/-- The loop of the timer callback (lines 219-224) over the entries still to visit. -/
def tick_loop (env : Env) :
    List (Nat × WebSocketClient) → WebSocketServer → Nat → Sys × Option Fault
  | [], server, rand_calls => (⟨server, [], rand_calls⟩, none)
  | (k, c) :: rest, server, rand_calls =>
    match c.channel with
    | none =>
      let r := tick_loop env rest server rand_calls
      (⟨r.1.server, (k, c) :: r.1.clients, r.1.rand_calls⟩, r.2)
    | some _ =>
      match serve_client env ⟨server, c, rand_calls⟩ with
      | ⟨st, some f⟩ => (⟨st.server, (k, st.client) :: rest, st.rand_calls⟩, some f)
      | ⟨st, none⟩ =>
        let r := tick_loop env rest st.server st.rand_calls
        (⟨r.1.server, (k, st.client) :: r.1.clients, r.1.rand_calls⟩, r.2)

/-- The timer callback of `start_global_timer`. -/
def on_tick (env : Env) (sys : Sys) : SysRes :=
  ⟨(tick_loop env sys.clients sys.server sys.rand_calls).1,
    (tick_loop env sys.clients sys.server sys.rand_calls).2⟩

/-- One event of the event loop; a tick comes with the queue sizes the carrier reports at
that moment. -/
inductive SysEvent
  | opened (env : Env) (channel_names : List String) (connection_id : Nat)
  | closed (connection_id : Nat)
  | message (env : Env) (connection_id : Nat) (msg : ClientMsg)
  | tick (env : Env) (pending : Nat → Nat)

/-- One event handled by its callback. -/
def sys_step (sys : Sys) : SysEvent → SysRes
  | .opened env channel_names connection_id => on_open env channel_names sys connection_id
  | .closed connection_id => on_close sys connection_id
  | .message env connection_id msg => on_message env sys connection_id msg
  | .tick env pending => on_tick env { sys with server := { sys.server with pending := pending } }

/-- A run of the event loop, stopping at the first fault that escapes a callback. -/
def sys_run : List SysEvent → Sys → SysRes
  | [], sys => ⟨sys, none⟩
  | ev :: rest, sys =>
    match (sys_step sys ev).fault with
    | some f => ⟨(sys_step sys ev).sys, some f⟩
    | none => sys_run rest (sys_step sys ev).sys

/-- The state at start-up: no client, nothing enqueued. -/
def sys_init : Sys := ⟨⟨fun _ => 0, []⟩, [], 0⟩

/-- The frames enqueued between two states of the program. -/
def sys_new_frames (before after : Sys) : List Enqueued :=
  after.server.sent.drop before.server.sent.length

/-- The frames a tick enqueues in state `sys`. -/
def tick_frames (env : Env) (pending : Nat → Nat) (sys : Sys) : List Enqueued :=
  sys_new_frames sys (sys_step sys (.tick env pending)).sys

/-- Every entry of the registry holds the client of its key, and no key occurs twice. -/
def registry_ok (clients : List (Nat × WebSocketClient)) : Prop :=
  (∀ p ∈ clients, p.2.connection_id = p.1) ∧ (clients.map Prod.fst).Nodup

/-- The event is an `Init` message of connection `id`. -/
def is_init_from (id : Nat) : SysEvent → Bool
  | .message _ j (.init _) => j == id
  | _ => false

/-- The event is the opening of connection `id`. -/
def is_open_of (id : Nat) : SysEvent → Bool
  | .opened _ _ j => j == id
  | _ => false

/-- What a scheduler call may do to the state it is given: the client keeps its
connection and its channel, and the carrier gets frames of that connection only. -/
def serves_own_frames (st st1 : St) : Prop :=
  st1.client.connection_id = st.client.connection_id ∧
  st1.client.channel = st.client.channel ∧
  ∃ fs, st1.server.sent = st.server.sent ++ fs ∧
    ∀ e ∈ fs, e.connection_id = st.client.connection_id

/-- Two connections open, connection 7 subscribes to `news` and reports its buffers,
connection 9 names a channel that does not exist, and the timer fires. -/
def demo_sys_events : List SysEvent :=
  [.opened (demo_env 100 1000) ["news"] 7, .opened (demo_env 100 1000) ["news"] 9,
   .message (demo_env 100 1000) 7 (.init ⟨some "news"⟩),
   .message (demo_env 100 1000) 7 (.info ⟨1, 0, 0, 32320, 0⟩),
   .message (demo_env 100 1000) 9 (.init ⟨some "sports"⟩),
   .tick (demo_env 100 1000) (fun _ => 0)]

/-- Connection 7 opens, subscribes to `news` and reports its buffers. -/
def one_subscriber : List SysEvent :=
  [.opened (demo_env 100 1000) ["news"] 7,
   .message (demo_env 100 1000) 7 (.init ⟨some "news"⟩),
   .message (demo_env 100 1000) 7 (.info ⟨1, 0, 0, 32320, 0⟩)]

/-- An `Info` message of connection 9 and a tick. -/
def quiet_events : List SysEvent :=
  [.message (demo_env 100 1000) 9 (.info ⟨0, 0, 0, 0, 0⟩),
   .tick (demo_env 100 1000) (fun _ => 0)]

/-- Connections 7 and 9 open, subscribe to `news` and report their buffers. -/
def two_subscribers : List SysEvent :=
  [.opened (demo_env 100 1000) ["news"] 7, .opened (demo_env 100 1000) ["news"] 9,
   .message (demo_env 100 1000) 7 (.init ⟨some "news"⟩),
   .message (demo_env 100 1000) 7 (.info ⟨1, 0, 0, 32320, 0⟩),
   .message (demo_env 100 1000) 9 (.init ⟨none⟩),
   .message (demo_env 100 1000) 9 (.info ⟨1, 0, 0, 32320, 0⟩)]

/-! ## Runs of carrier events -/

/-- The connections the carrier holds open after an event: those opened and not closed
since. -/
def open_after (conns : List Nat) : SysEvent → List Nat
  | .opened _ _ id => id :: conns
  | .closed id => conns.filter (fun j => j != id)
  | _ => conns

/-- Every message of the events comes from a connection that was opened and has not been
closed, `conns` being the connections open at the start. -/
def messages_from_open : List Nat → List SysEvent → Bool
  | _, [] => true
  | conns, ev :: rest =>
    (match ev with
      | .message _ id _ => conns.contains id
      | _ => true) && messages_from_open (open_after conns ev) rest

/-- Connections 7 and 9 open and connection 9 sends a message that cannot be parsed. -/
def garbage_from_9 : List SysEvent :=
  [.opened (demo_env 100 1000) ["news"] 7, .opened (demo_env 100 1000) ["news"] 9,
   .message (demo_env 100 1000) 9 .unparsable]

/-- Connections 7 and 9 open and connection 9 asks for a channel that does not exist. -/
def unknown_channel_from_9 : List SysEvent :=
  [.opened (demo_env 100 1000) ["news"] 7, .opened (demo_env 100 1000) ["news"] 9,
   .message (demo_env 100 1000) 9 (.init ⟨some "sports"⟩)]

/-- The next message of connection 9: a well-formed `Init` for the channel `news`. -/
def init_news_from_9 : SysEvent := .message (demo_env 100 1000) 9 (.init ⟨some "news"⟩)

/-! ## Repeated scheduler calls without a drain -/

/-- The state after `n` consecutive calls of `serve_client`, the carrier sending nothing
in between. -/
def serve_client_n (env : Env) : Nat → St → St
  | 0, st => st
  | n + 1, st => serve_client_n env n (serve_client env st).st

/-- What one emit call, or none, may do to the queues, from `st` to `st1`, when no frame
is larger than `S`: the client's queue grows by at most `S`, no other queue changes. -/
def queue_step (S : Nat) (st st1 : St) : Prop :=
  st1.client.connection_id = st.client.connection_id ∧
  st1.server.queue_size st.client.connection_id ≤
    st.server.queue_size st.client.connection_id + S ∧
  ∀ j, j ≠ st.client.connection_id → st1.server.queue_size j = st.server.queue_size j

/-- The queues after a call of `serve_client`, from `st` to `st1`: the client's queue is
below `B`, and no other queue has changed. -/
def queue_below (B : Nat) (st st1 : St) : Prop :=
  st1.client.connection_id = st.client.connection_id ∧
  st1.server.queue_size st.client.connection_id < B ∧
  ∀ j, j ≠ st.client.connection_id → st1.server.queue_size j = st.server.queue_size j

/-! ## Committed playback -/

/-- What the scheduler never writes: the four fields an `Info` message reports. -/
def same_reports (c c1 : WebSocketClient) : Prop :=
  c1.client_next_vts = c.client_next_vts ∧ c1.client_next_ats = c.client_next_ats ∧
  c1.video_playback_buf = c.video_playback_buf ∧ c1.audio_playback_buf = c.audio_playback_buf

/-- The committed-playback bound for video: the seconds in flight, as the code computes
them, plus the seconds the client reports as buffered are at most
`max_buffer_seconds + max_inflight_seconds + 1`. -/
def video_committed_ok (env : Env) (channel : Channel) (client : WebSocketClient) : Prop :=
  ∃ s, video_in_flight channel client = .ok s ∧
    s + client.video_playback_buf ≤ env.max_buffer_seconds + env.max_inflight_seconds + 1

/-- The committed-playback bound for audio. -/
def audio_committed_ok (env : Env) (channel : Channel) (client : WebSocketClient) : Prop :=
  ∃ s, audio_in_flight channel client = .ok s ∧
    s + client.audio_playback_buf ≤ env.max_buffer_seconds + env.max_inflight_seconds + 1

/-- A run whose ticks are ticks of `env` and whose `Info` messages each leave the video
bound in force: what the client reports is within the bound. -/
def video_reports_ok (env : Env) (channel : Channel) : List SessionEvent → St → Prop
  | [], _ => True
  | .tick env1 pending :: rest, st =>
    env1 = env ∧ video_reports_ok env channel rest (session_step st (.tick env1 pending)).st
  | .info message :: rest, st =>
    video_committed_ok env channel (handle_client_info st.client message) ∧
    video_reports_ok env channel rest (session_step st (.info message)).st

/-- A run whose ticks are ticks of `env` and whose `Info` messages each leave the audio
bound in force. -/
def audio_reports_ok (env : Env) (channel : Channel) : List SessionEvent → St → Prop
  | [], _ => True
  | .tick env1 pending :: rest, st =>
    env1 = env ∧ audio_reports_ok env channel rest (session_step st (.tick env1 pending)).st
  | .info message :: rest, st =>
    audio_committed_ok env channel (handle_client_info st.client message) ∧
    audio_reports_ok env channel rest (session_step st (.info message)).st

/-- The scenario channel with segments of 10 seconds. -/
def long_segment_channel : Channel :=
  { demo_channel with vduration := 900000, aduration := 900000 }

/-- Globals whose only channel has segments of 10 seconds. -/
def long_segment_env : Env :=
  { demo_env 100 1000 with channels := [("news", long_segment_channel)] }

/-- An `Info` of the current session that reports 59 seconds in both playback buffers and
the seeded timestamps, then a tick with an empty queue. -/
def honest_info_then_tick : List SessionEvent :=
  [.info ⟨1, 59, 59, 32320, 0⟩, .tick long_segment_env (fun _ => 0)]

/-! ## The priority rule and the two cursors -/

theorem start_vsegment_keeps (env : Env) (channel : Channel) (ts : Nat) (st st1 : St)
    (h : start_vsegment env channel ts st = .ok (some st1)) :
    st1.server = st.server ∧ st1.client.connection_id = st.client.connection_id ∧
      st1.client.channel = st.client.channel ∧ st1.client.next_vsegment ≠ none := by
  unfold start_vsegment at h
  split at h
  · next seg hseg =>
    simp only [Except.ok.injEq, Option.some.injEq] at h
    subst h
    simp [hseg]
  · split at h
    · split at h
      · simp at h
      · simp only [Except.ok.injEq, Option.some.injEq] at h
        subst h
        simp [WebSocketClient.set_next_vsegment]
    · simp at h

theorem emit_video_effect (env : Env) (channel : Channel) (ts : Nat) (st : St)
    (h : st.client.next_vsegment ≠ none) :
    (emit_video env channel ts st).fault = none ∧
    (emit_video env channel ts st).st.client.connection_id = st.client.connection_id ∧
    (emit_video env channel ts st).st.client.channel = st.client.channel ∧
    ∃ f, is_video f ∧
      (emit_video env channel ts st).st.server = st.server.queue_frame env st.client.connection_id f := by
  unfold emit_video
  split
  · next hn => exact absurd hn h
  · next seg hseg =>
    dsimp only
    split
    · refine ⟨rfl, rfl, rfl, _, ⟨_, _, _, _, _, rfl⟩, rfl⟩
    · refine ⟨rfl, rfl, rfl, _, ⟨_, _, _, _, _, rfl⟩, rfl⟩

theorem serve_video_effect (env : Env) (st : St) :
    (serve_video_to_client env st).st.client.connection_id = st.client.connection_id ∧
    (serve_video_to_client env st).st.client.channel = st.client.channel ∧
    ((serve_video_to_client env st).st = st ∨
      ((serve_video_to_client env st).fault = none ∧ ∃ f, is_video f ∧
        (serve_video_to_client env st).st.server =
          st.server.queue_frame env st.client.connection_id f)) := by
  cases hc : st.client.channel with
  | none => simp [serve_video_to_client, hc]
  | some name =>
    cases hch : channels_at env.channels name with
    | none => simp [serve_video_to_client, hc, hch]
    | some channel =>
      cases hts : st.client.next_vts with
      | none => simp [serve_video_to_client, hc, hch, hts]
      | some ts =>
        cases hst : start_vsegment env channel ts st with
        | error f => simp [serve_video_to_client, hc, hch, hts, hst]
        | ok o =>
          cases o with
          | none => simp [serve_video_to_client, hc, hch, hts, hst]
          | some st1 =>
            obtain ⟨hs, hid, hch1, hseg⟩ := start_vsegment_keeps env channel ts st st1 hst
            obtain ⟨hf, hid2, hch2, f, hv, hq⟩ := emit_video_effect env channel ts st1 hseg
            simp only [serve_video_to_client, hc, hch, hts, hst]
            refine ⟨hid2.trans hid, ?_, Or.inr ⟨hf, f, hv, ?_⟩⟩
            · exact hch2.trans (hch1.trans hc)
            · rw [← hs, ← hid]; exact hq

theorem start_asegment_keeps (env : Env) (channel : Channel) (ts : Nat) (st st1 : St)
    (h : start_asegment env channel ts st = .ok (some st1)) :
    st1.server = st.server ∧ st1.client.connection_id = st.client.connection_id ∧
      st1.client.channel = st.client.channel ∧ st1.client.next_asegment ≠ none := by
  unfold start_asegment at h
  split at h
  · next seg hseg =>
    simp only [Except.ok.injEq, Option.some.injEq] at h
    subst h
    simp [hseg]
  · split at h
    · split at h
      · simp at h
      · simp only [Except.ok.injEq, Option.some.injEq] at h
        subst h
        simp [WebSocketClient.set_next_asegment]
    · simp at h

theorem emit_audio_effect (env : Env) (channel : Channel) (ts : Nat) (st : St)
    (h : st.client.next_asegment ≠ none) :
    (emit_audio env channel ts st).fault = none ∧
    (emit_audio env channel ts st).st.client.connection_id = st.client.connection_id ∧
    (emit_audio env channel ts st).st.client.channel = st.client.channel ∧
    ∃ f, is_audio f ∧
      (emit_audio env channel ts st).st.server = st.server.queue_frame env st.client.connection_id f := by
  unfold emit_audio
  split
  · next hn => exact absurd hn h
  · next seg hseg =>
    dsimp only
    split
    · refine ⟨rfl, rfl, rfl, _, ⟨_, _, _, _, _, rfl⟩, rfl⟩
    · refine ⟨rfl, rfl, rfl, _, ⟨_, _, _, _, _, rfl⟩, rfl⟩

theorem serve_audio_effect (env : Env) (st : St) :
    (serve_audio_to_client env st).st.client.connection_id = st.client.connection_id ∧
    (serve_audio_to_client env st).st.client.channel = st.client.channel ∧
    ((serve_audio_to_client env st).st = st ∨
      ((serve_audio_to_client env st).fault = none ∧ ∃ f, is_audio f ∧
        (serve_audio_to_client env st).st.server =
          st.server.queue_frame env st.client.connection_id f)) := by
  cases hc : st.client.channel with
  | none => simp [serve_audio_to_client, hc]
  | some name =>
    cases hch : channels_at env.channels name with
    | none => simp [serve_audio_to_client, hc, hch]
    | some channel =>
      cases hts : st.client.next_ats with
      | none => simp [serve_audio_to_client, hc, hch, hts]
      | some ts =>
        cases hst : start_asegment env channel ts st with
        | error f => simp [serve_audio_to_client, hc, hch, hts, hst]
        | ok o =>
          cases o with
          | none => simp [serve_audio_to_client, hc, hch, hts, hst]
          | some st1 =>
            obtain ⟨hs, hid, hch1, hseg⟩ := start_asegment_keeps env channel ts st st1 hst
            obtain ⟨hf, hid2, hch2, f, hv, hq⟩ := emit_audio_effect env channel ts st1 hseg
            simp only [serve_audio_to_client, hc, hch, hts, hst]
            refine ⟨hid2.trans hid, ?_, Or.inr ⟨hf, f, hv, ?_⟩⟩
            · exact hch2.trans (hch1.trans hc)
            · rw [← hs, ← hid]; exact hq

/-! ## Frames enqueued by one `serve_client` call -/

theorem new_frames_self (st : St) : new_frames st st = [] := by
  simp [new_frames]

theorem new_frames_queue_frame (env : Env) (st st1 : St) (f : WSFrame)
    (h : st1.server = st.server.queue_frame env st.client.connection_id f) :
    new_frames st st1 =
      [⟨st.client.connection_id, f, st.server.queue_size st.client.connection_id⟩] := by
  simp [new_frames, h, WebSocketServer.queue_frame, WebSocketServer.queue_size]

theorem new_frames_queue_frame_twice (env : Env) (st st1 st2 : St) (f1 f2 : WSFrame)
    (h1 : st1.server = st.server.queue_frame env st.client.connection_id f1)
    (h2 : st2.server = st1.server.queue_frame env st.client.connection_id f2) :
    new_frames st st2 =
      [⟨st.client.connection_id, f1, st.server.queue_size st.client.connection_id⟩,
       ⟨st.client.connection_id, f2,
         env.queue_after (st.server.queue_size st.client.connection_id) f1⟩] := by
  simp [new_frames, h1, h2, WebSocketServer.queue_frame, WebSocketServer.queue_size]

/-- The frames of the audio-first branch: none, one of either kind, or audio then video. -/
theorem serve_audio_first_frames (env : Env) (csv csa : Bool) (st : St) :
    new_frames st (serve_audio_first env csv csa st).st = [] ∨
    (∃ f, is_audio f ∧ csa = true ∧
      new_frames st (serve_audio_first env csv csa st).st =
        [⟨st.client.connection_id, f, st.server.queue_size st.client.connection_id⟩]) ∨
    (∃ f, is_video f ∧ csv = true ∧
      new_frames st (serve_audio_first env csv csa st).st =
        [⟨st.client.connection_id, f, st.server.queue_size st.client.connection_id⟩]) ∨
    (∃ f1 f2, is_audio f1 ∧ is_video f2 ∧ csa = true ∧ csv = true ∧
      env.queue_after (st.server.queue_size st.client.connection_id) f1 < env.max_ws_queue_len ∧
      new_frames st (serve_audio_first env csv csa st).st =
        [⟨st.client.connection_id, f1, st.server.queue_size st.client.connection_id⟩,
         ⟨st.client.connection_id, f2,
           env.queue_after (st.server.queue_size st.client.connection_id) f1⟩]) := by
  obtain ⟨aid, -, aeff⟩ := serve_audio_effect env st
  unfold serve_audio_first
  dsimp only
  cases csa with
  | false =>
    simp only [Bool.false_eq_true, if_false]
    split
    · next hcond =>
      obtain ⟨-, -, veff⟩ := serve_video_effect env st
      rcases veff with h | ⟨-, f, hf, hq⟩
      · left; rw [h]; exact new_frames_self st
      · right; right; left
        exact ⟨f, hf, by simpa using hcond.1, new_frames_queue_frame env st _ f hq⟩
    · left; exact new_frames_self st
  | true =>
    simp only [if_true]
    rcases aeff with h | ⟨hfault, f1, hf1, hq1⟩
    · rw [h]
      cases hfa : (serve_audio_to_client env st).fault with
      | some e => left; simp only [h]; exact new_frames_self st
      | none =>
        simp only []
        split
        · next hcond =>
          obtain ⟨-, -, veff⟩ := serve_video_effect env st
          rcases veff with h | ⟨-, f, hf, hq⟩
          · left; rw [h]; exact new_frames_self st
          · right; right; left
            exact ⟨f, hf, by simpa using hcond.1, new_frames_queue_frame env st _ f hq⟩
        · left; rw [h]; exact new_frames_self st
    · rw [hfault]
      simp only []
      split
      · next hcond =>
        obtain ⟨-, -, veff⟩ := serve_video_effect env (serve_audio_to_client env st).st
        rcases veff with h | ⟨-, f2, hf2, hq2⟩
        · right; left
          rw [h]
          exact ⟨f1, hf1, trivial, new_frames_queue_frame env st _ f1 hq1⟩
        · right; right; right
          rw [aid] at hq2
          refine ⟨f1, f2, hf1, hf2, trivial, by simpa using hcond.1, ?_,
            new_frames_queue_frame_twice env st _ _ f1 f2 hq1 hq2⟩
          have := hcond.2
          rw [aid, hq1] at this
          simpa [WebSocketServer.queue_frame, WebSocketServer.queue_size] using this
      · right; left
        exact ⟨f1, hf1, trivial, new_frames_queue_frame env st _ f1 hq1⟩

/-- The frames of the video-first branch: none, one of either kind, or video then audio. -/
theorem serve_video_first_frames (env : Env) (csv csa : Bool) (st : St) :
    new_frames st (serve_video_first env csv csa st).st = [] ∨
    (∃ f, is_video f ∧ csv = true ∧
      new_frames st (serve_video_first env csv csa st).st =
        [⟨st.client.connection_id, f, st.server.queue_size st.client.connection_id⟩]) ∨
    (∃ f, is_audio f ∧ csa = true ∧
      new_frames st (serve_video_first env csv csa st).st =
        [⟨st.client.connection_id, f, st.server.queue_size st.client.connection_id⟩]) ∨
    (∃ f1 f2, is_video f1 ∧ is_audio f2 ∧ csv = true ∧ csa = true ∧
      env.queue_after (st.server.queue_size st.client.connection_id) f1 < env.max_ws_queue_len ∧
      new_frames st (serve_video_first env csv csa st).st =
        [⟨st.client.connection_id, f1, st.server.queue_size st.client.connection_id⟩,
         ⟨st.client.connection_id, f2,
           env.queue_after (st.server.queue_size st.client.connection_id) f1⟩]) := by
  obtain ⟨aid, -, aeff⟩ := serve_video_effect env st
  unfold serve_video_first
  dsimp only
  cases csv with
  | false =>
    simp only [Bool.false_eq_true, if_false]
    split
    · next hcond =>
      obtain ⟨-, -, veff⟩ := serve_audio_effect env st
      rcases veff with h | ⟨-, f, hf, hq⟩
      · left; rw [h]; exact new_frames_self st
      · right; right; left
        exact ⟨f, hf, by simpa using hcond.1, new_frames_queue_frame env st _ f hq⟩
    · left; exact new_frames_self st
  | true =>
    simp only [if_true]
    rcases aeff with h | ⟨hfault, f1, hf1, hq1⟩
    · rw [h]
      cases hfa : (serve_video_to_client env st).fault with
      | some e => left; simp only [h]; exact new_frames_self st
      | none =>
        simp only []
        split
        · next hcond =>
          obtain ⟨-, -, veff⟩ := serve_audio_effect env st
          rcases veff with h | ⟨-, f, hf, hq⟩
          · left; rw [h]; exact new_frames_self st
          · right; right; left
            exact ⟨f, hf, by simpa using hcond.1, new_frames_queue_frame env st _ f hq⟩
        · left; rw [h]; exact new_frames_self st
    · rw [hfault]
      simp only []
      split
      · next hcond =>
        obtain ⟨-, -, veff⟩ := serve_audio_effect env (serve_video_to_client env st).st
        rcases veff with h | ⟨-, f2, hf2, hq2⟩
        · right; left
          rw [h]
          exact ⟨f1, hf1, trivial, new_frames_queue_frame env st _ f1 hq1⟩
        · right; right; right
          rw [aid] at hq2
          refine ⟨f1, f2, hf1, hf2, trivial, by simpa using hcond.1, ?_,
            new_frames_queue_frame_twice env st _ _ f1 f2 hq1 hq2⟩
          have := hcond.2
          rw [aid, hq1] at this
          simpa [WebSocketServer.queue_frame, WebSocketServer.queue_size] using this
      · right; left
        exact ⟨f1, hf1, trivial, new_frames_queue_frame env st _ f1 hq1⟩

/-- A `serve_client` call either leaves the state as it is, or runs one of the two
priority branches with the queue below the cap. -/
theorem serve_client_cases (env : Env) (st : St) :
    (serve_client env st).st = st ∨
    ∃ name channel csv csa v a,
      st.client.channel = some name ∧ channels_at env.channels name = some channel ∧
      st.server.queue_size st.client.connection_id < env.max_ws_queue_len ∧
      can_send_video env channel st.client = .ok csv ∧
      can_send_audio env channel st.client = .ok csa ∧
      st.client.next_vts = some v ∧ st.client.next_ats = some a ∧
      ((a < v ∧ serve_client env st = serve_audio_first env csv csa st) ∨
       (v ≤ a ∧ serve_client env st = serve_video_first env csv csa st)) := by
  cases hc : st.client.channel with
  | none => left; simp [serve_client, hc]
  | some name =>
    cases hch : channels_at env.channels name with
    | none => left; simp [serve_client, hc, hch]
    | some channel =>
      by_cases hq : st.server.queue_size st.client.connection_id < env.max_ws_queue_len
      · cases hv : can_send_video env channel st.client with
        | error f => left; simp [serve_client, hc, hch, hq, hv]
        | ok csv =>
          cases ha : can_send_audio env channel st.client with
          | error f => left; simp [serve_client, hc, hch, hq, hv, ha]
          | ok csa =>
            cases hvts : st.client.next_vts with
            | none => left; simp [serve_client, hc, hch, hq, hv, ha, hvts]
            | some v =>
              cases hats : st.client.next_ats with
              | none => left; simp [serve_client, hc, hch, hq, hv, ha, hvts, hats]
              | some a =>
                right
                refine ⟨name, channel, csv, csa, v, a, rfl, hch, hq, hv, ha, rfl, rfl, ?_⟩
                by_cases hva : a < v
                · left; exact ⟨hva, by simp [serve_client, hc, hch, hq, hv, ha, hvts, hats, hva]⟩
                · right
                  exact ⟨Nat.le_of_not_lt hva,
                    by simp [serve_client, hc, hch, hq, hv, ha, hvts, hats, hva]⟩
      · left; simp [serve_client, hc, hch, hq]

/-! ## Quality selection -/

theorem to_int_of_lt (n : Nat) (h : n < 2147483648) : to_int n = (n : Int) := by
  have h1 : n % UINT32_MOD = n := Nat.mod_eq_of_lt (by unfold UINT32_MOD; omega)
  unfold to_int
  rw [h1, if_pos h]

/-- An `int` expression whose exact value is a non-negative `int` has that value. -/
theorem wrap_int_of_range (i : Int) (h0 : 0 ≤ i) (h1 : i < 2147483648) : wrap_int i = i := by
  unfold wrap_int
  omega

theorem randint_zero (n r : Nat) (h : 0 < n) (h31 : n < 2147483648) :
    randint 0 (n : Int) r = .ok (((r % n : Nat) : Int)) := by
  have hn : (0 : Int) < (n : Int) := by exact_mod_cast h
  have hm : Int.tmod (r : Int) (n : Int) = ((r % n : Nat) : Int) := (Int.ofNat_tmod r n).symm
  have hlt : ((r % n : Nat) : Int) < (n : Int) := by exact_mod_cast Nat.mod_lt r h
  have hge : (0 : Int) ≤ ((r % n : Nat) : Int) := Int.ofNat_nonneg _
  have hw : wrap_int (n : Int) = (n : Int) := wrap_int_of_range _ (by omega) (by omega)
  have hw2 : wrap_int ((r % n : Nat) : Int) = ((r % n : Nat) : Int) :=
    wrap_int_of_range _ hge (by omega)
  have hne : ¬ (n : Int) = 0 := by omega
  simp only [randint, hn, if_true, Int.sub_zero, Int.zero_add, hw, hne, if_false, hm, hw2,
    ge_iff_le, hge, hlt, and_self]

theorem select_video_quality_ok (env : Env) (client : WebSocketClient) (r : Nat)
    (name : String) (channel : Channel)
    (hc : client.channel = some name) (hch : channels_at env.channels name = some channel)
    (hf : formats_ok channel.vformats.length) :
    ∃ q, select_video_quality env client r = .ok q ∧ q ∈ channel.vformats := by
  have hidx : r % channel.vformats.length < channel.vformats.length := Nat.mod_lt r hf.1
  refine ⟨channel.vformats[r % channel.vformats.length], ?_, List.getElem_mem _⟩
  simp only [select_video_quality, hc, hch, to_int_of_lt _ hf.2, randint_zero _ r hf.1 hf.2,
    Int.toNat_ofNat, List.getElem?_eq_getElem hidx]

theorem select_audio_quality_ok (env : Env) (client : WebSocketClient) (r : Nat)
    (name : String) (channel : Channel)
    (hc : client.channel = some name) (hch : channels_at env.channels name = some channel)
    (hf : formats_ok channel.aformats.length) :
    ∃ q, select_audio_quality env client r = .ok q ∧ q ∈ channel.aformats := by
  have hidx : r % channel.aformats.length < channel.aformats.length := Nat.mod_lt r hf.1
  refine ⟨channel.aformats[r % channel.aformats.length], ?_, List.getElem_mem _⟩
  simp only [select_audio_quality, hc, hch, to_int_of_lt _ hf.2, randint_zero _ r hf.1 hf.2,
    Int.toNat_ofNat, List.getElem?_eq_getElem hidx]

/-- The three outcomes of `serve_video_to_client`: a fault before anything is changed,
a deferral because the channel is not ready, or exactly one `Video` frame enqueued. -/
theorem serve_video_outcome (env : Env) (st : St) :
    (∃ e, serve_video_to_client env st = ⟨st, some e⟩) ∨
    (serve_video_to_client env st = ⟨st, none⟩ ∧ st.client.next_vsegment = none ∧
      ∃ name channel ts, st.client.channel = some name ∧
        channels_at env.channels name = some channel ∧ st.client.next_vts = some ts ∧
        channel.vready ts = false) ∨
    ((serve_video_to_client env st).fault = none ∧ ∃ f, is_video f ∧
      (serve_video_to_client env st).st.server =
        st.server.queue_frame env st.client.connection_id f) := by
  cases hc : st.client.channel with
  | none => left; exact ⟨.bad_optional_access, by simp [serve_video_to_client, hc]⟩
  | some name =>
    cases hch : channels_at env.channels name with
    | none => left; exact ⟨.out_of_range, by simp [serve_video_to_client, hc, hch]⟩
    | some channel =>
      cases hts : st.client.next_vts with
      | none => left; exact ⟨.bad_optional_access, by simp [serve_video_to_client, hc, hch, hts]⟩
      | some ts =>
        cases hst : start_vsegment env channel ts st with
        | error f => left; exact ⟨f, by simp [serve_video_to_client, hc, hch, hts, hst]⟩
        | ok o =>
          cases o with
          | none =>
            right; left
            refine ⟨by simp [serve_video_to_client, hc, hch, hts, hst], ?_⟩
            unfold start_vsegment at hst
            cases hseg : st.client.next_vsegment with
            | some seg => simp [hseg] at hst
            | none =>
              refine ⟨rfl, name, channel, ts, rfl, hch, rfl, ?_⟩
              cases hr : channel.vready ts with
              | false => rfl
              | true =>
                simp only [hseg, hr, if_true] at hst
                split at hst <;> simp at hst
          | some st1 =>
            right; right
            obtain ⟨hs, hid, -, hseg⟩ := start_vsegment_keeps env channel ts st st1 hst
            obtain ⟨hf, -, -, f, hv, hq⟩ := emit_video_effect env channel ts st1 hseg
            simp only [serve_video_to_client, hc, hch, hts, hst]
            exact ⟨hf, f, hv, by rw [← hs, ← hid]; exact hq⟩

/-- With a segment in progress, or a ready channel with a usable format list, the call
to `serve_video_to_client` enqueues a `Video` frame. -/
theorem serve_video_emits (env : Env) (st : St) (name : String) (channel : Channel) (ts : Nat)
    (hc : st.client.channel = some name) (hch : channels_at env.channels name = some channel)
    (hts : st.client.next_vts = some ts)
    (h : st.client.next_vsegment ≠ none ∨
      (channel.vready ts = true ∧ formats_ok channel.vformats.length)) :
    (serve_video_to_client env st).fault = none ∧ ∃ f, is_video f ∧
      (serve_video_to_client env st).st.server =
        st.server.queue_frame env st.client.connection_id f := by
  have hst : ∃ st1, start_vsegment env channel ts st = .ok (some st1) := by
    cases hseg : st.client.next_vsegment with
    | some seg => exact ⟨st, by simp [start_vsegment, hseg]⟩
    | none =>
      rcases h with h | ⟨hr, hf⟩
      · exact absurd hseg h
      · obtain ⟨q, hq, -⟩ := select_video_quality_ok env st.client (env.rand st.rand_calls)
          name channel hc hch hf
        exact ⟨_, by simp only [start_vsegment, hseg, hr, if_true, hq]; rfl⟩
  obtain ⟨st1, hst⟩ := hst
  obtain ⟨hs, hid, -, hseg⟩ := start_vsegment_keeps env channel ts st st1 hst
  obtain ⟨hf, -, -, f, hv, hq⟩ := emit_video_effect env channel ts st1 hseg
  simp only [serve_video_to_client, hc, hch, hts, hst]
  exact ⟨hf, f, hv, by rw [← hs, ← hid]; exact hq⟩

/-- The three outcomes of `serve_audio_to_client`: a fault before anything is changed,
a deferral because the channel is not ready, or exactly one `Audio` frame enqueued. -/
theorem serve_audio_outcome (env : Env) (st : St) :
    (∃ e, serve_audio_to_client env st = ⟨st, some e⟩) ∨
    (serve_audio_to_client env st = ⟨st, none⟩ ∧ st.client.next_asegment = none ∧
      ∃ name channel ts, st.client.channel = some name ∧
        channels_at env.channels name = some channel ∧ st.client.next_ats = some ts ∧
        channel.aready ts = false) ∨
    ((serve_audio_to_client env st).fault = none ∧ ∃ f, is_audio f ∧
      (serve_audio_to_client env st).st.server =
        st.server.queue_frame env st.client.connection_id f) := by
  cases hc : st.client.channel with
  | none => left; exact ⟨.bad_optional_access, by simp [serve_audio_to_client, hc]⟩
  | some name =>
    cases hch : channels_at env.channels name with
    | none => left; exact ⟨.out_of_range, by simp [serve_audio_to_client, hc, hch]⟩
    | some channel =>
      cases hts : st.client.next_ats with
      | none => left; exact ⟨.bad_optional_access, by simp [serve_audio_to_client, hc, hch, hts]⟩
      | some ts =>
        cases hst : start_asegment env channel ts st with
        | error f => left; exact ⟨f, by simp [serve_audio_to_client, hc, hch, hts, hst]⟩
        | ok o =>
          cases o with
          | none =>
            right; left
            refine ⟨by simp [serve_audio_to_client, hc, hch, hts, hst], ?_⟩
            unfold start_asegment at hst
            cases hseg : st.client.next_asegment with
            | some seg => simp [hseg] at hst
            | none =>
              refine ⟨rfl, name, channel, ts, rfl, hch, rfl, ?_⟩
              cases hr : channel.aready ts with
              | false => rfl
              | true =>
                simp only [hseg, hr, if_true] at hst
                split at hst <;> simp at hst
          | some st1 =>
            right; right
            obtain ⟨hs, hid, -, hseg⟩ := start_asegment_keeps env channel ts st st1 hst
            obtain ⟨hf, -, -, f, hv, hq⟩ := emit_audio_effect env channel ts st1 hseg
            simp only [serve_audio_to_client, hc, hch, hts, hst]
            exact ⟨hf, f, hv, by rw [← hs, ← hid]; exact hq⟩

/-- With a segment in progress, or a ready channel with a usable format list, the call
to `serve_audio_to_client` enqueues a `Audio` frame. -/
theorem serve_audio_emits (env : Env) (st : St) (name : String) (channel : Channel) (ts : Nat)
    (hc : st.client.channel = some name) (hch : channels_at env.channels name = some channel)
    (hts : st.client.next_ats = some ts)
    (h : st.client.next_asegment ≠ none ∨
      (channel.aready ts = true ∧ formats_ok channel.aformats.length)) :
    (serve_audio_to_client env st).fault = none ∧ ∃ f, is_audio f ∧
      (serve_audio_to_client env st).st.server =
        st.server.queue_frame env st.client.connection_id f := by
  have hst : ∃ st1, start_asegment env channel ts st = .ok (some st1) := by
    cases hseg : st.client.next_asegment with
    | some seg => exact ⟨st, by simp [start_asegment, hseg]⟩
    | none =>
      rcases h with h | ⟨hr, hf⟩
      · exact absurd hseg h
      · obtain ⟨q, hq, -⟩ := select_audio_quality_ok env st.client (env.rand st.rand_calls)
          name channel hc hch hf
        exact ⟨_, by simp only [start_asegment, hseg, hr, if_true, hq]; rfl⟩
  obtain ⟨st1, hst⟩ := hst
  obtain ⟨hs, hid, -, hseg⟩ := start_asegment_keeps env channel ts st st1 hst
  obtain ⟨hf, -, -, f, hv, hq⟩ := emit_audio_effect env channel ts st1 hseg
  simp only [serve_audio_to_client, hc, hch, hts, hst]
  exact ⟨hf, f, hv, by rw [← hs, ← hid]; exact hq⟩

/-- When the priority call enqueues a frame, that frame heads the frames of the branch. -/
theorem serve_audio_first_head (env : Env) (csv : Bool) (st : St) (f1 : WSFrame)
    (hfault : (serve_audio_to_client env st).fault = none)
    (hq1 : (serve_audio_to_client env st).st.server =
      st.server.queue_frame env st.client.connection_id f1) :
    ∃ rest, new_frames st (serve_audio_first env csv true st).st =
      ⟨st.client.connection_id, f1, st.server.queue_size st.client.connection_id⟩ :: rest := by
  obtain ⟨aid, -, -⟩ := serve_audio_effect env st
  unfold serve_audio_first
  dsimp only
  simp only [if_true]
  rw [hfault]
  dsimp only
  split
  · obtain ⟨-, -, veff⟩ := serve_video_effect env (serve_audio_to_client env st).st
    rcases veff with h | ⟨-, f2, -, hq2⟩
    · rw [h]; exact ⟨[], new_frames_queue_frame env st _ f1 hq1⟩
    · rw [aid] at hq2
      exact ⟨_, new_frames_queue_frame_twice env st _ _ f1 f2 hq1 hq2⟩
  · exact ⟨[], new_frames_queue_frame env st _ f1 hq1⟩

/-- When the priority call enqueues a frame, that frame heads the frames of the branch. -/
theorem serve_video_first_head (env : Env) (csa : Bool) (st : St) (f1 : WSFrame)
    (hfault : (serve_video_to_client env st).fault = none)
    (hq1 : (serve_video_to_client env st).st.server =
      st.server.queue_frame env st.client.connection_id f1) :
    ∃ rest, new_frames st (serve_video_first env true csa st).st =
      ⟨st.client.connection_id, f1, st.server.queue_size st.client.connection_id⟩ :: rest := by
  obtain ⟨vid, -, -⟩ := serve_video_effect env st
  unfold serve_video_first
  dsimp only
  simp only [if_true]
  rw [hfault]
  dsimp only
  split
  · obtain ⟨-, -, aeff⟩ := serve_audio_effect env (serve_video_to_client env st).st
    rcases aeff with h | ⟨-, f2, -, hq2⟩
    · rw [h]; exact ⟨[], new_frames_queue_frame env st _ f1 hq1⟩
    · rw [vid] at hq2
      exact ⟨_, new_frames_queue_frame_twice env st _ _ f1 f2 hq1 hq2⟩
  · exact ⟨[], new_frames_queue_frame env st _ f1 hq1⟩

/-! ## C1: backpressure -/

/-- C1. Backpressure: for a client with a bound channel, when the carrier reports a queue
size of at least `max_ws_queue_len`, `serve_client` returns without a fault, leaves the
whole state (the carrier, every field of the client) as it was and enqueues no frame,
whatever the playback buffers and in-flight values are. -/
theorem serve_client_backpressure (env : Env) (st : St) (name : String) (channel : Channel)
    (hc : st.client.channel = some name)
    (hch : channels_at env.channels name = some channel)
    (hq : env.max_ws_queue_len ≤ st.server.queue_size st.client.connection_id) :
    serve_client env st = ⟨st, none⟩ ∧ new_frames st (serve_client env st).st = [] := by
  have h : serve_client env st = ⟨st, none⟩ := by
    simp only [serve_client, hc, hch, Nat.not_lt.mpr hq, if_false]
  rw [h]
  exact ⟨rfl, new_frames_self st⟩

/-- C1 at the scenario: queue size equal to the cap, both streams eligible. -/
theorem serve_client_backpressure_witness :
    serve_client (demo_env 4 4) (demo_st 4 360000 288000) = ⟨demo_st 4 360000 288000, none⟩ ∧
    new_frames (demo_st 4 360000 288000)
      (serve_client (demo_env 4 4) (demo_st 4 360000 288000)).st = [] :=
  serve_client_backpressure (demo_env 4 4) (demo_st 4 360000 288000) "news" demo_channel rfl
    rfl (by decide)

/-! ## C3: priority rule -/

/-- C3. Priority rule: for a client with a bound channel, its queue below the cap, both
streams eligible and the channel ready at both next timestamps, the first frame that
`serve_client` enqueues is an `Audio` frame when `next_vts > next_ats` and a `Video` frame
when `next_vts ≤ next_ats`. That first frame exists as soon as a segment of the priority
stream is in progress or its format list is usable (non-empty, size an `int`); otherwise
the selector faults before anything is enqueued. -/
theorem serve_client_priority (env : Env) (st : St) (name : String) (channel : Channel)
    (v a : Nat)
    (hc : st.client.channel = some name)
    (hch : channels_at env.channels name = some channel)
    (hq : st.server.queue_size st.client.connection_id < env.max_ws_queue_len)
    (hv : can_send_video env channel st.client = .ok true)
    (ha : can_send_audio env channel st.client = .ok true)
    (hvts : st.client.next_vts = some v) (hats : st.client.next_ats = some a)
    (hvr : channel.vready v = true) (har : channel.aready a = true) :
    (a < v →
      (∀ e rest, new_frames st (serve_client env st).st = e :: rest →
        is_audio e.frame ∧ e.connection_id = st.client.connection_id) ∧
      ((st.client.next_asegment ≠ none ∨ formats_ok channel.aformats.length) →
        ∃ e rest, new_frames st (serve_client env st).st = e :: rest)) ∧
    (v ≤ a →
      (∀ e rest, new_frames st (serve_client env st).st = e :: rest →
        is_video e.frame ∧ e.connection_id = st.client.connection_id) ∧
      ((st.client.next_vsegment ≠ none ∨ formats_ok channel.vformats.length) →
        ∃ e rest, new_frames st (serve_client env st).st = e :: rest)) := by
  constructor
  · intro hlt
    have hsc : serve_client env st = serve_audio_first env true true st := by
      simp [serve_client, hc, hch, hq, hv, ha, hvts, hats, hlt]
    rw [hsc]
    constructor
    · intro e rest hnew
      rcases serve_audio_outcome env st with ⟨f, hf⟩ |
        ⟨-, -, n2, c2, t2, hc2, hch2, hts2, hr⟩ | ⟨hfault, f1, hf1, hq1⟩
      · have hnil : serve_audio_first env true true st = ⟨st, some f⟩ := by
          simp [serve_audio_first, hf]
        rw [hnil, new_frames_self] at hnew
        cases hnew
      · rw [hc] at hc2; cases hc2
        rw [hch] at hch2; cases hch2
        rw [hats] at hts2; cases hts2
        rw [har] at hr; cases hr
      · obtain ⟨rest2, hrest⟩ := serve_audio_first_head env true st f1 hfault hq1
        rw [hrest] at hnew
        cases hnew
        exact ⟨hf1, rfl⟩
    · intro hfmt
      obtain ⟨hfault, f1, -, hq1⟩ := serve_audio_emits env st name channel a hc hch hats
        (hfmt.imp id (fun h => ⟨har, h⟩))
      obtain ⟨rest, hrest⟩ := serve_audio_first_head env true st f1 hfault hq1
      exact ⟨_, rest, hrest⟩
  · intro hle
    have hsc : serve_client env st = serve_video_first env true true st := by
      simp [serve_client, hc, hch, hq, hv, ha, hvts, hats, Nat.not_lt.mpr hle]
    rw [hsc]
    constructor
    · intro e rest hnew
      rcases serve_video_outcome env st with ⟨f, hf⟩ |
        ⟨-, -, n2, c2, t2, hc2, hch2, hts2, hr⟩ | ⟨hfault, f1, hf1, hq1⟩
      · have hnil : serve_video_first env true true st = ⟨st, some f⟩ := by
          simp [serve_video_first, hf]
        rw [hnil, new_frames_self] at hnew
        cases hnew
      · rw [hc] at hc2; cases hc2
        rw [hch] at hch2; cases hch2
        rw [hvts] at hts2; cases hts2
        rw [hvr] at hr; cases hr
      · obtain ⟨rest2, hrest⟩ := serve_video_first_head env true st f1 hfault hq1
        rw [hrest] at hnew
        cases hnew
        exact ⟨hf1, rfl⟩
    · intro hfmt
      obtain ⟨hfault, f1, -, hq1⟩ := serve_video_emits env st name channel v hc hch hvts
        (hfmt.imp id (fun h => ⟨hvr, h⟩))
      obtain ⟨rest, hrest⟩ := serve_video_first_head env true st f1 hfault hq1
      exact ⟨_, rest, hrest⟩

/-- C3 at the scenario: `next_vts = 360000`, `next_ats = 288000` gives audio first, the
timestamps swapped give video first. -/
theorem serve_client_priority_witness :
    (∃ e rest, new_frames (demo_st 0 360000 288000)
        (serve_client (demo_env 4 4) (demo_st 0 360000 288000)).st = e :: rest ∧
      is_audio e.frame ∧ e.connection_id = (demo_st 0 360000 288000).client.connection_id) ∧
    (∃ e rest, new_frames (demo_st 0 288000 360000)
        (serve_client (demo_env 4 4) (demo_st 0 288000 360000)).st = e :: rest ∧
      is_video e.frame ∧ e.connection_id = (demo_st 0 288000 360000).client.connection_id) := by
  have h1 := (serve_client_priority (demo_env 4 4) (demo_st 0 360000 288000) "news"
    demo_channel 360000 288000 rfl rfl (by decide) rfl rfl rfl rfl rfl rfl).1 (by decide)
  have h2 := (serve_client_priority (demo_env 4 4) (demo_st 0 288000 360000) "news"
    demo_channel 288000 360000 rfl rfl (by decide) rfl rfl rfl rfl rfl rfl).2 (by decide)
  obtain ⟨e1, r1, he1⟩ := h1.2 (Or.inr ⟨by decide, by decide⟩)
  obtain ⟨e2, r2, he2⟩ := h2.2 (Or.inr ⟨by decide, by decide⟩)
  exact ⟨⟨e1, r1, he1, h1.1 e1 r1 he1⟩, ⟨e2, r2, he2, h2.1 e2 r2 he2⟩⟩

/-! ## C4: every frame is enqueued below the queue cap -/

/-- C4. Every frame that `serve_client` enqueues goes to the connection of the client, at a
moment when the queue size of that connection is below `max_ws_queue_len`, and belongs to
a stream that is eligible. At most two frames are enqueued; when there are two, the first
was enqueued at the queue size found on entry and the second at the size the carrier
reports after the first send, so the non-priority stream is served only if that size,
read again, is still below the cap. -/
theorem serve_client_enqueues_below_cap (env : Env) (st : St) :
    (∀ e ∈ new_frames st (serve_client env st).st,
      e.connection_id = st.client.connection_id ∧
      e.queue_before < env.max_ws_queue_len ∧
      ∃ name channel, st.client.channel = some name ∧
        channels_at env.channels name = some channel ∧
        (is_video e.frame → can_send_video env channel st.client = .ok true) ∧
        (is_audio e.frame → can_send_audio env channel st.client = .ok true)) ∧
    (new_frames st (serve_client env st).st).length ≤ 2 ∧
    (∀ e1 e2, new_frames st (serve_client env st).st = [e1, e2] →
      e1.queue_before = st.server.queue_size st.client.connection_id ∧
      e2.queue_before = env.queue_after e1.queue_before e1.frame) := by
  have audio_not_video : ∀ f, is_audio f → ¬ is_video f := by
    rintro f ⟨_, _, _, _, _, h1⟩ ⟨_, _, _, _, _, h2⟩
    rw [h1] at h2
    cases h2
  rcases serve_client_cases env st with h | ⟨name, channel, csv, csa, v, a, hc, hch, hq, hv, ha,
      -, -, hbranch⟩
  · rw [h, new_frames_self]
    simp
  · have key : new_frames st (serve_client env st).st = [] ∨
        (∃ f, is_audio f ∧ csa = true ∧
          new_frames st (serve_client env st).st =
            [⟨st.client.connection_id, f, st.server.queue_size st.client.connection_id⟩]) ∨
        (∃ f, is_video f ∧ csv = true ∧
          new_frames st (serve_client env st).st =
            [⟨st.client.connection_id, f, st.server.queue_size st.client.connection_id⟩]) ∨
        (∃ f1 f2, (is_audio f1 ∨ is_video f1) ∧ (is_audio f2 ∨ is_video f2) ∧
          csa = true ∧ csv = true ∧
          env.queue_after (st.server.queue_size st.client.connection_id) f1
            < env.max_ws_queue_len ∧
          new_frames st (serve_client env st).st =
            [⟨st.client.connection_id, f1, st.server.queue_size st.client.connection_id⟩,
             ⟨st.client.connection_id, f2,
               env.queue_after (st.server.queue_size st.client.connection_id) f1⟩]) := by
      rcases hbranch with ⟨-, hb⟩ | ⟨-, hb⟩
      · rw [hb]
        rcases serve_audio_first_frames env csv csa st with h | h | h | h
        · exact Or.inl h
        · exact Or.inr (Or.inl h)
        · exact Or.inr (Or.inr (Or.inl h))
        · obtain ⟨f1, f2, h1, h2, h3, h4, h5, h6⟩ := h
          exact Or.inr (Or.inr (Or.inr ⟨f1, f2, Or.inl h1, Or.inr h2, h3, h4, h5, h6⟩))
      · rw [hb]
        rcases serve_video_first_frames env csv csa st with h | h | h | h
        · exact Or.inl h
        · exact Or.inr (Or.inr (Or.inl h))
        · exact Or.inr (Or.inl h)
        · obtain ⟨f1, f2, h1, h2, h3, h4, h5, h6⟩ := h
          exact Or.inr (Or.inr (Or.inr ⟨f1, f2, Or.inr h1, Or.inl h2, h4, h3, h5, h6⟩))
    have elig : ∀ f, (is_audio f ∧ csa = true) ∨ (is_video f ∧ csv = true) ∨
        ((is_audio f ∨ is_video f) ∧ csa = true ∧ csv = true) →
        ∃ name channel, st.client.channel = some name ∧
          channels_at env.channels name = some channel ∧
          (is_video f → can_send_video env channel st.client = .ok true) ∧
          (is_audio f → can_send_audio env channel st.client = .ok true) := by
      intro f hf
      refine ⟨name, channel, hc, hch, ?_, ?_⟩
      · intro hvid
        rcases hf with ⟨haud, -⟩ | ⟨-, h⟩ | ⟨-, -, h⟩
        · exact absurd hvid (audio_not_video f haud)
        · rw [hv, h]
        · rw [hv, h]
      · intro haud
        rcases hf with ⟨-, h⟩ | ⟨hvid, -⟩ | ⟨-, h, -⟩
        · rw [ha, h]
        · exact absurd hvid (audio_not_video f haud)
        · rw [ha, h]
    rcases key with h | ⟨f, hf, hcs, h⟩ | ⟨f, hf, hcs, h⟩ | ⟨f1, f2, hf1, hf2, hcsa, hcsv, hq2, h⟩
    · rw [h]; simp
    · rw [h]
      refine ⟨?_, by simp, by simp⟩
      intro e he
      simp only [List.mem_singleton] at he
      subst he
      exact ⟨rfl, hq, elig f (Or.inl ⟨hf, hcs⟩)⟩
    · rw [h]
      refine ⟨?_, by simp, by simp⟩
      intro e he
      simp only [List.mem_singleton] at he
      subst he
      exact ⟨rfl, hq, elig f (Or.inr (Or.inl ⟨hf, hcs⟩))⟩
    · rw [h]
      refine ⟨?_, by simp, ?_⟩
      · intro e he
        simp only [List.mem_cons, List.mem_singleton, List.not_mem_nil, or_false] at he
        rcases he with he | he
        · subst he
          exact ⟨rfl, hq, elig f1 (Or.inr (Or.inr ⟨hf1, hcsa, hcsv⟩))⟩
        · subst he
          exact ⟨rfl, hq2, elig f2 (Or.inr (Or.inr ⟨hf2, hcsa, hcsv⟩))⟩
      · intro e1 e2 he
        simp only [List.cons.injEq, and_true] at he
        obtain ⟨h1, h2⟩ := he
        subst h1 h2
        exact ⟨rfl, rfl⟩

/-- C4 on a tick that enqueues two frames: the `Audio` frame at queue size 0 and the
`Video` frame at queue size 5, both below the cap of 100. -/
theorem serve_client_enqueues_below_cap_witness :
    new_frames (demo_st 0 360000 288000)
        (serve_client (demo_env 4 100) (demo_st 0 360000 288000)).st =
      [⟨7, ⟨true, .Binary, .audio "128k" 288000 96000 0 4, [9, 8, 8, 8]⟩, 0⟩,
       ⟨7, ⟨true, .Binary, .video "1280x720-23" 360000 180000 0 7, [1, 2, 3, 4]⟩, 5⟩] ∧
    ∀ e ∈ new_frames (demo_st 0 360000 288000)
        (serve_client (demo_env 4 100) (demo_st 0 360000 288000)).st,
      e.connection_id = 7 ∧ e.queue_before < 100 :=
  ⟨by decide, fun e he =>
    ⟨((serve_client_enqueues_below_cap (demo_env 4 100) (demo_st 0 360000 288000)).1 e he).1,
     ((serve_client_enqueues_below_cap (demo_env 4 100) (demo_st 0 360000 288000)).1 e he).2.1⟩⟩

/-! ## C2: eligibility and the in-flight seconds -/

/-- What `video_in_flight` returns: the 64-bit difference, divided, cut to 32 bits. -/
theorem video_in_flight_eq (channel : Channel) (client : WebSocketClient) (v cv : Nat)
    (hv : client.next_vts = some v) (hcv : client.client_next_vts = some cv)
    (ht : 0 < channel.timescale) :
    video_in_flight channel client = .ok ((sub64 v cv / channel.timescale) % UINT32_MOD) := by
  simp only [video_in_flight, hv, hcv, Nat.ne_of_gt ht, if_false]

/-- Where the code agrees with the specification: the reported timestamp is not ahead of
the server-side one and the quotient fits an `unsigned int`. -/
theorem can_send_video_agrees (env : Env) (channel : Channel) (client : WebSocketClient)
    (v cv : Nat) (hv : client.next_vts = some v) (hcv : client.client_next_vts = some cv)
    (ht : 0 < channel.timescale) (hle : cv ≤ v) (hv64 : v < UINT64_MOD)
    (hq : (v - cv) / channel.timescale < UINT32_MOD) :
    can_send_video env channel client =
      .ok (spec_can_send client.video_playback_buf env.max_buffer_seconds
        (spec_in_flight v cv channel.timescale) env.max_inflight_seconds) := by
  have hcv64 : cv < UINT64_MOD := Nat.lt_of_le_of_lt hle hv64
  have hsub : sub64 v cv = v - cv := by
    unfold sub64
    rw [Nat.mod_eq_of_lt hv64, Nat.mod_eq_of_lt hcv64]
    have : v + (UINT64_MOD - cv) = (v - cv) + UINT64_MOD := by omega
    rw [this, Nat.add_mod_right]
    exact Nat.mod_eq_of_lt (by omega)
  have hspec : spec_in_flight v cv channel.timescale = (((v - cv) / channel.timescale : Nat) : Int) := by
    unfold spec_in_flight
    have h1 : ((v : Int) - (cv : Int)) = ((v - cv : Nat) : Int) := by omega
    rw [h1]
    rfl
  unfold can_send_video spec_can_send
  rw [video_in_flight_eq channel client v cv hv hcv ht, hsub, Nat.mod_eq_of_lt hq, hspec]
  by_cases hb : client.video_playback_buf < env.max_buffer_seconds
  · simp only [hb, if_true, true_and, Nat.cast_lt]
  · simp [hb]

/-- C2. Eligibility does not follow the true difference. At `next_vts = 1000` with the
client reporting `client_next_vts = 90000` (timescale 90000) the true quotient is 0 and the
buffer is empty, so the specification makes video eligible, but the 64-bit difference wraps
and `can_send_video` is false. At `next_vts = 2^32 * 90000`, `client_next_vts = 0` the true
quotient is `2^32`, not below the cap of 5, but the result is cut to 32 bits, gives 0, and
`can_send_video` is true. The audio function behaves the same. -/
theorem can_send_wraps :
    (can_send_video (demo_env 4 4) demo_channel ahead_client = .ok false ∧
     spec_can_send ahead_client.video_playback_buf (demo_env 4 4).max_buffer_seconds
       (spec_in_flight 1000 90000 demo_channel.timescale)
       (demo_env 4 4).max_inflight_seconds = true) ∧
    (can_send_video (demo_env 4 4) demo_channel far_client = .ok true ∧
     spec_can_send far_client.video_playback_buf (demo_env 4 4).max_buffer_seconds
       (spec_in_flight 386547056640000 0 demo_channel.timescale)
       (demo_env 4 4).max_inflight_seconds = false) ∧
    (can_send_audio (demo_env 4 4) demo_channel ahead_client = .ok false ∧
     can_send_audio (demo_env 4 4) demo_channel far_client = .ok true) ∧
    video_in_flight demo_channel ahead_client = .ok 3688708800 ∧
    video_in_flight demo_channel far_client = .ok 0 :=
  ⟨⟨rfl, by decide⟩, ⟨rfl, by decide⟩, ⟨rfl, rfl⟩, rfl, rfl⟩

/-- How `start_vsegment` produces a state: the segment in progress is kept, or a new one
is recorded for the selected quality, with the init blob on a quality change. -/
theorem start_vsegment_detail (env : Env) (channel : Channel) (ts : Nat) (st st1 : St)
    (h : start_vsegment env channel ts st = .ok (some st1)) :
    (st.client.next_vsegment ≠ none ∧ st1 = st) ∨
    (st.client.next_vsegment = none ∧ channel.vready ts = true ∧
      ∃ q, select_video_quality env st.client (env.rand st.rand_calls) = .ok q ∧
        st1 = { st with
          rand_calls := st.rand_calls + 1,
          client := st.client.set_next_vsegment q (channel.vdata q ts)
            (if st.client.curr_vq = none ∨ st.client.curr_vq ≠ some q
             then some (channel.vinit q) else none) }) := by
  unfold start_vsegment at h
  cases hseg : st.client.next_vsegment with
  | some seg =>
    left
    simp only [hseg, Except.ok.injEq, Option.some.injEq] at h
    exact ⟨by simp, h.symm⟩
  | none =>
    right
    simp only [hseg] at h
    cases hr : channel.vready ts with
    | false => simp [hr] at h
    | true =>
      simp only [hr, if_true] at h
      cases hq : select_video_quality env st.client (env.rand st.rand_calls) with
      | error f => simp [hq] at h
      | ok q =>
        simp only [hq, Except.ok.injEq, Option.some.injEq] at h
        exact ⟨rfl, rfl, q, rfl, h.symm⟩

/-- The result of `emit_video` on a state with a segment in progress. -/
theorem emit_video_eq (env : Env) (channel : Channel) (ts : Nat) (st : St) (seg : VideoSegment)
    (hseg : st.client.next_vsegment = some seg) :
    emit_video env channel ts st =
      if (seg.read env.max_ws_frame_len).2.done = true then
        ⟨{ st with
            server := st.server.queue_frame env st.client.connection_id
              (video_frame env channel ts seg),
            client := { st.client with
              next_vsegment := none, next_vts := some (add64 ts channel.vduration),
              curr_vq := some seg.format } }, none⟩
      else
        ⟨{ st with
            server := st.server.queue_frame env st.client.connection_id
              (video_frame env channel ts seg),
            client := { st.client with
              next_vsegment := some (seg.read env.max_ws_frame_len).2 } }, none⟩ := by
  simp only [emit_video, hseg, video_frame]
  split <;> rfl

/-- One call of `serve_video_to_client`: either the state is untouched (a fault, or the
channel is not ready), or the segment `seg` is served: one frame cut from it is enqueued. -/
theorem serve_video_run (env : Env) (st : St) :
    ((serve_video_to_client env st).st = st ∧
      new_frames st (serve_video_to_client env st).st = []) ∨
    ∃ name channel ts st1 seg,
      st.client.channel = some name ∧ channels_at env.channels name = some channel ∧
      st.client.next_vts = some ts ∧
      start_vsegment env channel ts st = .ok (some st1) ∧
      st1.client.next_vsegment = some seg ∧
      serve_video_to_client env st = emit_video env channel ts st1 ∧
      new_frames st (serve_video_to_client env st).st =
        [⟨st.client.connection_id, video_frame env channel ts seg,
          st.server.queue_size st.client.connection_id⟩] := by
  cases hc : st.client.channel with
  | none => left; simp [serve_video_to_client, hc, new_frames_self]
  | some name =>
    cases hch : channels_at env.channels name with
    | none => left; simp [serve_video_to_client, hc, hch, new_frames_self]
    | some channel =>
      cases hts : st.client.next_vts with
      | none => left; simp [serve_video_to_client, hc, hch, hts, new_frames_self]
      | some ts =>
        cases hst : start_vsegment env channel ts st with
        | error f => left; simp [serve_video_to_client, hc, hch, hts, hst, new_frames_self]
        | ok o =>
          cases o with
          | none => left; simp [serve_video_to_client, hc, hch, hts, hst, new_frames_self]
          | some st1 =>
            right
            obtain ⟨hs, hid, -, hne⟩ := start_vsegment_keeps env channel ts st st1 hst
            cases hseg : st1.client.next_vsegment with
            | none => exact absurd hseg hne
            | some seg =>
              have hrun : serve_video_to_client env st = emit_video env channel ts st1 := by
                simp only [serve_video_to_client, hc, hch, hts, hst]
              refine ⟨name, channel, ts, st1, seg, rfl, hch, rfl, hst, hseg, hrun, ?_⟩
              rw [hrun]
              apply new_frames_queue_frame env
              rw [emit_video_eq env channel ts st1 seg hseg, ← hs, ← hid]
              split <;> rfl

/-- How `start_asegment` produces a state: the segment in progress is kept, or a new one
is recorded for the selected quality, with the init blob on a quality change. -/
theorem start_asegment_detail (env : Env) (channel : Channel) (ts : Nat) (st st1 : St)
    (h : start_asegment env channel ts st = .ok (some st1)) :
    (st.client.next_asegment ≠ none ∧ st1 = st) ∨
    (st.client.next_asegment = none ∧ channel.aready ts = true ∧
      ∃ q, select_audio_quality env st.client (env.rand st.rand_calls) = .ok q ∧
        st1 = { st with
          rand_calls := st.rand_calls + 1,
          client := st.client.set_next_asegment q (channel.adata q ts)
            (if st.client.curr_aq = none ∨ st.client.curr_aq ≠ some q
             then some (channel.ainit q) else none) }) := by
  unfold start_asegment at h
  cases hseg : st.client.next_asegment with
  | some seg =>
    left
    simp only [hseg, Except.ok.injEq, Option.some.injEq] at h
    exact ⟨by simp, h.symm⟩
  | none =>
    right
    simp only [hseg] at h
    cases hr : channel.aready ts with
    | false => simp [hr] at h
    | true =>
      simp only [hr, if_true] at h
      cases hq : select_audio_quality env st.client (env.rand st.rand_calls) with
      | error f => simp [hq] at h
      | ok q =>
        simp only [hq, Except.ok.injEq, Option.some.injEq] at h
        exact ⟨rfl, rfl, q, rfl, h.symm⟩

/-- The result of `emit_audio` on a state with a segment in progress. -/
theorem emit_audio_eq (env : Env) (channel : Channel) (ts : Nat) (st : St) (seg : AudioSegment)
    (hseg : st.client.next_asegment = some seg) :
    emit_audio env channel ts st =
      if (seg.read env.max_ws_frame_len).2.done = true then
        ⟨{ st with
            server := st.server.queue_frame env st.client.connection_id
              (audio_frame env channel ts seg),
            client := { st.client with
              next_asegment := none, next_ats := some (add64 ts channel.aduration),
              curr_aq := some seg.format } }, none⟩
      else
        ⟨{ st with
            server := st.server.queue_frame env st.client.connection_id
              (audio_frame env channel ts seg),
            client := { st.client with
              next_asegment := some (seg.read env.max_ws_frame_len).2 } }, none⟩ := by
  simp only [emit_audio, hseg, audio_frame]
  split <;> rfl

/-- One call of `serve_audio_to_client`: either the state is untouched (a fault, or the
channel is not ready), or the segment `seg` is served: one frame cut from it is enqueued. -/
theorem serve_audio_run (env : Env) (st : St) :
    ((serve_audio_to_client env st).st = st ∧
      new_frames st (serve_audio_to_client env st).st = []) ∨
    ∃ name channel ts st1 seg,
      st.client.channel = some name ∧ channels_at env.channels name = some channel ∧
      st.client.next_ats = some ts ∧
      start_asegment env channel ts st = .ok (some st1) ∧
      st1.client.next_asegment = some seg ∧
      serve_audio_to_client env st = emit_audio env channel ts st1 ∧
      new_frames st (serve_audio_to_client env st).st =
        [⟨st.client.connection_id, audio_frame env channel ts seg,
          st.server.queue_size st.client.connection_id⟩] := by
  cases hc : st.client.channel with
  | none => left; simp [serve_audio_to_client, hc, new_frames_self]
  | some name =>
    cases hch : channels_at env.channels name with
    | none => left; simp [serve_audio_to_client, hc, hch, new_frames_self]
    | some channel =>
      cases hts : st.client.next_ats with
      | none => left; simp [serve_audio_to_client, hc, hch, hts, new_frames_self]
      | some ts =>
        cases hst : start_asegment env channel ts st with
        | error f => left; simp [serve_audio_to_client, hc, hch, hts, hst, new_frames_self]
        | ok o =>
          cases o with
          | none => left; simp [serve_audio_to_client, hc, hch, hts, hst, new_frames_self]
          | some st1 =>
            right
            obtain ⟨hs, hid, -, hne⟩ := start_asegment_keeps env channel ts st st1 hst
            cases hseg : st1.client.next_asegment with
            | none => exact absurd hseg hne
            | some seg =>
              have hrun : serve_audio_to_client env st = emit_audio env channel ts st1 := by
                simp only [serve_audio_to_client, hc, hch, hts, hst]
              refine ⟨name, channel, ts, st1, seg, rfl, hch, rfl, hst, hseg, hrun, ?_⟩
              rw [hrun]
              apply new_frames_queue_frame env
              rw [emit_audio_eq env channel ts st1 seg hseg, ← hs, ← hid]
              split <;> rfl

/-! ## C5: size of a frame -/

/-- C5 as stated fails: with a frame cap of 4 bytes, a one-byte header and a segment of 7
bytes, the `Video` frame carries 4 data bytes, more than `4 - 1`, and its payload has 5
bytes, more than the cap. -/
theorem frame_exceeds_frame_cap :
    ∃ e ∈ new_frames (demo_st 0 360000 288000)
        (serve_video_to_client (demo_env 4 4) (demo_st 0 360000 288000)).st,
      ¬ (e.frame.data.length ≤
          (demo_env 4 4).max_ws_frame_len - (demo_env 4 4).header_len e.frame.header) ∧
      ¬ (payload_len (demo_env 4 4) e.frame ≤ (demo_env 4 4).max_ws_frame_len) :=
  ⟨⟨7, ⟨true, .Binary, .video "854x480-26" 360000 180000 0 7, [1, 2, 3, 4]⟩, 0⟩,
    by decide, by decide, by decide⟩

theorem video_frame_data_le (env : Env) (channel : Channel) (ts : Nat) (seg : VideoSegment) :
    (video_frame env channel ts seg).data.length ≤ env.max_ws_frame_len := by
  simp only [video_frame, Segment.read]
  exact List.length_take_le _ _

theorem audio_frame_data_le (env : Env) (channel : Channel) (ts : Nat) (seg : AudioSegment) :
    (audio_frame env channel ts seg).data.length ≤ env.max_ws_frame_len := by
  simp only [audio_frame, Segment.read]
  exact List.length_take_le _ _

/-- C5, amended. Every frame built by `serve_video_to_client` is a `Video` frame whose
appended segment bytes number at most `max_ws_frame_len`, so its payload is at most
`header_len + max_ws_frame_len` bytes; likewise the `Audio` frames built by
`serve_audio_to_client`. -/
theorem frame_data_within_frame_cap (env : Env) (sv sa : St) :
    (∀ e ∈ new_frames sv (serve_video_to_client env sv).st,
      is_video e.frame ∧ e.frame.data.length ≤ env.max_ws_frame_len ∧
      payload_len env e.frame ≤ env.header_len e.frame.header + env.max_ws_frame_len) ∧
    (∀ e ∈ new_frames sa (serve_audio_to_client env sa).st,
      is_audio e.frame ∧ e.frame.data.length ≤ env.max_ws_frame_len ∧
      payload_len env e.frame ≤ env.header_len e.frame.header + env.max_ws_frame_len) := by
  constructor
  · intro e he
    rcases serve_video_run env sv with ⟨-, h⟩ | ⟨name, channel, ts, st1, seg, -, -, -, -, -, -, h⟩
    · rw [h] at he; cases he
    · rw [h, List.mem_singleton] at he
      subst he
      have hle := video_frame_data_le env channel ts seg
      exact ⟨⟨_, _, _, _, _, rfl⟩, hle, Nat.add_le_add_left hle _⟩
  · intro e he
    rcases serve_audio_run env sa with ⟨-, h⟩ | ⟨name, channel, ts, st1, seg, -, -, -, -, -, -, h⟩
    · rw [h] at he; cases he
    · rw [h, List.mem_singleton] at he
      subst he
      have hle := audio_frame_data_le env channel ts seg
      exact ⟨⟨_, _, _, _, _, rfl⟩, hle, Nat.add_le_add_left hle _⟩

/-! ## C9: a segment that is not ready defers -/

/-- C9. When no video segment is in progress and `vready(next_vts)` is false,
`serve_video_to_client` returns without a fault and leaves the whole state as it was: no
frame is enqueued, `next_vts`, `curr_vq` and the absence of a segment in progress are kept,
so the same timestamp is tried again by the next call. Likewise, and independently,
`serve_audio_to_client` when `aready(next_ats)` is false. -/
theorem serve_defers_when_not_ready :
    (∀ (env : Env) (st : St) (name : String) (channel : Channel) (ts : Nat),
      st.client.channel = some name →
      channels_at env.channels name = some channel →
      st.client.next_vts = some ts →
      st.client.next_vsegment = none →
      channel.vready ts = false →
      serve_video_to_client env st = ⟨st, none⟩ ∧
        new_frames st (serve_video_to_client env st).st = [] ∧
        serve_video_to_client env (serve_video_to_client env st).st = ⟨st, none⟩) ∧
    (∀ (env : Env) (st : St) (name : String) (channel : Channel) (ts : Nat),
      st.client.channel = some name →
      channels_at env.channels name = some channel →
      st.client.next_ats = some ts →
      st.client.next_asegment = none →
      channel.aready ts = false →
      serve_audio_to_client env st = ⟨st, none⟩ ∧
        new_frames st (serve_audio_to_client env st).st = [] ∧
        serve_audio_to_client env (serve_audio_to_client env st).st = ⟨st, none⟩) := by
  constructor
  · intro env st name channel ts hc hch hts hseg hr
    have hv : serve_video_to_client env st = ⟨st, none⟩ := by
      simp [serve_video_to_client, hc, hch, hts, start_vsegment, hseg, hr]
    refine ⟨hv, ?_, ?_⟩
    · rw [hv]; exact new_frames_self st
    · rw [hv]; exact hv
  · intro env st name channel ts hc hch hts hseg hr
    have ha : serve_audio_to_client env st = ⟨st, none⟩ := by
      simp [serve_audio_to_client, hc, hch, hts, start_asegment, hseg, hr]
    refine ⟨ha, ?_, ?_⟩
    · rw [ha]; exact new_frames_self st
    · rw [ha]; exact ha

/-- C9 for a client just initialised: the video call on a channel where only audio is
ready, and the audio call on a channel where only video is ready. -/
theorem serve_defers_when_not_ready_witness :
    (audio_only_channel.vready 360000 = false ∧ audio_only_channel.aready 288000 = true ∧
      serve_video_to_client (audio_only_env 4 4) fresh_init_st = ⟨fresh_init_st, none⟩ ∧
      new_frames fresh_init_st (serve_video_to_client (audio_only_env 4 4) fresh_init_st).st
        = [] ∧
      serve_video_to_client (audio_only_env 4 4)
        (serve_video_to_client (audio_only_env 4 4) fresh_init_st).st =
          ⟨fresh_init_st, none⟩) ∧
    (video_only_channel.aready 288000 = false ∧ video_only_channel.vready 360000 = true ∧
      serve_audio_to_client (video_only_env 4 4) fresh_init_st = ⟨fresh_init_st, none⟩ ∧
      new_frames fresh_init_st (serve_audio_to_client (video_only_env 4 4) fresh_init_st).st
        = [] ∧
      serve_audio_to_client (video_only_env 4 4)
        (serve_audio_to_client (video_only_env 4 4) fresh_init_st).st =
          ⟨fresh_init_st, none⟩) :=
  ⟨⟨rfl, rfl, serve_defers_when_not_ready.1 (audio_only_env 4 4) fresh_init_st "news"
      audio_only_channel 360000 rfl rfl rfl rfl rfl⟩,
    ⟨rfl, rfl, serve_defers_when_not_ready.2 (video_only_env 4 4) fresh_init_st "news"
      video_only_channel 288000 rfl rfl rfl rfl rfl⟩⟩

/-! ## C7: completing a segment -/

/-- C7 as stated fails at the top of the 64-bit range: with `next_vts = 2^64 - 1` and
`vduration = 180000` a call enqueues the only frame of a 7-byte segment, the segment is
done, and `next_vts` becomes 179999, not the sum `2^64 - 1 + 180000`. -/
theorem completion_wraps_next_vts :
    new_frames last_ts_st (serve_video_to_client (demo_env 100 100) last_ts_st).st =
      [⟨7, ⟨true, .Binary, .video "854x480-26" 18446744073709551615 180000 0 7,
        [1, 2, 3, 4, 5, 6, 7]⟩, 0⟩] ∧
    (serve_video_to_client (demo_env 100 100) last_ts_st).st.client.next_vsegment = none ∧
    (serve_video_to_client (demo_env 100 100) last_ts_st).st.client.next_vts = some 179999 ∧
    (serve_video_to_client (demo_env 100 100) last_ts_st).st.client.next_vts ≠
      some (18446744073709551615 + demo_channel.vduration) :=
  ⟨by decide, rfl, rfl, by decide⟩

/-- C7, amended. Whenever `serve_video_to_client` enqueues a frame, the frame is cut from
a segment `seg` (the one in progress, or a new one at cursor 0) and the cursor advances by
the bytes sent. If that exhausts the segment (`done`: cursor + bytes sent = length), then
afterwards `next_vts` is `(old next_vts + vduration) mod 2^64`, which is the plain sum
whenever the sum is below `2^64`, `curr_vq` is the format of that segment and no video
segment is in progress. If it does not, `next_vts` and `curr_vq` are unchanged and the same
segment, its cursor advanced, stays in progress. `serve_audio_to_client` does the same with
`next_ats`, `aduration` and `curr_aq`. -/
theorem segment_completion (env : Env) (sv sa : St) (ev ea : Enqueued)
    (hv : ev ∈ new_frames sv (serve_video_to_client env sv).st)
    (ha : ea ∈ new_frames sa (serve_audio_to_client env sa).st) :
    (∃ name channel ts seg,
      sv.client.channel = some name ∧ channels_at env.channels name = some channel ∧
      sv.client.next_vts = some ts ∧
      (sv.client.next_vsegment = some seg ∨ (sv.client.next_vsegment = none ∧ seg.offset = 0)) ∧
      ev.frame = video_frame env channel ts seg ∧
      (seg.read env.max_ws_frame_len).2 =
        { seg with offset := seg.offset + ev.frame.data.length } ∧
      ((seg.read env.max_ws_frame_len).2.done = true ↔
        seg.offset + ev.frame.data.length = seg.length) ∧
      ((seg.read env.max_ws_frame_len).2.done = true →
        (serve_video_to_client env sv).st.client.next_vts = some ((ts + channel.vduration) % UINT64_MOD) ∧
        (ts + channel.vduration < UINT64_MOD →
          (serve_video_to_client env sv).st.client.next_vts = some (ts + channel.vduration)) ∧
        (serve_video_to_client env sv).st.client.curr_vq = some seg.format ∧
        (serve_video_to_client env sv).st.client.next_vsegment = none) ∧
      ((seg.read env.max_ws_frame_len).2.done = false →
        (serve_video_to_client env sv).st.client.next_vts = some ts ∧
        (serve_video_to_client env sv).st.client.curr_vq = sv.client.curr_vq ∧
        (serve_video_to_client env sv).st.client.next_vsegment =
          some (seg.read env.max_ws_frame_len).2)) ∧
    (∃ name channel ts seg,
      sa.client.channel = some name ∧ channels_at env.channels name = some channel ∧
      sa.client.next_ats = some ts ∧
      (sa.client.next_asegment = some seg ∨ (sa.client.next_asegment = none ∧ seg.offset = 0)) ∧
      ea.frame = audio_frame env channel ts seg ∧
      (seg.read env.max_ws_frame_len).2 =
        { seg with offset := seg.offset + ea.frame.data.length } ∧
      ((seg.read env.max_ws_frame_len).2.done = true ↔
        seg.offset + ea.frame.data.length = seg.length) ∧
      ((seg.read env.max_ws_frame_len).2.done = true →
        (serve_audio_to_client env sa).st.client.next_ats = some ((ts + channel.aduration) % UINT64_MOD) ∧
        (ts + channel.aduration < UINT64_MOD →
          (serve_audio_to_client env sa).st.client.next_ats = some (ts + channel.aduration)) ∧
        (serve_audio_to_client env sa).st.client.curr_aq = some seg.format ∧
        (serve_audio_to_client env sa).st.client.next_asegment = none) ∧
      ((seg.read env.max_ws_frame_len).2.done = false →
        (serve_audio_to_client env sa).st.client.next_ats = some ts ∧
        (serve_audio_to_client env sa).st.client.curr_aq = sa.client.curr_aq ∧
        (serve_audio_to_client env sa).st.client.next_asegment =
          some (seg.read env.max_ws_frame_len).2)) := by
  constructor
  · show _
    rcases serve_video_run env sv with ⟨-, h⟩ |
      ⟨name, channel, ts, st1, seg, hc, hch, hts, hst, hseg, hrun, h⟩
    · rw [h] at hv; cases hv
    · rw [h, List.mem_singleton] at hv
      subst hv
      have hfrom : sv.client.next_vsegment = some seg ∨
          (sv.client.next_vsegment = none ∧ seg.offset = 0) := by
        rcases start_vsegment_detail env channel ts sv st1 hst with ⟨-, h1⟩ | ⟨h0, -, q, -, h1⟩
        · left; rw [← h1]; exact hseg
        · right
          refine ⟨h0, ?_⟩
          rw [h1] at hseg
          simp only [WebSocketClient.set_next_vsegment, Option.some.injEq] at hseg
          rw [← hseg]
      have hkeep : st1.client.next_vts = sv.client.next_vts ∧
          st1.client.curr_vq = sv.client.curr_vq := by
        rcases start_vsegment_detail env channel ts sv st1 hst with ⟨-, h1⟩ | ⟨-, -, q, -, h1⟩
        · rw [h1]; exact ⟨rfl, rfl⟩
        · rw [h1]; exact ⟨rfl, rfl⟩
      refine ⟨name, channel, ts, seg, hc, hch, hts, hfrom, rfl, rfl, ?_, ?_, ?_⟩
      · simp only [Segment.done, Segment.read, Segment.length, Segment.stream, video_frame,
          beq_iff_eq]
      · intro hdone
        rw [hrun, emit_video_eq env channel ts st1 seg hseg, if_pos hdone]
        refine ⟨rfl, ?_, rfl, rfl⟩
        intro hlt
        simp only [add64, Nat.mod_eq_of_lt hlt]
      · intro hdone
        rw [hrun, emit_video_eq env channel ts st1 seg hseg, if_neg (by simp [hdone])]
        exact ⟨hkeep.1.trans hts, hkeep.2, rfl⟩
  · show _
    rcases serve_audio_run env sa with ⟨-, h⟩ |
      ⟨name, channel, ts, st1, seg, hc, hch, hts, hst, hseg, hrun, h⟩
    · rw [h] at ha; cases ha
    · rw [h, List.mem_singleton] at ha
      subst ha
      have hfrom : sa.client.next_asegment = some seg ∨
          (sa.client.next_asegment = none ∧ seg.offset = 0) := by
        rcases start_asegment_detail env channel ts sa st1 hst with ⟨-, h1⟩ | ⟨h0, -, q, -, h1⟩
        · left; rw [← h1]; exact hseg
        · right
          refine ⟨h0, ?_⟩
          rw [h1] at hseg
          simp only [WebSocketClient.set_next_asegment, Option.some.injEq] at hseg
          rw [← hseg]
      have hkeep : st1.client.next_ats = sa.client.next_ats ∧
          st1.client.curr_aq = sa.client.curr_aq := by
        rcases start_asegment_detail env channel ts sa st1 hst with ⟨-, h1⟩ | ⟨-, -, q, -, h1⟩
        · rw [h1]; exact ⟨rfl, rfl⟩
        · rw [h1]; exact ⟨rfl, rfl⟩
      refine ⟨name, channel, ts, seg, hc, hch, hts, hfrom, rfl, rfl, ?_, ?_, ?_⟩
      · simp only [Segment.done, Segment.read, Segment.length, Segment.stream, audio_frame,
          beq_iff_eq]
      · intro hdone
        rw [hrun, emit_audio_eq env channel ts st1 seg hseg, if_pos hdone]
        refine ⟨rfl, ?_, rfl, rfl⟩
        intro hlt
        simp only [add64, Nat.mod_eq_of_lt hlt]
      · intro hdone
        rw [hrun, emit_audio_eq env channel ts st1 seg hseg, if_neg (by simp [hdone])]
        exact ⟨hkeep.1.trans hts, hkeep.2, rfl⟩

/-- C7 on the first frames of the scenario channel: 4 of 7 video bytes (not done) and all
4 audio bytes (done). -/
theorem segment_completion_witness :
    (∃ name channel ts seg,
      (demo_st 0 360000 288000).client.channel = some name ∧ channels_at (demo_env 4 4).channels name = some channel ∧
      (demo_st 0 360000 288000).client.next_vts = some ts ∧
      ((demo_st 0 360000 288000).client.next_vsegment = some seg ∨ ((demo_st 0 360000 288000).client.next_vsegment = none ∧ seg.offset = 0)) ∧
      (⟨7, ⟨true, .Binary, .video "854x480-26" 360000 180000 0 7, [1, 2, 3, 4]⟩, 0⟩ : Enqueued).frame = video_frame (demo_env 4 4) channel ts seg ∧
      (seg.read (demo_env 4 4).max_ws_frame_len).2 =
        { seg with offset := seg.offset + (⟨7, ⟨true, .Binary, .video "854x480-26" 360000 180000 0 7, [1, 2, 3, 4]⟩, 0⟩ : Enqueued).frame.data.length } ∧
      ((seg.read (demo_env 4 4).max_ws_frame_len).2.done = true ↔
        seg.offset + (⟨7, ⟨true, .Binary, .video "854x480-26" 360000 180000 0 7, [1, 2, 3, 4]⟩, 0⟩ : Enqueued).frame.data.length = seg.length) ∧
      ((seg.read (demo_env 4 4).max_ws_frame_len).2.done = true →
        (serve_video_to_client (demo_env 4 4) (demo_st 0 360000 288000)).st.client.next_vts = some ((ts + channel.vduration) % UINT64_MOD) ∧
        (ts + channel.vduration < UINT64_MOD →
          (serve_video_to_client (demo_env 4 4) (demo_st 0 360000 288000)).st.client.next_vts = some (ts + channel.vduration)) ∧
        (serve_video_to_client (demo_env 4 4) (demo_st 0 360000 288000)).st.client.curr_vq = some seg.format ∧
        (serve_video_to_client (demo_env 4 4) (demo_st 0 360000 288000)).st.client.next_vsegment = none) ∧
      ((seg.read (demo_env 4 4).max_ws_frame_len).2.done = false →
        (serve_video_to_client (demo_env 4 4) (demo_st 0 360000 288000)).st.client.next_vts = some ts ∧
        (serve_video_to_client (demo_env 4 4) (demo_st 0 360000 288000)).st.client.curr_vq = (demo_st 0 360000 288000).client.curr_vq ∧
        (serve_video_to_client (demo_env 4 4) (demo_st 0 360000 288000)).st.client.next_vsegment =
          some (seg.read (demo_env 4 4).max_ws_frame_len).2)) ∧
    (∃ name channel ts seg,
      (demo_st 0 360000 288000).client.channel = some name ∧ channels_at (demo_env 4 4).channels name = some channel ∧
      (demo_st 0 360000 288000).client.next_ats = some ts ∧
      ((demo_st 0 360000 288000).client.next_asegment = some seg ∨ ((demo_st 0 360000 288000).client.next_asegment = none ∧ seg.offset = 0)) ∧
      (⟨7, ⟨true, .Binary, .audio "128k" 288000 96000 0 4, [9, 8, 8, 8]⟩, 0⟩ : Enqueued).frame = audio_frame (demo_env 4 4) channel ts seg ∧
      (seg.read (demo_env 4 4).max_ws_frame_len).2 =
        { seg with offset := seg.offset + (⟨7, ⟨true, .Binary, .audio "128k" 288000 96000 0 4, [9, 8, 8, 8]⟩, 0⟩ : Enqueued).frame.data.length } ∧
      ((seg.read (demo_env 4 4).max_ws_frame_len).2.done = true ↔
        seg.offset + (⟨7, ⟨true, .Binary, .audio "128k" 288000 96000 0 4, [9, 8, 8, 8]⟩, 0⟩ : Enqueued).frame.data.length = seg.length) ∧
      ((seg.read (demo_env 4 4).max_ws_frame_len).2.done = true →
        (serve_audio_to_client (demo_env 4 4) (demo_st 0 360000 288000)).st.client.next_ats = some ((ts + channel.aduration) % UINT64_MOD) ∧
        (ts + channel.aduration < UINT64_MOD →
          (serve_audio_to_client (demo_env 4 4) (demo_st 0 360000 288000)).st.client.next_ats = some (ts + channel.aduration)) ∧
        (serve_audio_to_client (demo_env 4 4) (demo_st 0 360000 288000)).st.client.curr_aq = some seg.format ∧
        (serve_audio_to_client (demo_env 4 4) (demo_st 0 360000 288000)).st.client.next_asegment = none) ∧
      ((seg.read (demo_env 4 4).max_ws_frame_len).2.done = false →
        (serve_audio_to_client (demo_env 4 4) (demo_st 0 360000 288000)).st.client.next_ats = some ts ∧
        (serve_audio_to_client (demo_env 4 4) (demo_st 0 360000 288000)).st.client.curr_aq = (demo_st 0 360000 288000).client.curr_aq ∧
        (serve_audio_to_client (demo_env 4 4) (demo_st 0 360000 288000)).st.client.next_asegment =
          some (seg.read (demo_env 4 4).max_ws_frame_len).2)) :=
  segment_completion (demo_env 4 4) (demo_st 0 360000 288000) (demo_st 0 360000 288000)
    _ _ (by decide) (by decide)

/-- The carrier after `emit_video`: the frame cut from the segment has been enqueued. -/
theorem emit_video_server (env : Env) (channel : Channel) (ts : Nat) (st : St)
    (seg : VideoSegment) (hseg : st.client.next_vsegment = some seg) :
    (emit_video env channel ts st).st.server =
      st.server.queue_frame env st.client.connection_id (video_frame env channel ts seg) := by
  rw [emit_video_eq env channel ts st seg hseg]
  split <;> rfl

/-- The carrier after `emit_audio`: the frame cut from the segment has been enqueued. -/
theorem emit_audio_server (env : Env) (channel : Channel) (ts : Nat) (st : St)
    (seg : AudioSegment) (hseg : st.client.next_asegment = some seg) :
    (emit_audio env channel ts st).st.server =
      st.server.queue_frame env st.client.connection_id (audio_frame env channel ts seg) := by
  rw [emit_audio_eq env channel ts st seg hseg]
  split <;> rfl

/-! ## C8: init data on a quality change -/

/-- A new video segment: what is recorded, what is enqueued, and when the init blob is
attached. -/
theorem video_init_data (env : Env) (st : St) (name : String) (channel : Channel) (ts : Nat)
    (q : VideoFormat)
    (hc : st.client.channel = some name)
    (hch : channels_at env.channels name = some channel)
    (hts : st.client.next_vts = some ts)
    (hseg : st.client.next_vsegment = none)
    (hr : channel.vready ts = true)
    (hsel : select_video_quality env st.client (env.rand st.rand_calls) = .ok q) :
    ∃ st1 seg,
      start_vsegment env channel ts st = .ok (some st1) ∧
      st1.client.next_vsegment = some seg ∧
      seg.format = q ∧ seg.data = channel.vdata q ts ∧ seg.offset = 0 ∧
      (seg.init = some (channel.vinit q) ↔
        (st.client.curr_vq = none ∨ st.client.curr_vq ≠ some q)) ∧
      (seg.init = none ↔ ¬ (st.client.curr_vq = none ∨ st.client.curr_vq ≠ some q)) ∧
      serve_video_to_client env st = emit_video env channel ts st1 ∧
      new_frames st (serve_video_to_client env st).st =
        [⟨st.client.connection_id, video_frame env channel ts seg,
          st.server.queue_size st.client.connection_id⟩] ∧
      (st.client.curr_vq = none →
        (video_frame env channel ts seg).header =
          Msg.video q.to_string ts channel.vduration 0
            ((channel.vinit q).length + (channel.vdata q ts).length) ∧
        (video_frame env channel ts seg).data =
          ((channel.vinit q) ++ (channel.vdata q ts)).take env.max_ws_frame_len) := by
  obtain ⟨st1, hdef, hst⟩ : ∃ st1 : St,
      st1 = { st with
        rand_calls := st.rand_calls + 1,
        client := st.client.set_next_vsegment q (channel.vdata q ts)
          (if st.client.curr_vq = none ∨ st.client.curr_vq ≠ some q
           then some (channel.vinit q) else none) } ∧
      start_vsegment env channel ts st = .ok (some st1) :=
    ⟨_, rfl, by simp only [start_vsegment, hseg, hr, if_true, hsel]⟩
  have hseg1 : st1.client.next_vsegment = some
      ⟨q, channel.vdata q ts,
        if st.client.curr_vq = none ∨ st.client.curr_vq ≠ some q
        then some (channel.vinit q) else none, 0⟩ := by
    rw [hdef]; rfl
  have hrun : serve_video_to_client env st = emit_video env channel ts st1 := by
    simp only [serve_video_to_client, hc, hch, hts, hst]
  refine ⟨st1, _, hst, hseg1, rfl, rfl, rfl, ?_, ?_, hrun, ?_, ?_⟩
  · by_cases hcar : st.client.curr_vq = none ∨ st.client.curr_vq ≠ some q
    · simp only [hcar, if_true]
    · simp only [hcar, if_false, iff_false]
      exact fun h => by cases h
  · by_cases hcar : st.client.curr_vq = none ∨ st.client.curr_vq ≠ some q
    · simp only [hcar, if_true, not_true_eq_false, iff_false]
      exact fun h => by cases h
    · simp only [hcar, if_false, not_false_eq_true]
  · rw [hrun]
    apply new_frames_queue_frame env
    rw [emit_video_server env channel ts st1 _ hseg1, hdef]
    rfl
  · intro hnone
    simp only [video_frame, make_video_msg, Segment.length, Segment.stream, Segment.read,
      hnone, true_or, if_true, List.length_append, List.drop_zero, and_self]

/-- A new audio segment: what is recorded, what is enqueued, and when the init blob is
attached. -/
theorem audio_init_data (env : Env) (st : St) (name : String) (channel : Channel) (ts : Nat)
    (q : AudioFormat)
    (hc : st.client.channel = some name)
    (hch : channels_at env.channels name = some channel)
    (hts : st.client.next_ats = some ts)
    (hseg : st.client.next_asegment = none)
    (hr : channel.aready ts = true)
    (hsel : select_audio_quality env st.client (env.rand st.rand_calls) = .ok q) :
    ∃ st1 seg,
      start_asegment env channel ts st = .ok (some st1) ∧
      st1.client.next_asegment = some seg ∧
      seg.format = q ∧ seg.data = channel.adata q ts ∧ seg.offset = 0 ∧
      (seg.init = some (channel.ainit q) ↔
        (st.client.curr_aq = none ∨ st.client.curr_aq ≠ some q)) ∧
      (seg.init = none ↔ ¬ (st.client.curr_aq = none ∨ st.client.curr_aq ≠ some q)) ∧
      serve_audio_to_client env st = emit_audio env channel ts st1 ∧
      new_frames st (serve_audio_to_client env st).st =
        [⟨st.client.connection_id, audio_frame env channel ts seg,
          st.server.queue_size st.client.connection_id⟩] ∧
      (st.client.curr_aq = none →
        (audio_frame env channel ts seg).header =
          Msg.audio q.to_string ts channel.aduration 0
            ((channel.ainit q).length + (channel.adata q ts).length) ∧
        (audio_frame env channel ts seg).data =
          ((channel.ainit q) ++ (channel.adata q ts)).take env.max_ws_frame_len) := by
  obtain ⟨st1, hdef, hst⟩ : ∃ st1 : St,
      st1 = { st with
        rand_calls := st.rand_calls + 1,
        client := st.client.set_next_asegment q (channel.adata q ts)
          (if st.client.curr_aq = none ∨ st.client.curr_aq ≠ some q
           then some (channel.ainit q) else none) } ∧
      start_asegment env channel ts st = .ok (some st1) :=
    ⟨_, rfl, by simp only [start_asegment, hseg, hr, if_true, hsel]⟩
  have hseg1 : st1.client.next_asegment = some
      ⟨q, channel.adata q ts,
        if st.client.curr_aq = none ∨ st.client.curr_aq ≠ some q
        then some (channel.ainit q) else none, 0⟩ := by
    rw [hdef]; rfl
  have hrun : serve_audio_to_client env st = emit_audio env channel ts st1 := by
    simp only [serve_audio_to_client, hc, hch, hts, hst]
  refine ⟨st1, _, hst, hseg1, rfl, rfl, rfl, ?_, ?_, hrun, ?_, ?_⟩
  · by_cases hcar : st.client.curr_aq = none ∨ st.client.curr_aq ≠ some q
    · simp only [hcar, if_true]
    · simp only [hcar, if_false, iff_false]
      exact fun h => by cases h
  · by_cases hcar : st.client.curr_aq = none ∨ st.client.curr_aq ≠ some q
    · simp only [hcar, if_true, not_true_eq_false, iff_false]
      exact fun h => by cases h
    · simp only [hcar, if_false, not_false_eq_true]
  · rw [hrun]
    apply new_frames_queue_frame env
    rw [emit_audio_server env channel ts st1 _ hseg1, hdef]
    rfl
  · intro hnone
    simp only [audio_frame, make_audio_msg, Segment.length, Segment.stream, Segment.read,
      hnone, true_or, if_true, List.length_append, List.drop_zero, and_self]

/-- After a successful `Init` the client is a freshly initialised one: it has no current
quality and no segment in progress, for either stream. -/
theorem handle_client_init_fresh (env : Env) (st : St) (message : ClientInitMessage)
    (hok : (handle_client_init env st message).fault = none) :
    (handle_client_init env st message).st.client.curr_vq = none ∧
    (handle_client_init env st message).st.client.curr_aq = none ∧
    (handle_client_init env st message).st.client.next_vsegment = none ∧
    (handle_client_init env st message).st.client.next_asegment = none := by
  unfold handle_client_init at hok ⊢
  dsimp only at hok ⊢
  split
  · next h =>
    rw [h] at hok
    cases hok
  · split <;> exact ⟨rfl, rfl, rfl, rfl⟩

/-- C8. When `serve_video_to_client` starts a new segment (none in progress, channel ready
at `next_vts`) with selected quality `q`, the recorded segment has format `q`, payload
`vdata(q, next_vts)`, cursor 0, and carries the init blob `vinit(q)` if and only if
`curr_vq` is absent or differs from `q`; the call enqueues exactly the frame cut from that
segment. Likewise, and independently, `serve_audio_to_client` with `curr_aq` and `ainit`.
For a freshly initialised client, the state a successful `Init` leaves, the `Video` frame
of the next call has offset 0, length `len(init) + len(payload)` and the first
`max_ws_frame_len` bytes of init ∥ payload; likewise the `Audio` frame. -/
theorem init_data_on_quality_change :
    (∀ (env : Env) (st : St) (name : String) (channel : Channel) (ts : Nat) (q : VideoFormat),
      st.client.channel = some name →
      channels_at env.channels name = some channel →
      st.client.next_vts = some ts →
      st.client.next_vsegment = none →
      channel.vready ts = true →
      select_video_quality env st.client (env.rand st.rand_calls) = .ok q →
      ∃ st1 seg,
        start_vsegment env channel ts st = .ok (some st1) ∧
        st1.client.next_vsegment = some seg ∧
        seg.format = q ∧ seg.data = channel.vdata q ts ∧ seg.offset = 0 ∧
        (seg.init = some (channel.vinit q) ↔
          (st.client.curr_vq = none ∨ st.client.curr_vq ≠ some q)) ∧
        (seg.init = none ↔ ¬ (st.client.curr_vq = none ∨ st.client.curr_vq ≠ some q)) ∧
        serve_video_to_client env st = emit_video env channel ts st1 ∧
        new_frames st (serve_video_to_client env st).st =
          [⟨st.client.connection_id, video_frame env channel ts seg,
            st.server.queue_size st.client.connection_id⟩] ∧
        (st.client.curr_vq = none →
          (video_frame env channel ts seg).header =
            Msg.video q.to_string ts channel.vduration 0
              ((channel.vinit q).length + (channel.vdata q ts).length) ∧
          (video_frame env channel ts seg).data =
            ((channel.vinit q) ++ (channel.vdata q ts)).take env.max_ws_frame_len)) ∧
    (∀ (env : Env) (st : St) (name : String) (channel : Channel) (ts : Nat) (q : AudioFormat),
      st.client.channel = some name →
      channels_at env.channels name = some channel →
      st.client.next_ats = some ts →
      st.client.next_asegment = none →
      channel.aready ts = true →
      select_audio_quality env st.client (env.rand st.rand_calls) = .ok q →
      ∃ st1 seg,
        start_asegment env channel ts st = .ok (some st1) ∧
        st1.client.next_asegment = some seg ∧
        seg.format = q ∧ seg.data = channel.adata q ts ∧ seg.offset = 0 ∧
        (seg.init = some (channel.ainit q) ↔
          (st.client.curr_aq = none ∨ st.client.curr_aq ≠ some q)) ∧
        (seg.init = none ↔ ¬ (st.client.curr_aq = none ∨ st.client.curr_aq ≠ some q)) ∧
        serve_audio_to_client env st = emit_audio env channel ts st1 ∧
        new_frames st (serve_audio_to_client env st).st =
          [⟨st.client.connection_id, audio_frame env channel ts seg,
            st.server.queue_size st.client.connection_id⟩] ∧
        (st.client.curr_aq = none →
          (audio_frame env channel ts seg).header =
            Msg.audio q.to_string ts channel.aduration 0
              ((channel.ainit q).length + (channel.adata q ts).length) ∧
          (audio_frame env channel ts seg).data =
            ((channel.ainit q) ++ (channel.adata q ts)).take env.max_ws_frame_len)) ∧
    (∀ (env : Env) (st0 : St) (message : ClientInitMessage) (name : String)
        (channel : Channel) (ts : Nat) (q : VideoFormat),
      (handle_client_init env st0 message).fault = none →
      (handle_client_init env st0 message).st.client.channel = some name →
      channels_at env.channels name = some channel →
      (handle_client_init env st0 message).st.client.next_vts = some ts →
      channel.vready ts = true →
      select_video_quality env (handle_client_init env st0 message).st.client
        (env.rand (handle_client_init env st0 message).st.rand_calls) = .ok q →
      (new_frames (handle_client_init env st0 message).st
        (serve_video_to_client env (handle_client_init env st0 message).st).st).map
          (fun e => e.frame) =
        [⟨true, .Binary,
          .video q.to_string ts channel.vduration 0
            ((channel.vinit q).length + (channel.vdata q ts).length),
          ((channel.vinit q) ++ (channel.vdata q ts)).take env.max_ws_frame_len⟩]) ∧
    (∀ (env : Env) (st0 : St) (message : ClientInitMessage) (name : String)
        (channel : Channel) (ts : Nat) (q : AudioFormat),
      (handle_client_init env st0 message).fault = none →
      (handle_client_init env st0 message).st.client.channel = some name →
      channels_at env.channels name = some channel →
      (handle_client_init env st0 message).st.client.next_ats = some ts →
      channel.aready ts = true →
      select_audio_quality env (handle_client_init env st0 message).st.client
        (env.rand (handle_client_init env st0 message).st.rand_calls) = .ok q →
      (new_frames (handle_client_init env st0 message).st
        (serve_audio_to_client env (handle_client_init env st0 message).st).st).map
          (fun e => e.frame) =
        [⟨true, .Binary,
          .audio q.to_string ts channel.aduration 0
            ((channel.ainit q).length + (channel.adata q ts).length),
          ((channel.ainit q) ++ (channel.adata q ts)).take env.max_ws_frame_len⟩]) := by
  refine ⟨fun env st name channel ts q hc hch hts hseg hr hsel =>
      video_init_data env st name channel ts q hc hch hts hseg hr hsel,
    fun env st name channel ts q hc hch hts hseg hr hsel =>
      audio_init_data env st name channel ts q hc hch hts hseg hr hsel, ?_, ?_⟩
  · intro env st0 message name channel ts q hok hc hch hts hr hsel
    obtain ⟨hcur, -, hseg, -⟩ := handle_client_init_fresh env st0 message hok
    obtain ⟨st1, seg, -, -, -, -, -, -, -, -, hnew, hfirst⟩ :=
      video_init_data env _ name channel ts q hc hch hts hseg hr hsel
    obtain ⟨hh, hd⟩ := hfirst hcur
    rw [hnew, List.map_cons, List.map_nil]
    show [video_frame env channel ts seg] = _
    rw [← hh, ← hd]
    rfl
  · intro env st0 message name channel ts q hok hc hch hts hr hsel
    obtain ⟨-, hcur, -, hseg⟩ := handle_client_init_fresh env st0 message hok
    obtain ⟨st1, seg, -, -, -, -, -, -, -, -, hnew, hfirst⟩ :=
      audio_init_data env _ name channel ts q hc hch hts hseg hr hsel
    obtain ⟨hh, hd⟩ := hfirst hcur
    rw [hnew, List.map_cons, List.map_nil]
    show [audio_frame env channel ts seg] = _
    rw [← hh, ← hd]
    rfl

/-- C8 on the scenario values. A client initialised once on a channel that has video only
starts a video segment with its init blob, and one on a channel that has audio only starts
an audio segment with its init blob. After an `Init` on the scenario channel the next
`Video` frame has offset 0 and length `2 + 5`, the next `Audio` frame offset 0 and length
`1 + 3`. -/
theorem init_data_on_quality_change_witness :
    (video_only_channel.aformats = [] ∧
      select_video_quality (video_only_env 100 100) fresh_init_st.client 3 = .ok (⟨"854x480-26"⟩ : VideoFormat) ∧
      ∃ st1 seg,
        start_vsegment (video_only_env 100 100) video_only_channel 360000 fresh_init_st = .ok (some st1) ∧
        st1.client.next_vsegment = some seg ∧
        seg.format = (⟨"854x480-26"⟩ : VideoFormat) ∧ seg.data = video_only_channel.vdata (⟨"854x480-26"⟩ : VideoFormat) 360000 ∧ seg.offset = 0 ∧
        (seg.init = some (video_only_channel.vinit (⟨"854x480-26"⟩ : VideoFormat)) ↔
          (fresh_init_st.client.curr_vq = none ∨ fresh_init_st.client.curr_vq ≠ some (⟨"854x480-26"⟩ : VideoFormat))) ∧
        (seg.init = none ↔ ¬ (fresh_init_st.client.curr_vq = none ∨ fresh_init_st.client.curr_vq ≠ some (⟨"854x480-26"⟩ : VideoFormat))) ∧
        serve_video_to_client (video_only_env 100 100) fresh_init_st = emit_video (video_only_env 100 100) video_only_channel 360000 st1 ∧
        new_frames fresh_init_st (serve_video_to_client (video_only_env 100 100) fresh_init_st).st =
          [⟨fresh_init_st.client.connection_id, video_frame (video_only_env 100 100) video_only_channel 360000 seg,
            fresh_init_st.server.queue_size fresh_init_st.client.connection_id⟩] ∧
        (fresh_init_st.client.curr_vq = none →
          (video_frame (video_only_env 100 100) video_only_channel 360000 seg).header =
            Msg.video (⟨"854x480-26"⟩ : VideoFormat).to_string 360000 video_only_channel.vduration 0
              ((video_only_channel.vinit (⟨"854x480-26"⟩ : VideoFormat)).length + (video_only_channel.vdata (⟨"854x480-26"⟩ : VideoFormat) 360000).length) ∧
          (video_frame (video_only_env 100 100) video_only_channel 360000 seg).data =
            ((video_only_channel.vinit (⟨"854x480-26"⟩ : VideoFormat)) ++ (video_only_channel.vdata (⟨"854x480-26"⟩ : VideoFormat) 360000)).take (video_only_env 100 100).max_ws_frame_len)) ∧
    (audio_only_channel.vformats = [] ∧
      select_audio_quality (audio_only_env 100 100) fresh_init_st.client 3 = .ok (⟨"128k"⟩ : AudioFormat) ∧
      ∃ st1 seg,
        start_asegment (audio_only_env 100 100) audio_only_channel 288000 fresh_init_st = .ok (some st1) ∧
        st1.client.next_asegment = some seg ∧
        seg.format = (⟨"128k"⟩ : AudioFormat) ∧ seg.data = audio_only_channel.adata (⟨"128k"⟩ : AudioFormat) 288000 ∧ seg.offset = 0 ∧
        (seg.init = some (audio_only_channel.ainit (⟨"128k"⟩ : AudioFormat)) ↔
          (fresh_init_st.client.curr_aq = none ∨ fresh_init_st.client.curr_aq ≠ some (⟨"128k"⟩ : AudioFormat))) ∧
        (seg.init = none ↔ ¬ (fresh_init_st.client.curr_aq = none ∨ fresh_init_st.client.curr_aq ≠ some (⟨"128k"⟩ : AudioFormat))) ∧
        serve_audio_to_client (audio_only_env 100 100) fresh_init_st = emit_audio (audio_only_env 100 100) audio_only_channel 288000 st1 ∧
        new_frames fresh_init_st (serve_audio_to_client (audio_only_env 100 100) fresh_init_st).st =
          [⟨fresh_init_st.client.connection_id, audio_frame (audio_only_env 100 100) audio_only_channel 288000 seg,
            fresh_init_st.server.queue_size fresh_init_st.client.connection_id⟩] ∧
        (fresh_init_st.client.curr_aq = none →
          (audio_frame (audio_only_env 100 100) audio_only_channel 288000 seg).header =
            Msg.audio (⟨"128k"⟩ : AudioFormat).to_string 288000 audio_only_channel.aduration 0
              ((audio_only_channel.ainit (⟨"128k"⟩ : AudioFormat)).length + (audio_only_channel.adata (⟨"128k"⟩ : AudioFormat) 288000).length) ∧
          (audio_frame (audio_only_env 100 100) audio_only_channel 288000 seg).data =
            ((audio_only_channel.ainit (⟨"128k"⟩ : AudioFormat)) ++ (audio_only_channel.adata (⟨"128k"⟩ : AudioFormat) 288000)).take (audio_only_env 100 100).max_ws_frame_len)) ∧
    ((handle_client_init (demo_env 100 100) opened_st ⟨some "news"⟩).fault = none ∧
      (new_frames (handle_client_init (demo_env 100 100) opened_st ⟨some "news"⟩).st
        (serve_video_to_client (demo_env 100 100)
          (handle_client_init (demo_env 100 100) opened_st ⟨some "news"⟩).st).st).map
          (fun e => e.frame) =
        [⟨true, .Binary, .video "854x480-26" 32320 180000 0 7, [1, 2, 3, 4, 5, 6, 7]⟩]) ∧
    ((handle_client_init (demo_env 100 100) opened_st ⟨some "news"⟩).fault = none ∧
      (new_frames (handle_client_init (demo_env 100 100) opened_st ⟨some "news"⟩).st
        (serve_audio_to_client (demo_env 100 100)
          (handle_client_init (demo_env 100 100) opened_st ⟨some "news"⟩).st).st).map
          (fun e => e.frame) =
        [⟨true, .Binary, .audio "128k" 0 96000 0 4, [9, 8, 8, 8]⟩]) :=
  ⟨⟨rfl, rfl, init_data_on_quality_change.1 (video_only_env 100 100) fresh_init_st "news"
      video_only_channel 360000 ⟨"854x480-26"⟩ rfl rfl rfl rfl rfl rfl⟩,
    ⟨rfl, rfl, init_data_on_quality_change.2.1 (audio_only_env 100 100) fresh_init_st "news"
      audio_only_channel 288000 ⟨"128k"⟩ rfl rfl rfl rfl rfl rfl⟩,
    ⟨rfl, init_data_on_quality_change.2.2.1 (demo_env 100 100) opened_st ⟨some "news"⟩ "news"
      demo_channel 32320 ⟨"854x480-26"⟩ rfl rfl rfl rfl rfl rfl⟩,
    ⟨rfl, init_data_on_quality_change.2.2.2 (demo_env 100 100) opened_st ⟨some "news"⟩ "news"
      demo_channel 0 ⟨"128k"⟩ rfl rfl rfl rfl rfl rfl⟩⟩

/-! ## C10: `Init` seeds the timestamps -/

/-- What `handle_client_init` does once the channel is resolved: both timestamps pass
through `uint16_t` locals, and `find_ats` is asked about the reduced video timestamp. -/
theorem handle_client_init_resolved (env : Env) (st : St) (message : ClientInitMessage)
    (channel : Channel)
    (h : (match message.channel with
          | some name => channels_at env.channels name
          | none => channels_begin env.channels) = some channel) :
    handle_client_init env st message =
      ⟨{ st with
          client := st.client.init channel.name (channel.init_vts % UINT16_MOD)
            (channel.find_ats (channel.init_vts % UINT16_MOD) % UINT16_MOD),
          server := st.server.queue_frame env st.client.connection_id
            ⟨true, .Binary,
              make_server_init_msg channel.name channel.vcodec channel.acodec channel.timescale
                (channel.init_vts % UINT16_MOD) (st.client.init_id + 1), []⟩ }, none⟩ := by
  unfold handle_client_init
  simp only [h]
  rfl

/-- Where the code agrees with the specification: timestamps that fit 16 bits. -/
theorem handle_client_init_small (env : Env) (st : St) (message : ClientInitMessage)
    (channel : Channel)
    (h : (match message.channel with
          | some name => channels_at env.channels name
          | none => channels_begin env.channels) = some channel)
    (hv : channel.init_vts < UINT16_MOD)
    (ha : channel.find_ats channel.init_vts < UINT16_MOD) :
    (handle_client_init env st message).fault = none ∧
    (handle_client_init env st message).st.client.next_vts = some channel.init_vts ∧
    (handle_client_init env st message).st.client.next_ats =
      some (channel.find_ats channel.init_vts) ∧
    new_frames st (handle_client_init env st message).st =
      [⟨st.client.connection_id,
        ⟨true, .Binary,
          make_server_init_msg channel.name channel.vcodec channel.acodec channel.timescale
            channel.init_vts (st.client.init_id + 1), []⟩,
        st.server.queue_size st.client.connection_id⟩] := by
  rw [handle_client_init_resolved env st message channel h, Nat.mod_eq_of_lt hv,
    Nat.mod_eq_of_lt ha]
  exact ⟨rfl, rfl, rfl, new_frames_queue_frame env st _ _ rfl⟩

/-- C10. `handle_client_init` does not seed the timestamps the channel reports once they
exceed 16 bits. For the scenario channel (`init_vts() = 360000`, `find_ats(360000) =
288000`) an `Init` on connection 7 succeeds, but leaves `next_vts = 32320`
(`360000 mod 65536`), `next_ats = 0` (`find_ats(32320) = 0`), and the `ServerInit` reply
carries `init_vts = 32320`. -/
theorem init_truncates_timestamps :
    demo_channel.init_vts = 360000 ∧ demo_channel.find_ats demo_channel.init_vts = 288000 ∧
    (handle_client_init (demo_env 4 4) opened_st ⟨some "news"⟩).fault = none ∧
    (handle_client_init (demo_env 4 4) opened_st ⟨some "news"⟩).st.client.next_vts =
      some 32320 ∧
    (handle_client_init (demo_env 4 4) opened_st ⟨some "news"⟩).st.client.next_ats = some 0 ∧
    new_frames opened_st (handle_client_init (demo_env 4 4) opened_st ⟨some "news"⟩).st =
      [⟨7, ⟨true, .Binary, .server_init "news" "avc1" "opus" 90000 32320 1, []⟩, 0⟩] :=
  ⟨rfl, rfl, rfl, rfl, rfl, by decide⟩

/-! ## C6: order of the frames of one stream -/

theorem video_key_video_frame (env : Env) (channel : Channel) (ts : Nat) (seg : VideoSegment)
    (id q : Nat) :
    video_key ⟨id, video_frame env channel ts seg, q⟩ = some (ts, seg.offset) := rfl

theorem audio_key_video_frame (env : Env) (channel : Channel) (ts : Nat) (seg : VideoSegment)
    (id q : Nat) :
    audio_key ⟨id, video_frame env channel ts seg, q⟩ = none := rfl

/-- A read that does not finish a segment moves the cursor forward, and never past the
length. -/
theorem read_advances {φ : Type} (seg : Segment φ) (n : Nat) (hn : 0 < n)
    (hle : seg.offset ≤ seg.length) :
    (seg.read n).2.offset ≤ (seg.read n).2.length ∧
    ((seg.read n).2.done = false → seg.offset < (seg.read n).2.offset) := by
  simp only [Segment.read, Segment.done, Segment.length, Segment.stream, List.length_take,
    List.length_drop, beq_eq_false_iff_ne, ne_eq] at *
  omega

/-- What a call of `serve_video_to_client` leaves alone: the channel, and everything of
the audio stream; the carrier only gains `Video` frames. -/
theorem serve_video_keeps_audio (env : Env) (st : St) :
    (serve_video_to_client env st).st.client.channel = st.client.channel ∧
    (serve_video_to_client env st).st.client.next_ats = st.client.next_ats ∧
    (serve_video_to_client env st).st.client.next_asegment = st.client.next_asegment ∧
    ∃ l, (serve_video_to_client env st).st.server.sent = st.server.sent ++ l ∧
      l.filterMap audio_key = [] := by
  rcases serve_video_run env st with ⟨h, -⟩ |
    ⟨name, channel, ts, st1, seg, hc, hch, hts, hst, hseg, hrun, -⟩
  · rw [h]; exact ⟨rfl, rfl, rfl, [], by simp, rfl⟩
  · have h1 : st1.server = st.server ∧ st1.client.channel = st.client.channel ∧
        st1.client.next_ats = st.client.next_ats ∧
        st1.client.next_asegment = st.client.next_asegment := by
      rcases start_vsegment_detail env channel ts st st1 hst with ⟨-, h⟩ | ⟨-, -, q, -, h⟩
      · rw [h]; exact ⟨rfl, rfl, rfl, rfl⟩
      · rw [h]; exact ⟨rfl, rfl, rfl, rfl⟩
    obtain ⟨hs, hch1, hats1, haseg1⟩ := h1
    rw [hrun, emit_video_eq env channel ts st1 seg hseg]
    split
    · refine ⟨hch1, hats1, haseg1,
        [⟨st1.client.connection_id, video_frame env channel ts seg,
          st.server.pending st1.client.connection_id⟩], ?_, rfl⟩
      simp only [WebSocketServer.queue_frame, hs]
    · refine ⟨hch1, hats1, haseg1,
        [⟨st1.client.connection_id, video_frame env channel ts seg,
          st.server.pending st1.client.connection_id⟩], ?_, rfl⟩
      simp only [WebSocketServer.queue_frame, hs]

/-- One call of `serve_video_to_client` keeps the order invariant of the video frames. -/
theorem serve_video_order (env : Env) (st : St) (n0 : Nat)
    (hok : video_tick_cond env st) (hinv : video_order_inv n0 st) :
    video_order_inv n0 (serve_video_to_client env st).st := by
  rcases serve_video_run env st with ⟨h, -⟩ |
    ⟨name, channel, ts, st1, seg, hc, hch, hts, hst, hseg, hrun, -⟩
  · rw [h]; exact hinv
  · obtain ⟨hn0, hpw, hsegle, hbelow⟩ := hinv
    obtain ⟨hF, hdur⟩ := hok
    obtain ⟨hvd, hsum⟩ := hdur name channel ts hc hch hts
    have h1 : st1.server = st.server ∧ st1.client.next_vts = st.client.next_vts ∧
        cur_voff st = seg.offset ∧ seg.offset ≤ seg.length := by
      rcases start_vsegment_detail env channel ts st st1 hst with ⟨-, h⟩ | ⟨h0, -, q, -, h⟩
      · rw [h] at hseg
        refine ⟨by rw [h], by rw [h], ?_, hsegle seg hseg⟩
        simp only [cur_voff, hseg]
      · rw [h] at hseg
        simp only [WebSocketClient.set_next_vsegment, Option.some.injEq] at hseg
        refine ⟨by rw [h], by rw [h]; rfl, ?_, ?_⟩
        · simp only [cur_voff, h0, ← hseg]
        · rw [← hseg]; exact Nat.zero_le _
    obtain ⟨hs, hvts1, hcur, hle⟩ := h1
    obtain ⟨hle2, hadv⟩ := read_advances seg env.max_ws_frame_len hF hle
    have hold : ∀ k ∈ (st.server.sent.drop n0).filterMap video_key, key_lt k (ts, seg.offset) := by
      intro k hk
      obtain ⟨ts2, hts2, hlt⟩ := hbelow k hk
      rw [hts] at hts2
      cases hts2
      rw [hcur] at hlt
      exact hlt
    have hsent :
        (((st1.server.queue_frame env st1.client.connection_id
            (video_frame env channel ts seg)).sent.drop n0).filterMap video_key =
          (st.server.sent.drop n0).filterMap video_key ++ [(ts, seg.offset)]) ∧
        n0 ≤ (st1.server.queue_frame env st1.client.connection_id
            (video_frame env channel ts seg)).sent.length := by
      rw [hs]
      simp only [WebSocketServer.queue_frame, List.drop_append_of_le_length hn0,
        List.filterMap_append, List.length_append, List.length_singleton]
      exact ⟨rfl, Nat.le_succ_of_le hn0⟩
    obtain ⟨hkeys, hlen⟩ := hsent
    have hpw2 : List.Pairwise key_lt
        ((st.server.sent.drop n0).filterMap video_key ++ [(ts, seg.offset)]) := by
      rw [List.pairwise_append]
      refine ⟨hpw, List.pairwise_singleton _ _, ?_⟩
      intro a ha b hb
      rw [List.mem_singleton] at hb
      rw [hb]
      exact hold a ha
    rw [hrun, emit_video_eq env channel ts st1 seg hseg]
    by_cases hdone : (seg.read env.max_ws_frame_len).2.done = true
    · rw [if_pos hdone]
      refine ⟨hlen, ?_, ?_, ?_⟩
      · dsimp only
        rw [hkeys]; exact hpw2
      · intro s hs2; cases hs2
      · intro k hk
        dsimp only at hk
        rw [hkeys, List.mem_append, List.mem_singleton] at hk
        refine ⟨add64 ts channel.vduration, rfl, ?_⟩
        have hadd : add64 ts channel.vduration = ts + channel.vduration := by
          unfold add64 UINT64_MOD
          exact Nat.mod_eq_of_lt (by omega)
        rw [hadd]
        left
        rcases hk with hk | hk
        · rcases hold k hk with h | ⟨h, -⟩
          · exact Nat.lt_of_lt_of_le h (Nat.le_add_right _ _)
          · rw [h]; exact Nat.lt_add_of_pos_right hvd
        · rw [hk]; exact Nat.lt_add_of_pos_right hvd
    · rw [if_neg hdone]
      have hdone2 : (seg.read env.max_ws_frame_len).2.done = false := by
        simpa using hdone
      have hlt := hadv hdone2
      refine ⟨hlen, ?_, ?_, ?_⟩
      · dsimp only
        rw [hkeys]; exact hpw2
      · intro s hs2
        simp only [Option.some.injEq] at hs2
        rw [← hs2]; exact hle2
      · intro k hk
        dsimp only at hk
        rw [hkeys, List.mem_append, List.mem_singleton] at hk
        refine ⟨ts, hvts1.trans hts, ?_⟩
        have hcur2 : cur_voff
            { st1 with
              server := st1.server.queue_frame env st1.client.connection_id
                (video_frame env channel ts seg),
              client := { st1.client with
                next_vsegment := some (seg.read env.max_ws_frame_len).2 } } =
            (seg.read env.max_ws_frame_len).2.offset := rfl
        rw [hcur2]
        rcases hk with hk | hk
        · rcases hold k hk with h | ⟨h, h2⟩
          · exact Or.inl h
          · exact Or.inr ⟨h, Nat.lt_trans h2 hlt⟩
        · rw [hk]; exact Or.inr ⟨rfl, hlt⟩


theorem audio_key_audio_frame (env : Env) (channel : Channel) (ts : Nat) (seg : AudioSegment)
    (id q : Nat) :
    audio_key ⟨id, audio_frame env channel ts seg, q⟩ = some (ts, seg.offset) := rfl

theorem video_key_audio_frame (env : Env) (channel : Channel) (ts : Nat) (seg : AudioSegment)
    (id q : Nat) :
    video_key ⟨id, audio_frame env channel ts seg, q⟩ = none := rfl

/-- What a call of `serve_audio_to_client` leaves alone: the channel, and everything of
the video stream; the carrier only gains `Audio` frames. -/
theorem serve_audio_keeps_video (env : Env) (st : St) :
    (serve_audio_to_client env st).st.client.channel = st.client.channel ∧
    (serve_audio_to_client env st).st.client.next_vts = st.client.next_vts ∧
    (serve_audio_to_client env st).st.client.next_vsegment = st.client.next_vsegment ∧
    ∃ l, (serve_audio_to_client env st).st.server.sent = st.server.sent ++ l ∧
      l.filterMap video_key = [] := by
  rcases serve_audio_run env st with ⟨h, -⟩ |
    ⟨name, channel, ts, st1, seg, hc, hch, hts, hst, hseg, hrun, -⟩
  · rw [h]; exact ⟨rfl, rfl, rfl, [], by simp, rfl⟩
  · have h1 : st1.server = st.server ∧ st1.client.channel = st.client.channel ∧
        st1.client.next_vts = st.client.next_vts ∧
        st1.client.next_vsegment = st.client.next_vsegment := by
      rcases start_asegment_detail env channel ts st st1 hst with ⟨-, h⟩ | ⟨-, -, q, -, h⟩
      · rw [h]; exact ⟨rfl, rfl, rfl, rfl⟩
      · rw [h]; exact ⟨rfl, rfl, rfl, rfl⟩
    obtain ⟨hs, hch1, hats1, haseg1⟩ := h1
    rw [hrun, emit_audio_eq env channel ts st1 seg hseg]
    split
    · refine ⟨hch1, hats1, haseg1,
        [⟨st1.client.connection_id, audio_frame env channel ts seg,
          st.server.pending st1.client.connection_id⟩], ?_, rfl⟩
      simp only [WebSocketServer.queue_frame, hs]
    · refine ⟨hch1, hats1, haseg1,
        [⟨st1.client.connection_id, audio_frame env channel ts seg,
          st.server.pending st1.client.connection_id⟩], ?_, rfl⟩
      simp only [WebSocketServer.queue_frame, hs]

/-- One call of `serve_audio_to_client` keeps the order invariant of the audio frames. -/
theorem serve_audio_order (env : Env) (st : St) (n0 : Nat)
    (hok : audio_tick_cond env st) (hinv : audio_order_inv n0 st) :
    audio_order_inv n0 (serve_audio_to_client env st).st := by
  rcases serve_audio_run env st with ⟨h, -⟩ |
    ⟨name, channel, ts, st1, seg, hc, hch, hts, hst, hseg, hrun, -⟩
  · rw [h]; exact hinv
  · obtain ⟨hn0, hpw, hsegle, hbelow⟩ := hinv
    obtain ⟨hF, hdur⟩ := hok
    obtain ⟨hvd, hsum⟩ := hdur name channel ts hc hch hts
    have h1 : st1.server = st.server ∧ st1.client.next_ats = st.client.next_ats ∧
        cur_aoff st = seg.offset ∧ seg.offset ≤ seg.length := by
      rcases start_asegment_detail env channel ts st st1 hst with ⟨-, h⟩ | ⟨h0, -, q, -, h⟩
      · rw [h] at hseg
        refine ⟨by rw [h], by rw [h], ?_, hsegle seg hseg⟩
        simp only [cur_aoff, hseg]
      · rw [h] at hseg
        simp only [WebSocketClient.set_next_asegment, Option.some.injEq] at hseg
        refine ⟨by rw [h], by rw [h]; rfl, ?_, ?_⟩
        · simp only [cur_aoff, h0, ← hseg]
        · rw [← hseg]; exact Nat.zero_le _
    obtain ⟨hs, hvts1, hcur, hle⟩ := h1
    obtain ⟨hle2, hadv⟩ := read_advances seg env.max_ws_frame_len hF hle
    have hold : ∀ k ∈ (st.server.sent.drop n0).filterMap audio_key, key_lt k (ts, seg.offset) := by
      intro k hk
      obtain ⟨ts2, hts2, hlt⟩ := hbelow k hk
      rw [hts] at hts2
      cases hts2
      rw [hcur] at hlt
      exact hlt
    have hsent :
        (((st1.server.queue_frame env st1.client.connection_id
            (audio_frame env channel ts seg)).sent.drop n0).filterMap audio_key =
          (st.server.sent.drop n0).filterMap audio_key ++ [(ts, seg.offset)]) ∧
        n0 ≤ (st1.server.queue_frame env st1.client.connection_id
            (audio_frame env channel ts seg)).sent.length := by
      rw [hs]
      simp only [WebSocketServer.queue_frame, List.drop_append_of_le_length hn0,
        List.filterMap_append, List.length_append, List.length_singleton]
      exact ⟨rfl, Nat.le_succ_of_le hn0⟩
    obtain ⟨hkeys, hlen⟩ := hsent
    have hpw2 : List.Pairwise key_lt
        ((st.server.sent.drop n0).filterMap audio_key ++ [(ts, seg.offset)]) := by
      rw [List.pairwise_append]
      refine ⟨hpw, List.pairwise_singleton _ _, ?_⟩
      intro a ha b hb
      rw [List.mem_singleton] at hb
      rw [hb]
      exact hold a ha
    rw [hrun, emit_audio_eq env channel ts st1 seg hseg]
    by_cases hdone : (seg.read env.max_ws_frame_len).2.done = true
    · rw [if_pos hdone]
      refine ⟨hlen, ?_, ?_, ?_⟩
      · dsimp only
        rw [hkeys]; exact hpw2
      · intro s hs2; cases hs2
      · intro k hk
        dsimp only at hk
        rw [hkeys, List.mem_append, List.mem_singleton] at hk
        refine ⟨add64 ts channel.aduration, rfl, ?_⟩
        have hadd : add64 ts channel.aduration = ts + channel.aduration := by
          unfold add64 UINT64_MOD
          exact Nat.mod_eq_of_lt (by omega)
        rw [hadd]
        left
        rcases hk with hk | hk
        · rcases hold k hk with h | ⟨h, -⟩
          · exact Nat.lt_of_lt_of_le h (Nat.le_add_right _ _)
          · rw [h]; exact Nat.lt_add_of_pos_right hvd
        · rw [hk]; exact Nat.lt_add_of_pos_right hvd
    · rw [if_neg hdone]
      have hdone2 : (seg.read env.max_ws_frame_len).2.done = false := by
        simpa using hdone
      have hlt := hadv hdone2
      refine ⟨hlen, ?_, ?_, ?_⟩
      · dsimp only
        rw [hkeys]; exact hpw2
      · intro s hs2
        simp only [Option.some.injEq] at hs2
        rw [← hs2]; exact hle2
      · intro k hk
        dsimp only at hk
        rw [hkeys, List.mem_append, List.mem_singleton] at hk
        refine ⟨ts, hvts1.trans hts, ?_⟩
        have hcur2 : cur_aoff
            { st1 with
              server := st1.server.queue_frame env st1.client.connection_id
                (audio_frame env channel ts seg),
              client := { st1.client with
                next_asegment := some (seg.read env.max_ws_frame_len).2 } } =
            (seg.read env.max_ws_frame_len).2.offset := rfl
        rw [hcur2]
        rcases hk with hk | hk
        · rcases hold k hk with h | ⟨h, h2⟩
          · exact Or.inl h
          · exact Or.inr ⟨h, Nat.lt_trans h2 hlt⟩
        · rw [hk]; exact Or.inr ⟨rfl, hlt⟩

theorem video_tick_ok_cond (env : Env) (st : St) (h : video_tick_ok env st = true) :
    video_tick_cond env st := by
  unfold video_tick_ok at h
  rw [Bool.and_eq_true, decide_eq_true_eq] at h
  refine ⟨h.1, ?_⟩
  intro name channel ts hc hch hts
  have h2 := h.2
  simp only [hc, hch, hts, Bool.and_eq_true, decide_eq_true_eq] at h2
  exact h2

/-- A call of `serve_audio_to_client` keeps the order invariant of the video frames and
the conditions of the tick. -/
theorem serve_audio_video_order (env : Env) (st : St) (n0 : Nat) :
    (video_tick_cond env st → video_tick_cond env (serve_audio_to_client env st).st) ∧
    (video_order_inv n0 st → video_order_inv n0 (serve_audio_to_client env st).st) := by
  obtain ⟨hch, hts, hseg, l, hl, hkeys⟩ := serve_audio_keeps_video env st
  constructor
  · rintro ⟨hF, hdur⟩
    refine ⟨hF, ?_⟩
    intro name channel ts h1 h2 h3
    rw [hch] at h1
    rw [hts] at h3
    exact hdur name channel ts h1 h2 h3
  · rintro ⟨hn0, hpw, hsegle, hbelow⟩
    have hk : ((serve_audio_to_client env st).st.server.sent.drop n0).filterMap video_key =
        (st.server.sent.drop n0).filterMap video_key := by
      rw [hl, List.drop_append_of_le_length hn0, List.filterMap_append, hkeys,
        List.append_nil]
    have hcur : cur_voff (serve_audio_to_client env st).st = cur_voff st := by
      simp only [cur_voff, hseg]
    refine ⟨?_, ?_, ?_, ?_⟩
    · rw [hl, List.length_append]; exact Nat.le_add_right_of_le hn0
    · rw [hk]; exact hpw
    · intro seg h; rw [hseg] at h; exact hsegle seg h
    · intro k h
      rw [hk] at h
      rw [hts, hcur]
      exact hbelow k h

/-- The audio-first branch keeps the order invariant of the video frames. -/
theorem serve_audio_first_video_order (env : Env) (csv csa : Bool) (st : St) (n0 : Nat)
    (hok : video_tick_cond env st) (hinv : video_order_inv n0 st) :
    video_order_inv n0 (serve_audio_first env csv csa st).st := by
  have h1 : video_tick_cond env
        (if csa = true then serve_audio_to_client env st else ⟨st, none⟩).st ∧
      video_order_inv n0 (if csa = true then serve_audio_to_client env st else ⟨st, none⟩).st := by
    cases csa with
    | false => exact ⟨hok, hinv⟩
    | true =>
      exact ⟨(serve_audio_video_order env st n0).1 hok, (serve_audio_video_order env st n0).2 hinv⟩
  unfold serve_audio_first
  dsimp only
  generalize (if csa = true then serve_audio_to_client env st else ⟨st, none⟩) = r1 at h1 ⊢
  cases hf : r1.fault with
  | some f => exact h1.2
  | none =>
    dsimp only
    split
    · exact serve_video_order env r1.st n0 h1.1 h1.2
    · exact h1.2

/-- The video-first branch keeps the order invariant of the video frames. -/
theorem serve_video_first_video_order (env : Env) (csv csa : Bool) (st : St) (n0 : Nat)
    (hok : video_tick_cond env st) (hinv : video_order_inv n0 st) :
    video_order_inv n0 (serve_video_first env csv csa st).st := by
  have h1 : video_order_inv n0 (if csv = true then serve_video_to_client env st else ⟨st, none⟩).st := by
    cases csv with
    | false => exact hinv
    | true => exact serve_video_order env st n0 hok hinv
  unfold serve_video_first
  dsimp only
  generalize (if csv = true then serve_video_to_client env st else ⟨st, none⟩) = r1 at h1 ⊢
  cases hf : r1.fault with
  | some f => exact h1
  | none =>
    dsimp only
    split
    · exact (serve_audio_video_order env r1.st n0).2 h1
    · exact h1

/-- A call of `serve_client` keeps the order invariant of the video frames. -/
theorem serve_client_video_order (env : Env) (st : St) (n0 : Nat)
    (hok : video_tick_cond env st) (hinv : video_order_inv n0 st) :
    video_order_inv n0 (serve_client env st).st := by
  rcases serve_client_cases env st with h | ⟨_, _, csv, csa, _, _, -, -, -, -, -, -, -, hb⟩
  · rw [h]; exact hinv
  · rcases hb with ⟨-, hb⟩ | ⟨-, hb⟩
    · rw [hb]; exact serve_audio_first_video_order env csv csa st n0 hok hinv
    · rw [hb]; exact serve_video_first_video_order env csv csa st n0 hok hinv

/-- A run of a session keeps the order invariant of the video frames. -/
theorem session_run_video_order (events : List SessionEvent) (n0 : Nat) :
    ∀ st : St, video_run_ok events st = true → video_order_inv n0 st →
      video_order_inv n0 (session_run events st).st := by
  induction events with
  | nil => intro st _ hinv; exact hinv
  | cons ev rest ih =>
    intro st hok hinv
    simp only [video_run_ok, Bool.and_eq_true] at hok
    obtain ⟨hev, hrest⟩ := hok
    have hstep : video_order_inv n0 (session_step st ev).st := by
      cases ev with
      | tick env pending =>
        have hc := video_tick_ok_cond env st hev
        cases hch : st.client.channel with
        | none =>
          simp only [session_step, hch]
          exact hinv
        | some name =>
          simp only [session_step, hch]
          apply serve_client_video_order env _ n0
          · exact hc
          · exact hinv
      | info message =>
        simp only [session_step, handle_client_info]
        split
        · exact hinv
        · exact hinv
    simp only [session_run]
    cases hf : (session_step st ev).fault with
    | some f => exact hstep
    | none =>
      rw [hf] at hrest
      exact ih _ hrest hstep

theorem audio_tick_ok_cond (env : Env) (st : St) (h : audio_tick_ok env st = true) :
    audio_tick_cond env st := by
  unfold audio_tick_ok at h
  rw [Bool.and_eq_true, decide_eq_true_eq] at h
  refine ⟨h.1, ?_⟩
  intro name channel ts hc hch hts
  have h2 := h.2
  simp only [hc, hch, hts, Bool.and_eq_true, decide_eq_true_eq] at h2
  exact h2

/-- A call of `serve_video_to_client` keeps the order invariant of the audio frames and
the conditions of the tick. -/
theorem serve_video_audio_order (env : Env) (st : St) (n0 : Nat) :
    (audio_tick_cond env st → audio_tick_cond env (serve_video_to_client env st).st) ∧
    (audio_order_inv n0 st → audio_order_inv n0 (serve_video_to_client env st).st) := by
  obtain ⟨hch, hts, hseg, l, hl, hkeys⟩ := serve_video_keeps_audio env st
  constructor
  · rintro ⟨hF, hdur⟩
    refine ⟨hF, ?_⟩
    intro name channel ts h1 h2 h3
    rw [hch] at h1
    rw [hts] at h3
    exact hdur name channel ts h1 h2 h3
  · rintro ⟨hn0, hpw, hsegle, hbelow⟩
    have hk : ((serve_video_to_client env st).st.server.sent.drop n0).filterMap audio_key =
        (st.server.sent.drop n0).filterMap audio_key := by
      rw [hl, List.drop_append_of_le_length hn0, List.filterMap_append, hkeys,
        List.append_nil]
    have hcur : cur_aoff (serve_video_to_client env st).st = cur_aoff st := by
      simp only [cur_aoff, hseg]
    refine ⟨?_, ?_, ?_, ?_⟩
    · rw [hl, List.length_append]; exact Nat.le_add_right_of_le hn0
    · rw [hk]; exact hpw
    · intro seg h; rw [hseg] at h; exact hsegle seg h
    · intro k h
      rw [hk] at h
      rw [hts, hcur]
      exact hbelow k h

/-- The video-first branch keeps the order invariant of the audio frames. -/
theorem serve_video_first_audio_order (env : Env) (csv csa : Bool) (st : St) (n0 : Nat)
    (hok : audio_tick_cond env st) (hinv : audio_order_inv n0 st) :
    audio_order_inv n0 (serve_video_first env csv csa st).st := by
  have h1 : audio_tick_cond env
        (if csv = true then serve_video_to_client env st else ⟨st, none⟩).st ∧
      audio_order_inv n0 (if csv = true then serve_video_to_client env st else ⟨st, none⟩).st := by
    cases csv with
    | false => exact ⟨hok, hinv⟩
    | true =>
      exact ⟨(serve_video_audio_order env st n0).1 hok, (serve_video_audio_order env st n0).2 hinv⟩
  unfold serve_video_first
  dsimp only
  generalize (if csv = true then serve_video_to_client env st else ⟨st, none⟩) = r1 at h1 ⊢
  cases hf : r1.fault with
  | some f => exact h1.2
  | none =>
    dsimp only
    split
    · exact serve_audio_order env r1.st n0 h1.1 h1.2
    · exact h1.2

/-- The audio-first branch keeps the order invariant of the audio frames. -/
theorem serve_audio_first_audio_order (env : Env) (csv csa : Bool) (st : St) (n0 : Nat)
    (hok : audio_tick_cond env st) (hinv : audio_order_inv n0 st) :
    audio_order_inv n0 (serve_audio_first env csv csa st).st := by
  have h1 : audio_order_inv n0 (if csa = true then serve_audio_to_client env st else ⟨st, none⟩).st := by
    cases csa with
    | false => exact hinv
    | true => exact serve_audio_order env st n0 hok hinv
  unfold serve_audio_first
  dsimp only
  generalize (if csa = true then serve_audio_to_client env st else ⟨st, none⟩) = r1 at h1 ⊢
  cases hf : r1.fault with
  | some f => exact h1
  | none =>
    dsimp only
    split
    · exact (serve_video_audio_order env r1.st n0).2 h1
    · exact h1

/-- A call of `serve_client` keeps the order invariant of the audio frames. -/
theorem serve_client_audio_order (env : Env) (st : St) (n0 : Nat)
    (hok : audio_tick_cond env st) (hinv : audio_order_inv n0 st) :
    audio_order_inv n0 (serve_client env st).st := by
  rcases serve_client_cases env st with h | ⟨_, _, csv, csa, _, _, -, -, -, -, -, -, -, hb⟩
  · rw [h]; exact hinv
  · rcases hb with ⟨-, hb⟩ | ⟨-, hb⟩
    · rw [hb]; exact serve_audio_first_audio_order env csv csa st n0 hok hinv
    · rw [hb]; exact serve_video_first_audio_order env csv csa st n0 hok hinv

/-- A run of a session keeps the order invariant of the audio frames. -/
theorem session_run_audio_order (events : List SessionEvent) (n0 : Nat) :
    ∀ st : St, audio_run_ok events st = true → audio_order_inv n0 st →
      audio_order_inv n0 (session_run events st).st := by
  induction events with
  | nil => intro st _ hinv; exact hinv
  | cons ev rest ih =>
    intro st hok hinv
    simp only [audio_run_ok, Bool.and_eq_true] at hok
    obtain ⟨hev, hrest⟩ := hok
    have hstep : audio_order_inv n0 (session_step st ev).st := by
      cases ev with
      | tick env pending =>
        have hc := audio_tick_ok_cond env st hev
        cases hch : st.client.channel with
        | none =>
          simp only [session_step, hch]
          exact hinv
        | some name =>
          simp only [session_step, hch]
          apply serve_client_audio_order env _ n0
          · exact hc
          · exact hinv
      | info message =>
        simp only [session_step, handle_client_info]
        split
        · exact hinv
        · exact hinv
    simp only [session_run]
    cases hf : (session_step st ev).fault with
    | some f => exact hstep
    | none =>
      rw [hf] at hrest
      exact ih _ hrest hstep

/-- C6. Frame order: along every run of ticks and `Info` messages of one session, started
from a state whose segments in progress (if any) have their cursor within their length
(after `Init` there is none), with `max_ws_frame_len > 0`, `vduration > 0` and
`next_vts + vduration ≤ 2^64 - 1` at every tick, the `Video` frames enqueued for the client
have strictly increasing `(ts, offset)` in lexicographic order; likewise the `Audio`
frames with `aduration`. -/
theorem frames_strictly_increasing (vevents aevents : List SessionEvent) (sv sa : St)
    (hv0 : ∀ seg, sv.client.next_vsegment = some seg → seg.offset ≤ seg.length)
    (hvok : video_run_ok vevents sv = true)
    (ha0 : ∀ seg, sa.client.next_asegment = some seg → seg.offset ≤ seg.length)
    (haok : audio_run_ok aevents sa = true) :
    List.Pairwise key_lt
      ((new_frames sv (session_run vevents sv).st).filterMap video_key) ∧
    List.Pairwise key_lt
      ((new_frames sa (session_run aevents sa).st).filterMap audio_key) := by
  constructor
  · have hinit : video_order_inv sv.server.sent.length sv := by
      refine ⟨Nat.le_refl _, ?_, hv0, ?_⟩
      · simp
      · intro k hk; simp at hk
    exact (session_run_video_order vevents _ sv hvok hinit).2.1
  · have hinit : audio_order_inv sa.server.sent.length sa := by
      refine ⟨Nat.le_refl _, ?_, ha0, ?_⟩
      · simp
      · intro k hk; simp at hk
    exact (session_run_audio_order aevents _ sa haok hinit).2.1

/-- C6 on a run of the scenario channel: the video keys are `(360000, 0)`, `(360000, 4)`,
`(540000, 0)`, `(540000, 4)` and the audio keys `(288000, 0)`, `(384000, 0)`,
`(480000, 0)`, `(576000, 0)`. -/
theorem frames_strictly_increasing_witness :
    ((new_frames (demo_st 0 360000 288000)
        (session_run demo_events (demo_st 0 360000 288000)).st).filterMap video_key =
      [(360000, 0), (360000, 4), (540000, 0), (540000, 4)] ∧
     (new_frames (demo_st 0 360000 288000)
        (session_run demo_events (demo_st 0 360000 288000)).st).filterMap audio_key =
      [(288000, 0), (384000, 0), (480000, 0), (576000, 0)]) ∧
    (List.Pairwise key_lt
      ((new_frames (demo_st 0 360000 288000)
        (session_run demo_events (demo_st 0 360000 288000)).st).filterMap video_key) ∧
     List.Pairwise key_lt
      ((new_frames (demo_st 0 360000 288000)
        (session_run demo_events (demo_st 0 360000 288000)).st).filterMap audio_key)) :=
  ⟨⟨by decide, by decide⟩,
    frames_strictly_increasing demo_events demo_events (demo_st 0 360000 288000)
      (demo_st 0 360000 288000) (fun _ h => by cases h) (by decide)
      (fun _ h => by cases h) (by decide)⟩

/-! ## One call of an emit procedure, in full -/

/-- One call of `serve_video_to_client` either leaves the state as it is, or cuts one
frame from a segment (the one in progress, or a new one at cursor 0), appends it to the
carrier, and then completes the segment or keeps it in progress. -/
theorem serve_video_step (env : Env) (st : St) :
    (serve_video_to_client env st).st = st ∨
    ∃ name channel ts seg,
      st.client.channel = some name ∧ channels_at env.channels name = some channel ∧
      st.client.next_vts = some ts ∧
      (st.client.next_vsegment = some seg ∨
        (st.client.next_vsegment = none ∧ seg.offset = 0)) ∧
      (serve_video_to_client env st).st.server.sent =
        st.server.sent ++ [⟨st.client.connection_id, video_frame env channel ts seg,
          st.server.queue_size st.client.connection_id⟩] ∧
      (((seg.read env.max_ws_frame_len).2.done = true ∧
          (serve_video_to_client env st).st.client.next_vts =
            some (add64 ts channel.vduration) ∧
          (serve_video_to_client env st).st.client.next_vsegment = none) ∨
       ((seg.read env.max_ws_frame_len).2.done = false ∧
          (serve_video_to_client env st).st.client.next_vts = some ts ∧
          (serve_video_to_client env st).st.client.next_vsegment =
            some (seg.read env.max_ws_frame_len).2)) := by
  rcases serve_video_run env st with ⟨h, -⟩ |
    ⟨name, channel, ts, st1, seg, hc, hch, hts, hst, hseg, hrun, -⟩
  · exact Or.inl h
  · right
    have h1 : st1.server = st.server ∧ st1.client.next_vts = st.client.next_vts ∧
        st1.client.connection_id = st.client.connection_id ∧
        (st.client.next_vsegment = some seg ∨
          (st.client.next_vsegment = none ∧ seg.offset = 0)) := by
      rcases start_vsegment_detail env channel ts st st1 hst with ⟨-, h⟩ | ⟨h0, -, q, -, h⟩
      · rw [h] at hseg
        exact ⟨by rw [h], by rw [h], by rw [h], Or.inl hseg⟩
      · rw [h] at hseg
        simp only [WebSocketClient.set_next_vsegment, Option.some.injEq] at hseg
        refine ⟨by rw [h], by rw [h]; rfl, by rw [h]; rfl, Or.inr ⟨h0, ?_⟩⟩
        rw [← hseg]
    obtain ⟨hs, hvts1, hid, hfrom⟩ := h1
    refine ⟨name, channel, ts, seg, hc, hch, hts, hfrom, ?_, ?_⟩
    · rw [hrun, emit_video_server env channel ts st1 seg hseg, hs, hid]
      rfl
    · rw [hrun, emit_video_eq env channel ts st1 seg hseg]
      by_cases hdone : (seg.read env.max_ws_frame_len).2.done = true
      · rw [if_pos hdone]
        exact Or.inl ⟨hdone, rfl, rfl⟩
      · rw [if_neg hdone]
        exact Or.inr ⟨by simpa using hdone, hvts1.trans hts, rfl⟩
/-- One call of `serve_audio_to_client` either leaves the state as it is, or cuts one
frame from a segment (the one in progress, or a new one at cursor 0), appends it to the
carrier, and then completes the segment or keeps it in progress. -/
theorem serve_audio_step (env : Env) (st : St) :
    (serve_audio_to_client env st).st = st ∨
    ∃ name channel ts seg,
      st.client.channel = some name ∧ channels_at env.channels name = some channel ∧
      st.client.next_ats = some ts ∧
      (st.client.next_asegment = some seg ∨
        (st.client.next_asegment = none ∧ seg.offset = 0)) ∧
      (serve_audio_to_client env st).st.server.sent =
        st.server.sent ++ [⟨st.client.connection_id, audio_frame env channel ts seg,
          st.server.queue_size st.client.connection_id⟩] ∧
      (((seg.read env.max_ws_frame_len).2.done = true ∧
          (serve_audio_to_client env st).st.client.next_ats =
            some (add64 ts channel.aduration) ∧
          (serve_audio_to_client env st).st.client.next_asegment = none) ∨
       ((seg.read env.max_ws_frame_len).2.done = false ∧
          (serve_audio_to_client env st).st.client.next_ats = some ts ∧
          (serve_audio_to_client env st).st.client.next_asegment =
            some (seg.read env.max_ws_frame_len).2)) := by
  rcases serve_audio_run env st with ⟨h, -⟩ |
    ⟨name, channel, ts, st1, seg, hc, hch, hts, hst, hseg, hrun, -⟩
  · exact Or.inl h
  · right
    have h1 : st1.server = st.server ∧ st1.client.next_ats = st.client.next_ats ∧
        st1.client.connection_id = st.client.connection_id ∧
        (st.client.next_asegment = some seg ∨
          (st.client.next_asegment = none ∧ seg.offset = 0)) := by
      rcases start_asegment_detail env channel ts st st1 hst with ⟨-, h⟩ | ⟨h0, -, q, -, h⟩
      · rw [h] at hseg
        exact ⟨by rw [h], by rw [h], by rw [h], Or.inl hseg⟩
      · rw [h] at hseg
        simp only [WebSocketClient.set_next_asegment, Option.some.injEq] at hseg
        refine ⟨by rw [h], by rw [h]; rfl, by rw [h]; rfl, Or.inr ⟨h0, ?_⟩⟩
        rw [← hseg]
    obtain ⟨hs, hvts1, hid, hfrom⟩ := h1
    refine ⟨name, channel, ts, seg, hc, hch, hts, hfrom, ?_, ?_⟩
    · rw [hrun, emit_audio_server env channel ts st1 seg hseg, hs, hid]
      rfl
    · rw [hrun, emit_audio_eq env channel ts st1 seg hseg]
      by_cases hdone : (seg.read env.max_ws_frame_len).2.done = true
      · rw [if_pos hdone]
        exact Or.inl ⟨hdone, rfl, rfl⟩
      · rw [if_neg hdone]
        exact Or.inr ⟨by simpa using hdone, hvts1.trans hts, rfl⟩


/-! ## Properties of the video stream kept by every run of a session -/

/-- A call of `serve_audio_to_client` changes nothing the video stream can see. -/
theorem serve_audio_video_view (env : Env) (st : St) (n0 : Nat)
    (hn0 : n0 ≤ st.server.sent.length) :
    n0 ≤ (serve_audio_to_client env st).st.server.sent.length ∧
    video_keys_since n0 (serve_audio_to_client env st).st = video_keys_since n0 st ∧
    (serve_audio_to_client env st).st.client.next_vts = st.client.next_vts ∧
    (serve_audio_to_client env st).st.client.next_vsegment = st.client.next_vsegment := by
  obtain ⟨-, hts, hseg, l, hl, hkeys⟩ := serve_audio_keeps_video env st
  refine ⟨?_, ?_, hts, hseg⟩
  · rw [hl, List.length_append]; exact Nat.le_add_right_of_le hn0
  · unfold video_keys_since
    rw [hl, List.drop_append_of_le_length hn0, List.filterMap_append, hkeys, List.append_nil]

/-- A call of `serve_video_to_client` only appends to what the carrier holds. -/
theorem serve_video_sent_le (env : Env) (st : St) (n0 : Nat)
    (hn0 : n0 ≤ st.server.sent.length) :
    n0 ≤ (serve_video_to_client env st).st.server.sent.length := by
  obtain ⟨-, -, -, l, hl, -⟩ := serve_video_keeps_audio env st
  rw [hl, List.length_append]; exact Nat.le_add_right_of_le hn0

/-- A property of the video frames enqueued so far, `next_vts` and the video segment in
progress that every call of `serve_video_to_client` keeps is kept by every run of ticks
and `Info` messages. -/
theorem session_run_video_view (n0 : Nat)
    (P : List (Nat × Nat) → Option Nat → Option VideoSegment → Prop)
    (hstep : ∀ (env : Env) (st : St), n0 ≤ st.server.sent.length →
      P (video_keys_since n0 st) st.client.next_vts st.client.next_vsegment →
      P (video_keys_since n0 (serve_video_to_client env st).st)
        (serve_video_to_client env st).st.client.next_vts
        (serve_video_to_client env st).st.client.next_vsegment)
    (events : List SessionEvent) :
    ∀ st : St, n0 ≤ st.server.sent.length →
      P (video_keys_since n0 st) st.client.next_vts st.client.next_vsegment →
      n0 ≤ (session_run events st).st.server.sent.length ∧
      P (video_keys_since n0 (session_run events st).st)
        (session_run events st).st.client.next_vts
        (session_run events st).st.client.next_vsegment := by
  -- the invariant, as a predicate on states
  let I : St → Prop := fun st => n0 ≤ st.server.sent.length ∧
    P (video_keys_since n0 st) st.client.next_vts st.client.next_vsegment
  have hvideo : ∀ env st, I st → I (serve_video_to_client env st).st := fun env st h =>
    ⟨serve_video_sent_le env st n0 h.1, hstep env st h.1 h.2⟩
  have haudio : ∀ env st, I st → I (serve_audio_to_client env st).st := by
    intro env st h
    obtain ⟨h1, h2, h3, h4⟩ := serve_audio_video_view env st n0 h.1
    refine ⟨h1, ?_⟩
    rw [h2, h3, h4]
    exact h.2
  have hafirst : ∀ env csv csa st, I st → I (serve_audio_first env csv csa st).st := by
    intro env csv csa st h
    have h1 : I (if csa = true then serve_audio_to_client env st else ⟨st, none⟩).st := by
      cases csa with
      | false => exact h
      | true => exact haudio env st h
    unfold serve_audio_first
    dsimp only
    generalize (if csa = true then serve_audio_to_client env st else ⟨st, none⟩) = r1 at h1 ⊢
    cases hf : r1.fault with
    | some f => exact h1
    | none =>
      dsimp only
      split
      · exact hvideo env r1.st h1
      · exact h1
  have hvfirst : ∀ env csv csa st, I st → I (serve_video_first env csv csa st).st := by
    intro env csv csa st h
    have h1 : I (if csv = true then serve_video_to_client env st else ⟨st, none⟩).st := by
      cases csv with
      | false => exact h
      | true => exact hvideo env st h
    unfold serve_video_first
    dsimp only
    generalize (if csv = true then serve_video_to_client env st else ⟨st, none⟩) = r1 at h1 ⊢
    cases hf : r1.fault with
    | some f => exact h1
    | none =>
      dsimp only
      split
      · exact haudio env r1.st h1
      · exact h1
  have hclient : ∀ env st, I st → I (serve_client env st).st := by
    intro env st h
    rcases serve_client_cases env st with h1 | ⟨_, _, csv, csa, _, _, -, -, -, -, -, -, -, hb⟩
    · rw [h1]; exact h
    · rcases hb with ⟨-, hb⟩ | ⟨-, hb⟩
      · rw [hb]; exact hafirst env csv csa st h
      · rw [hb]; exact hvfirst env csv csa st h
  have hev : ∀ ev st, I st → I (session_step st ev).st := by
    intro ev st h
    cases ev with
    | tick env pending =>
      cases hch : st.client.channel with
      | none =>
        simp only [session_step, hch]
        exact h
      | some name =>
        simp only [session_step, hch]
        exact hclient env _ h
    | info message =>
      simp only [session_step, handle_client_info]
      split
      · exact h
      · exact h
  induction events with
  | nil => intro st h1 h2; exact ⟨h1, h2⟩
  | cons ev rest ih =>
    intro st h1 h2
    have hstep2 := hev ev st ⟨h1, h2⟩
    simp only [session_run]
    cases hf : (session_step st ev).fault with
    | some f => exact hstep2
    | none => exact ih _ hstep2.1 hstep2.2


/-! ## C11: `ServerInit` and the first `Video` frame -/

/-- C11. Round trip of the session start: when `handle_client_init` succeeds, its reply is
one `ServerInit` frame, and along every run of ticks and `Info` messages that follows (no
further `Init`), whatever `Audio` frames are sent in between, the first `Video` frame
enqueued for the client has `ts` equal to the `init_vts` field of that `ServerInit` (and
offset 0). -/
theorem init_vts_round_trip (env0 : Env) (st0 : St) (message : ClientInitMessage)
    (events : List SessionEvent)
    (hok : (handle_client_init env0 st0 message).fault = none) :
    ∃ v,
      (new_frames st0 (handle_client_init env0 st0 message).st).filterMap server_init_vts
        = [v] ∧
      ∀ k rest,
        (new_frames (handle_client_init env0 st0 message).st
          (session_run events (handle_client_init env0 st0 message).st).st).filterMap
            video_key = k :: rest →
        k = (v, 0) := by
  cases hit : (match message.channel with
      | some name => channels_at env0.channels name
      | none => channels_begin env0.channels) with
  | none =>
    have hf : (handle_client_init env0 st0 message).fault = some .bad_client_message := by
      unfold handle_client_init
      dsimp only
      split
      · rfl
      · next ch hch =>
        have hne : (none : Option Channel) = some ch := hit.symm.trans hch
        cases hne
    rw [hf] at hok
    cases hok
  | some channel =>
    have hres := handle_client_init_resolved env0 st0 message channel hit
    refine ⟨channel.init_vts % UINT16_MOD, ?_, ?_⟩
    · rw [hres, new_frames_queue_frame env0 st0 _ _ rfl]
      rfl
    · intro k rest hk
      have hrun := session_run_video_view
        (handle_client_init env0 st0 message).st.server.sent.length
        (fun keys nv seg =>
          (keys = [] ∧ nv = some (channel.init_vts % UINT16_MOD) ∧ seg = none) ∨
          ∃ rest, keys = (channel.init_vts % UINT16_MOD, 0) :: rest)
        (by
          intro env st hn0 hP
          rcases serve_video_step env st with h | ⟨name, ch, ts, seg, -, -, hts, hfrom, hsent, hafter⟩
          · rw [h]; exact hP
          · right
            have hkeys : video_keys_since
                (handle_client_init env0 st0 message).st.server.sent.length
                (serve_video_to_client env st).st =
                video_keys_since (handle_client_init env0 st0 message).st.server.sent.length st
                  ++ [(ts, seg.offset)] := by
              unfold video_keys_since
              rw [hsent, List.drop_append_of_le_length hn0, List.filterMap_append]
              rfl
            rw [hkeys]
            rcases hP with ⟨hnil, hnv, hseg⟩ | ⟨rest2, hrest⟩
            · rw [hnv] at hts
              cases hts
              rcases hfrom with h | ⟨-, h0⟩
              · rw [hseg] at h; cases h
              · rw [hnil, h0]
                exact ⟨[], rfl⟩
            · rw [hrest]
              exact ⟨rest2 ++ [(ts, seg.offset)], rfl⟩)
        events (handle_client_init env0 st0 message).st (Nat.le_refl _)
        (by
          left
          refine ⟨?_, ?_, ?_⟩
          · simp [video_keys_since]
          · rw [hres]; rfl
          · rw [hres]; rfl)
      have hk2 : video_keys_since (handle_client_init env0 st0 message).st.server.sent.length
          (session_run events (handle_client_init env0 st0 message).st).st = k :: rest := hk
      rcases hrun.2 with ⟨hnil, -, -⟩ | ⟨rest2, hrest⟩
      · rw [hnil] at hk2; cases hk2
      · rw [hrest] at hk2
        cases hk2
        rfl

/-- C11 on the scenario channel: `Init` on connection 7 replies `init_vts = 32320`, and
after an `Info` and three ticks the `Video` frames start at `(32320, 0)`. -/
theorem init_vts_round_trip_witness :
    (new_frames (handle_client_init (demo_env 100 1000) opened_st ⟨some "news"⟩).st
        (session_run info_then_ticks
          (handle_client_init (demo_env 100 1000) opened_st ⟨some "news"⟩).st).st).filterMap
          video_key = [(32320, 0), (212320, 0), (392320, 0)] ∧
    ∃ v,
      (new_frames opened_st
        (handle_client_init (demo_env 100 1000) opened_st ⟨some "news"⟩).st).filterMap
          server_init_vts = [v] ∧
      ∀ k rest,
        (new_frames (handle_client_init (demo_env 100 1000) opened_st ⟨some "news"⟩).st
          (session_run info_then_ticks
            (handle_client_init (demo_env 100 1000) opened_st ⟨some "news"⟩).st).st).filterMap
            video_key = k :: rest →
        k = (v, 0) :=
  ⟨by decide,
    init_vts_round_trip (demo_env 100 1000) opened_st ⟨some "news"⟩ info_then_ticks rfl⟩

/-! ## C12: `Info` messages -/

/-- C12. Info handling: when `message.init_id` differs from the `init_id` of the client,
`handle_client_info` leaves the client as it is; when they are equal it sets
`video_playback_buf`, `audio_playback_buf`, `client_next_vts` and `client_next_ats` to the
four values of the message and changes no other field. -/
theorem handle_client_info_effect (client : WebSocketClient) (message : ClientInfoMessage) :
    (message.init_id ≠ client.init_id → handle_client_info client message = client) ∧
    (message.init_id = client.init_id →
      handle_client_info client message =
        { client with
          video_playback_buf := message.video_buffer_len,
          audio_playback_buf := message.audio_buffer_len,
          client_next_vts := some message.next_video_timestamp,
          client_next_ats := some message.next_audio_timestamp } ∧
      (handle_client_info client message).connection_id = client.connection_id ∧
      (handle_client_info client message).init_id = client.init_id ∧
      (handle_client_info client message).channel = client.channel ∧
      (handle_client_info client message).next_vts = client.next_vts ∧
      (handle_client_info client message).next_ats = client.next_ats ∧
      (handle_client_info client message).curr_vq = client.curr_vq ∧
      (handle_client_info client message).curr_aq = client.curr_aq ∧
      (handle_client_info client message).next_vsegment = client.next_vsegment ∧
      (handle_client_info client message).next_asegment = client.next_asegment) := by
  constructor
  · intro h
    simp only [handle_client_info, h, if_false]
  · intro h
    rw [handle_client_info, if_pos h]
    exact ⟨rfl, rfl, rfl, rfl, rfl, rfl, rfl, rfl, rfl, rfl⟩

/-- C12 at the scenario: after a second `Init` (`init_id = 2`) an `Info` with
`init_id = 1` changes nothing and one with `init_id = 2` updates the four fields. -/
theorem handle_client_info_effect_witness :
    handle_client_info (fresh_init_st.client.init "news" 360000 288000)
      ⟨1, 10, 11, 540000, 384000⟩ = fresh_init_st.client.init "news" 360000 288000 ∧
    handle_client_info (fresh_init_st.client.init "news" 360000 288000)
      ⟨2, 10, 11, 540000, 384000⟩ =
      { fresh_init_st.client.init "news" 360000 288000 with
        video_playback_buf := 10, audio_playback_buf := 11,
        client_next_vts := some 540000, client_next_ats := some 384000 } :=
  ⟨(handle_client_info_effect (fresh_init_st.client.init "news" 360000 288000)
      ⟨1, 10, 11, 540000, 384000⟩).1 (by decide),
   ((handle_client_info_effect (fresh_init_st.client.init "news" 360000 288000)
      ⟨2, 10, 11, 540000, 384000⟩).2 rfl).1⟩


/-! ## C13: the default channel -/

theorem channels_emplace_mem (l : List (String × Channel)) (name : String) (ch : Channel)
    (p : String × Channel) (hp : p ∈ channels_emplace l name ch) :
    p ∈ l ∨ p = (name, ch) := by
  induction l with
  | nil =>
    simp only [channels_emplace, List.mem_singleton] at hp
    exact Or.inr hp
  | cons head rest ih =>
    obtain ⟨k, c⟩ := head
    simp only [channels_emplace] at hp
    split at hp
    · rcases List.mem_cons.mp hp with h | h
      · exact Or.inr h
      · exact Or.inl h
    · split at hp
      · exact Or.inl hp
      · rcases List.mem_cons.mp hp with h | h
        · exact Or.inl (h ▸ List.mem_cons_self _ _)
        · rcases ih h with h2 | h2
          · exact Or.inl (List.mem_cons_of_mem _ h2)
          · exact Or.inr h2

theorem channels_emplace_keeps (l : List (String × Channel)) (name : String) (ch : Channel)
    (p : String × Channel) (hp : p ∈ l) : p ∈ channels_emplace l name ch := by
  induction l with
  | nil => cases hp
  | cons head rest ih =>
    obtain ⟨k, c⟩ := head
    simp only [channels_emplace]
    split
    · exact List.mem_cons_of_mem _ hp
    · split
      · exact hp
      · rcases List.mem_cons.mp hp with h | h
        · exact h ▸ List.mem_cons_self _ _
        · exact List.mem_cons_of_mem _ (ih h)

theorem channels_emplace_key (l : List (String × Channel)) (name : String) (ch : Channel) :
    ∃ p ∈ channels_emplace l name ch, p.1 = name := by
  induction l with
  | nil => exact ⟨(name, ch), by simp [channels_emplace], rfl⟩
  | cons head rest ih =>
    obtain ⟨k, c⟩ := head
    simp only [channels_emplace]
    split
    · exact ⟨(name, ch), List.mem_cons_self _ _, rfl⟩
    · split
      · next h => exact ⟨(k, c), List.mem_cons_self _ _, h.symm⟩
      · obtain ⟨p, hp, hk⟩ := ih
        exact ⟨p, List.mem_cons_of_mem _ hp, hk⟩

/-- The first entry of the map has the smallest key: `emplace` keeps that. -/
theorem channels_emplace_head_min (l : List (String × Channel)) (name : String) (ch : Channel)
    (hmin : ∀ p rest, l = p :: rest → ∀ q ∈ l, p.1.data ≤ q.1.data) :
    ∀ p rest, channels_emplace l name ch = p :: rest →
      ∀ q ∈ channels_emplace l name ch, p.1.data ≤ q.1.data := by
  cases l with
  | nil =>
    intro p rest hl q hq
    simp only [channels_emplace, List.cons.injEq] at hl
    simp only [channels_emplace, List.mem_singleton] at hq
    rw [← hl.1, hq]
  | cons head tail =>
    obtain ⟨k, c⟩ := head
    have hk := hmin (k, c) tail rfl
    intro p rest hl q hq
    by_cases h1 : name.data < k.data
    · simp only [channels_emplace, h1, if_true, List.cons.injEq] at hl
      simp only [channels_emplace, h1, if_true] at hq
      rw [← hl.1]
      rcases List.mem_cons.mp hq with h | h
      · rw [h]
      · exact le_trans (le_of_lt h1) (hk q h)
    · have hq2 := channels_emplace_mem ((k, c) :: tail) name ch q hq
      have hp : p = (k, c) := by
        unfold channels_emplace at hl
        rw [if_neg h1] at hl
        split at hl
        · exact (List.cons_eq_cons.mp hl).1.symm
        · exact (List.cons_eq_cons.mp hl).1.symm
      rw [hp]
      rcases hq2 with h | h
      · exact hk q h
      · rw [h]
        exact not_lt.mp h1

/-- The state of the loop over `config["channel"]`: every entry of the map holds the channel
built for its key, the keys are the names read so far, the first entry has the smallest
key, and `channel_names` lists the names in the order read. -/
theorem load_channels_inv (new_channel : String → Channel) (names : List String) :
    ∀ (acc : List (String × Channel) × List String),
      (∀ p ∈ acc.1, p.2 = new_channel p.1 ∧ p.1 ∈ acc.2) →
      (∀ n ∈ acc.2, ∃ p ∈ acc.1, p.1 = n) →
      (∀ p rest, acc.1 = p :: rest → ∀ q ∈ acc.1, p.1.data ≤ q.1.data) →
      (∀ p ∈ (load_channels new_channel names acc).1,
        p.2 = new_channel p.1 ∧ p.1 ∈ acc.2 ++ names) ∧
      (∀ n ∈ acc.2 ++ names, ∃ p ∈ (load_channels new_channel names acc).1, p.1 = n) ∧
      (∀ p rest, (load_channels new_channel names acc).1 = p :: rest →
        ∀ q ∈ (load_channels new_channel names acc).1, p.1.data ≤ q.1.data) ∧
      (load_channels new_channel names acc).2 = acc.2 ++ names := by
  induction names with
  | nil =>
    intro acc h1 h2 h3
    simp only [load_channels, List.append_nil]
    exact ⟨h1, h2, h3, trivial⟩
  | cons name rest ih =>
    intro acc h1 h2 h3
    have := ih (channels_emplace acc.1 name (new_channel name), acc.2 ++ [name])
      (by
        intro p hp
        rcases channels_emplace_mem acc.1 name (new_channel name) p hp with h | h
        · exact ⟨(h1 p h).1, List.mem_append_left _ (h1 p h).2⟩
        · rw [h]
          exact ⟨rfl, List.mem_append_right _ (List.mem_singleton_self _)⟩)
      (by
        intro n hn
        rcases List.mem_append.mp hn with h | h
        · obtain ⟨p, hp, hk⟩ := h2 n h
          exact ⟨p, channels_emplace_keeps acc.1 name _ p hp, hk⟩
        · rw [List.mem_singleton] at h
          rw [h]
          exact channels_emplace_key acc.1 name _)
      (channels_emplace_head_min acc.1 name _ h3)
    simp only [load_channels]
    simp only [List.append_assoc, List.singleton_append] at this
    exact this


/-- C13 as stated fails: with `channel: [news, abc]` in the configuration, `ServerHello`
lists `news` first, but an `Init` without a channel subscribes the client to `abc`, the
first entry of the name-ordered map `channels`. -/
theorem default_channel_not_first_configured :
    (main_config two_channel_config).channel_names = ["news", "abc"] ∧
    (handle_client_open two_channel_env (main_config two_channel_config).channel_names
        opened_st.server 7).sent.filterMap server_hello_names = [["news", "abc"]] ∧
    (handle_client_init two_channel_env opened_st ⟨none⟩).fault = none ∧
    (handle_client_init two_channel_env opened_st ⟨none⟩).st.client.channel = some "abc" :=
  ⟨by decide, by decide, rfl, by decide⟩

/-- C13, amended. Default channel: for every configuration with a non-empty channel list
(each channel built under its own name), `ServerHello` lists the names in configuration
order, and an `Init` whose channel is absent succeeds and subscribes the client to the
first entry of the map `channels`, which is the configured channel with the smallest name
in string order (the first configured name only when that one is the smallest). -/
theorem default_channel_smallest_name (cfg : Config) (env : Env) (st : St)
    (hne : cfg.channel ≠ [])
    (hname : ∀ n ∈ cfg.channel, (cfg.new_channel n).name = n)
    (henv : env.channels = (main_config cfg).channels) :
    (main_config cfg).channel_names = cfg.channel ∧
    ∃ m, m ∈ cfg.channel ∧ (∀ n ∈ cfg.channel, m ≤ n) ∧
      channels_begin env.channels = some (cfg.new_channel m) ∧
      (handle_client_init env st ⟨none⟩).fault = none ∧
      (handle_client_init env st ⟨none⟩).st.client.channel = some m := by
  obtain ⟨h1, h2, h3, h4⟩ := load_channels_inv cfg.new_channel cfg.channel ([], [])
    (fun p hp => by cases hp) (fun n hn => by cases hn) (fun p rest h => by cases h)
  simp only [List.nil_append] at h1 h2 h4
  refine ⟨h4, ?_⟩
  obtain ⟨n0, rest0, hn0⟩ := List.exists_cons_of_ne_nil hne
  have hmem0 : n0 ∈ cfg.channel := by rw [hn0]; exact List.mem_cons_self _ _
  obtain ⟨p0, hp0, -⟩ := h2 n0 hmem0
  cases hl : (load_channels cfg.new_channel cfg.channel ([], [])).1 with
  | nil => rw [hl] at hp0; cases hp0
  | cons p rest =>
    have hpmem : p ∈ (load_channels cfg.new_channel cfg.channel ([], [])).1 := by
      rw [hl]; exact List.mem_cons_self _ _
    obtain ⟨hpch, hpname⟩ := h1 p hpmem
    have hbegin : channels_begin env.channels = some (cfg.new_channel p.1) := by
      rw [henv]
      show channels_begin (load_channels cfg.new_channel cfg.channel ([], [])).1 = _
      rw [hl, ← hpch]
      rfl
    have hres := handle_client_init_resolved env st ⟨none⟩ (cfg.new_channel p.1) hbegin
    refine ⟨p.1, hpname, ?_, hbegin, ?_, ?_⟩
    · intro n hn
      obtain ⟨q, hq, hqn⟩ := h2 n hn
      rw [String.le_iff_toList_le, ← hqn]
      exact h3 p rest hl q hq
    · rw [hres]
    · rw [hres]
      show some (cfg.new_channel p.1).name = some p.1
      rw [hname p.1 hpname]

/-- C13 on a configuration that lists `news` before `abc`: the default channel is `abc`. -/
theorem default_channel_smallest_name_witness :
    (main_config two_channel_config).channel_names = ["news", "abc"] ∧
    ∃ m, m ∈ ["news", "abc"] ∧ (∀ n ∈ ["news", "abc"], m ≤ n) ∧
      channels_begin two_channel_env.channels = some (two_channel_config.new_channel m) ∧
      (handle_client_init two_channel_env opened_st ⟨none⟩).fault = none ∧
      (handle_client_init two_channel_env opened_st ⟨none⟩).st.client.channel = some m :=
  default_channel_smallest_name two_channel_config two_channel_env opened_st
    (by decide) (fun _ _ => rfl) rfl


/-! ## The client registry -/

theorem clients_at_erase (l : List (Nat × WebSocketClient)) (id j : Nat) :
    clients_at (clients_erase l id) j = if j = id then none else clients_at l j := by
  induction l with
  | nil => simp [clients_erase, clients_at]
  | cons p rest ih =>
    obtain ⟨k, c⟩ := p
    by_cases hk : k = id
    · simp only [clients_erase, hk, if_true, ih, clients_at]
      by_cases hj : j = id
      · simp [hj]
      · have : ¬ id = j := fun h => hj h.symm
        simp [hj, this]
    · simp only [clients_erase, hk, if_false, clients_at, ih]
      by_cases hj : j = id
      · have : ¬ k = j := fun h => hk (h.trans hj)
        simp [hj, this, hk]
      · simp [hj]

theorem clients_at_set (l : List (Nat × WebSocketClient)) (id j : Nat) (c1 : WebSocketClient) :
    clients_at (clients_set l id c1) j =
      if j = id then (clients_at l id).map (fun _ => c1) else clients_at l j := by
  induction l with
  | nil => simp [clients_set, clients_at]
  | cons p rest ih =>
    obtain ⟨k, c⟩ := p
    by_cases hk : k = id
    · simp only [clients_set, hk, if_true, clients_at]
      by_cases hj : j = id
      · simp [hj]
      · have : ¬ id = j := fun h => hj h.symm
        simp [hj, this]
    · simp only [clients_set, hk, if_false, clients_at, ih]
      by_cases hj : j = id
      · have : ¬ k = j := fun h => hk (h.trans hj)
        simp [hj, this, hk]
      · simp [hj]

theorem clients_erase_set (l : List (Nat × WebSocketClient)) (id : Nat) (c1 : WebSocketClient) :
    clients_erase (clients_set l id c1) id = clients_erase l id := by
  induction l with
  | nil => rfl
  | cons p rest ih =>
    obtain ⟨k, c⟩ := p
    by_cases hk : k = id
    · simp [clients_set, clients_erase, hk]
    · simp [clients_set, clients_erase, hk, ih]

theorem clients_at_none (l : List (Nat × WebSocketClient)) (id : Nat) :
    clients_at l id = none ↔ id ∉ l.map Prod.fst := by
  induction l with
  | nil => simp [clients_at]
  | cons p rest ih =>
    obtain ⟨k, c⟩ := p
    by_cases hk : k = id
    · simp [clients_at, hk]
    · have : ¬ id = k := fun h => hk h.symm
      simp only [clients_at, hk, if_false, ih, List.map_cons, List.mem_cons, this, false_or]

theorem clients_erase_absent (l : List (Nat × WebSocketClient)) (id : Nat)
    (h : clients_at l id = none) : clients_erase l id = l := by
  induction l with
  | nil => rfl
  | cons p rest ih =>
    obtain ⟨k, c⟩ := p
    by_cases hk : k = id
    · simp [clients_at, hk] at h
    · simp only [clients_at, hk, if_false] at h
      simp [clients_erase, hk, ih h]

theorem clients_at_mem (l : List (Nat × WebSocketClient)) (id : Nat) (c : WebSocketClient)
    (h : clients_at l id = some c) : (id, c) ∈ l := by
  induction l with
  | nil => simp [clients_at] at h
  | cons p rest ih =>
    obtain ⟨k, c0⟩ := p
    by_cases hk : k = id
    · simp only [clients_at, hk, if_true, Option.some.injEq] at h
      simp [hk, h]
    · simp only [clients_at, hk, if_false] at h
      exact List.mem_cons_of_mem _ (ih h)

theorem clients_at_of_mem (l : List (Nat × WebSocketClient)) (id : Nat) (c : WebSocketClient)
    (hnd : (l.map Prod.fst).Nodup) (h : (id, c) ∈ l) : clients_at l id = some c := by
  induction l with
  | nil => cases h
  | cons p rest ih =>
    obtain ⟨k, c0⟩ := p
    simp only [List.map_cons, List.nodup_cons] at hnd
    rcases List.mem_cons.mp h with h1 | h1
    · simp only [Prod.mk.injEq] at h1
      simp [clients_at, h1.1, h1.2]
    · have hk : ¬ k = id := by
        intro hk
        apply hnd.1
        rw [hk]
        exact List.mem_map.mpr ⟨(id, c), h1, rfl⟩
      simp only [clients_at, hk, if_false]
      exact ih hnd.2 h1

theorem clients_insert_mem (l : List (Nat × WebSocketClient)) (id : Nat) (c1 : WebSocketClient)
    (p : Nat × WebSocketClient) : p ∈ clients_insert l id c1 ↔ p = (id, c1) ∨ p ∈ l := by
  induction l with
  | nil => simp [clients_insert]
  | cons q rest ih =>
    obtain ⟨k, c⟩ := q
    by_cases hk : id < k
    · simp [clients_insert, hk]
    · simp only [clients_insert, hk, if_false, List.mem_cons, ih]
      tauto

theorem clients_insert_nodup (l : List (Nat × WebSocketClient)) (id : Nat)
    (c1 : WebSocketClient) (hnd : (l.map Prod.fst).Nodup) (h : id ∉ l.map Prod.fst) :
    ((clients_insert l id c1).map Prod.fst).Nodup := by
  induction l with
  | nil => simp [clients_insert]
  | cons q rest ih =>
    obtain ⟨k, c⟩ := q
    simp only [List.map_cons, List.nodup_cons, List.mem_cons, not_or] at hnd h
    by_cases hk : id < k
    · simp only [clients_insert, hk, if_true, List.map_cons, List.nodup_cons, List.mem_cons,
        not_or]
      exact ⟨⟨h.1, h.2⟩, hnd.1, hnd.2⟩
    · simp only [clients_insert, hk, if_false, List.map_cons, List.nodup_cons]
      refine ⟨?_, ih hnd.2 h.2⟩
      intro hmem
      obtain ⟨p, hp, hpk⟩ := List.mem_map.mp hmem
      rcases (clients_insert_mem rest id c1 p).mp hp with h1 | h1
      · rw [h1] at hpk
        exact h.1 hpk
      · exact hnd.1 (List.mem_map.mpr ⟨p, h1, hpk⟩)

theorem clients_at_insert (l : List (Nat × WebSocketClient)) (id j : Nat)
    (c1 : WebSocketClient) (h : clients_at l id = none) :
    clients_at (clients_insert l id c1) j = if j = id then some c1 else clients_at l j := by
  induction l with
  | nil =>
    by_cases hj : j = id
    · simp [clients_insert, clients_at, hj]
    · have : ¬ id = j := fun h => hj h.symm
      simp [clients_insert, clients_at, hj, this]
  | cons q rest ih =>
    obtain ⟨k, c⟩ := q
    have hk : ¬ k = id := by
      intro hk
      simp [clients_at, hk] at h
    simp only [clients_at, hk, if_false] at h
    by_cases hlt : id < k
    · by_cases hj : j = id
      · simp [clients_insert, hlt, clients_at, hj]
      · have : ¬ id = j := fun h => hj h.symm
        simp [clients_insert, hlt, clients_at, hj, this]
    · simp only [clients_insert, hlt, if_false, clients_at, ih h]
      by_cases hj : j = id
      · have : ¬ k = j := fun h => hk (h.trans hj)
        simp [hj, this, hk]
      · simp [hj]

/-- An `Init` that names a channel the catalog does not hold throws
`BadClientMessageException` before it touches the client or the carrier. -/
theorem handle_client_init_unknown (env : Env) (st : St) (name : String)
    (h : channels_at env.channels name = none) :
    handle_client_init env st ⟨some name⟩ = ⟨st, some .bad_client_message⟩ := by
  unfold handle_client_init
  dsimp only
  split
  · rfl
  · next ch hch =>
    have hne : (none : Option Channel) = some ch := h.symm.trans hch
    cases hne

/-! ## C14: an `Init` for an unknown channel -/

/-- C14: an `Init` that names a channel which is not in the catalog removes the sending
client from the registry (the registry becomes the old one with the sender erased, so
every other client keeps its state), leaves the carrier untouched (no `ServerInit`, no
frame at all) and, the sender being registered, ends without a fault. -/
theorem unknown_channel_removes_sender (env : Env) (sys : Sys) (id : Nat) (name : String)
    (client : WebSocketClient)
    (hreg : clients_at sys.clients id = some client)
    (h : channels_at env.channels name = none) :
    (on_message env sys id (.init ⟨some name⟩)).fault = none ∧
    (on_message env sys id (.init ⟨some name⟩)).sys.clients = clients_erase sys.clients id ∧
    clients_at (on_message env sys id (.init ⟨some name⟩)).sys.clients id = none ∧
    (∀ j, j ≠ id →
      clients_at (on_message env sys id (.init ⟨some name⟩)).sys.clients j =
        clients_at sys.clients j) ∧
    (on_message env sys id (.init ⟨some name⟩)).sys.server = sys.server ∧
    sys_new_frames sys (on_message env sys id (.init ⟨some name⟩)).sys = [] := by
  have hrun : on_message env sys id (.init ⟨some name⟩) =
      ⟨⟨sys.server, clients_erase sys.clients id, sys.rand_calls⟩, none⟩ := by
    simp only [on_message, hreg, handle_client_init_unknown env _ name h, clients_erase_set]
  rw [hrun]
  refine ⟨rfl, rfl, ?_, ?_, rfl, ?_⟩
  · simp [clients_at_erase]
  · intro j hj
    simp [clients_at_erase, hj]
  · simp [sys_new_frames]

theorem unknown_channel_removes_sender_witness :
    clients_at (sys_run [.opened (demo_env 100 1000) ["news"] 7,
        .opened (demo_env 100 1000) ["news"] 9] sys_init).sys.clients 9 =
      some (WebSocketClient.fresh 9) ∧
    channels_at (demo_env 100 1000).channels "sports" = none ∧
    (on_message (demo_env 100 1000)
      (sys_run [.opened (demo_env 100 1000) ["news"] 7,
        .opened (demo_env 100 1000) ["news"] 9] sys_init).sys 9
      (.init ⟨some "sports"⟩)).sys.clients = [(7, WebSocketClient.fresh 7)] :=
  ⟨rfl, rfl,
    (unknown_channel_removes_sender (demo_env 100 1000)
      (sys_run [.opened (demo_env 100 1000) ["news"] 7,
        .opened (demo_env 100 1000) ["news"] 9] sys_init).sys 9 "sports"
      (WebSocketClient.fresh 9) rfl rfl).2.1.trans rfl⟩


/-! ## C15: ticks serve the registered clients that have a channel -/

theorem serves_own_frames_refl (st : St) : serves_own_frames st st :=
  ⟨rfl, rfl, [], by simp, fun e he => by cases he⟩

theorem serves_own_frames_trans (st st1 st2 : St) (h1 : serves_own_frames st st1)
    (h2 : serves_own_frames st1 st2) : serves_own_frames st st2 := by
  obtain ⟨hid1, hc1, fs1, hs1, hf1⟩ := h1
  obtain ⟨hid2, hc2, fs2, hs2, hf2⟩ := h2
  refine ⟨hid2.trans hid1, hc2.trans hc1, fs1 ++ fs2, ?_, ?_⟩
  · rw [hs2, hs1, List.append_assoc]
  · intro e he
    rcases List.mem_append.mp he with h | h
    · exact hf1 e h
    · exact (hf2 e h).trans hid1

theorem serve_video_own_frames (env : Env) (st : St) :
    serves_own_frames st (serve_video_to_client env st).st := by
  obtain ⟨hid, hc, h | ⟨-, f, -, hq⟩⟩ := serve_video_effect env st
  · rw [h]
    exact serves_own_frames_refl st
  · refine ⟨hid, hc, [⟨st.client.connection_id, f, st.server.pending st.client.connection_id⟩],
      ?_, ?_⟩
    · rw [hq]
      rfl
    · intro e he
      rw [List.mem_singleton.mp he]

theorem serve_audio_own_frames (env : Env) (st : St) :
    serves_own_frames st (serve_audio_to_client env st).st := by
  obtain ⟨hid, hc, h | ⟨-, f, -, hq⟩⟩ := serve_audio_effect env st
  · rw [h]
    exact serves_own_frames_refl st
  · refine ⟨hid, hc, [⟨st.client.connection_id, f, st.server.pending st.client.connection_id⟩],
      ?_, ?_⟩
    · rw [hq]
      rfl
    · intro e he
      rw [List.mem_singleton.mp he]

theorem serve_audio_first_own_frames (env : Env) (csv csa : Bool) (st : St) :
    serves_own_frames st (serve_audio_first env csv csa st).st := by
  have h1 : serves_own_frames st
      (if csa = true then serve_audio_to_client env st else ⟨st, none⟩).st := by
    split
    · exact serve_audio_own_frames env st
    · exact serves_own_frames_refl st
  have key : ∀ r1 : Res, serves_own_frames st r1.st →
      serves_own_frames st
        (match r1.fault with
          | some f => (⟨r1.st, some f⟩ : Res)
          | none =>
            if csv ∧ r1.st.server.queue_size r1.st.client.connection_id < env.max_ws_queue_len
            then serve_video_to_client env r1.st
            else r1).st := by
    intro r1 hr
    split
    · exact hr
    · split
      · exact serves_own_frames_trans _ _ _ hr (serve_video_own_frames env _)
      · exact hr
  exact key _ h1

theorem serve_video_first_own_frames (env : Env) (csv csa : Bool) (st : St) :
    serves_own_frames st (serve_video_first env csv csa st).st := by
  have h1 : serves_own_frames st
      (if csv = true then serve_video_to_client env st else ⟨st, none⟩).st := by
    split
    · exact serve_video_own_frames env st
    · exact serves_own_frames_refl st
  have key : ∀ r1 : Res, serves_own_frames st r1.st →
      serves_own_frames st
        (match r1.fault with
          | some f => (⟨r1.st, some f⟩ : Res)
          | none =>
            if csa ∧ r1.st.server.queue_size r1.st.client.connection_id < env.max_ws_queue_len
            then serve_audio_to_client env r1.st
            else r1).st := by
    intro r1 hr
    split
    · exact hr
    · split
      · exact serves_own_frames_trans _ _ _ hr (serve_audio_own_frames env _)
      · exact hr
  exact key _ h1

theorem serve_client_own_frames (env : Env) (st : St) :
    serves_own_frames st (serve_client env st).st := by
  rcases serve_client_cases env st with h | ⟨_, _, csv, csa, _, _, -, -, -, -, -, -, -, h⟩
  · rw [h]
    exact serves_own_frames_refl st
  · rcases h with ⟨-, h⟩ | ⟨-, h⟩
    · rw [h]
      exact serve_audio_first_own_frames env csv csa st
    · rw [h]
      exact serve_video_first_own_frames env csv csa st

/-- The loop of a tick: the keys of the registry stay, every client keeps its connection,
the clients without a channel and the absent keys are left as they are, and each frame
appended to the carrier belongs to an entry that has a channel. -/
theorem tick_loop_effect (env : Env) :
    ∀ (l : List (Nat × WebSocketClient)) (server : WebSocketServer) (rand_calls : Nat),
      (tick_loop env l server rand_calls).1.clients.map Prod.fst = l.map Prod.fst ∧
      ((∀ p ∈ l, p.2.connection_id = p.1) →
        ∀ p ∈ (tick_loop env l server rand_calls).1.clients, p.2.connection_id = p.1) ∧
      (∀ id c, clients_at l id = some c → c.channel = none →
        clients_at (tick_loop env l server rand_calls).1.clients id = some c) ∧
      ∃ fs, (tick_loop env l server rand_calls).1.server.sent = server.sent ++ fs ∧
        ∀ e ∈ fs, ∃ p ∈ l, p.2.connection_id = e.connection_id ∧ p.2.channel ≠ none := by
  intro l
  induction l with
  | nil =>
    intro server rand_calls
    refine ⟨rfl, ?_, ?_, [], ?_, ?_⟩
    · intro _ p hp
      cases hp
    · intro id c h
      simp [clients_at] at h
    · simp [tick_loop]
    · intro e he
      cases he
  | cons q rest ih =>
    obtain ⟨k, c⟩ := q
    intro server rand_calls
    cases hc : c.channel with
    | none =>
      obtain ⟨hk, hid, hkeep, fs, hs, hf⟩ := ih server rand_calls
      have hrun : tick_loop env ((k, c) :: rest) server rand_calls =
          (⟨(tick_loop env rest server rand_calls).1.server,
            (k, c) :: (tick_loop env rest server rand_calls).1.clients,
            (tick_loop env rest server rand_calls).1.rand_calls⟩,
           (tick_loop env rest server rand_calls).2) := by
        simp only [tick_loop, hc]
      rw [hrun]
      refine ⟨by simp [hk], ?_, ?_, fs, hs, ?_⟩
      · intro hall p hp
        rcases List.mem_cons.mp hp with h | h
        · rw [h]
          exact hall (k, c) (List.mem_cons_self _ _)
        · exact hid (fun p hp => hall p (List.mem_cons_of_mem _ hp)) p h
      · intro id c0 h0 hc0
        by_cases hkid : k = id
        · simp only [clients_at, hkid, if_true] at h0 ⊢
          exact h0
        · simp only [clients_at, hkid, if_false] at h0 ⊢
          exact hkeep id c0 h0 hc0
      · intro e he
        obtain ⟨p, hp, h⟩ := hf e he
        exact ⟨p, List.mem_cons_of_mem _ hp, h⟩
    | some name =>
      obtain ⟨hid1, hch1, fs1, hs1, hf1⟩ := serve_client_own_frames env ⟨server, c, rand_calls⟩
      have hbound : c.channel ≠ none := by simp [hc]
      cases hfault : (serve_client env ⟨server, c, rand_calls⟩).fault with
      | some f =>
        have hrun : tick_loop env ((k, c) :: rest) server rand_calls =
            (⟨(serve_client env ⟨server, c, rand_calls⟩).st.server,
              (k, (serve_client env ⟨server, c, rand_calls⟩).st.client) :: rest,
              (serve_client env ⟨server, c, rand_calls⟩).st.rand_calls⟩, some f) := by
          simp only [tick_loop, hc]
          split
          · next st f1 heq => rw [heq] at hfault; cases hfault; rw [heq]
          · next st heq => rw [heq] at hfault; cases hfault
        rw [hrun]
        refine ⟨rfl, ?_, ?_, fs1, hs1, ?_⟩
        · intro hall p hp
          rcases List.mem_cons.mp hp with h | h
          · rw [h]
            exact hid1.trans (hall (k, c) (List.mem_cons_self _ _))
          · exact hall p (List.mem_cons_of_mem _ h)
        · intro id c0 h0 hc0
          by_cases hkid : k = id
          · simp only [clients_at, hkid, if_true, Option.some.injEq] at h0
            rw [h0] at hc
            rw [hc0] at hc
            cases hc
          · simp only [clients_at, hkid, if_false] at h0 ⊢
            exact h0
        · intro e he
          exact ⟨(k, c), List.mem_cons_self _ _, (hf1 e he).symm, hbound⟩
      | none =>
        obtain ⟨hk, hid, hkeep, fs, hs, hf⟩ :=
          ih (serve_client env ⟨server, c, rand_calls⟩).st.server
            (serve_client env ⟨server, c, rand_calls⟩).st.rand_calls
        have hrun : tick_loop env ((k, c) :: rest) server rand_calls =
            (⟨(tick_loop env rest (serve_client env ⟨server, c, rand_calls⟩).st.server
                (serve_client env ⟨server, c, rand_calls⟩).st.rand_calls).1.server,
              (k, (serve_client env ⟨server, c, rand_calls⟩).st.client) ::
                (tick_loop env rest (serve_client env ⟨server, c, rand_calls⟩).st.server
                  (serve_client env ⟨server, c, rand_calls⟩).st.rand_calls).1.clients,
              (tick_loop env rest (serve_client env ⟨server, c, rand_calls⟩).st.server
                (serve_client env ⟨server, c, rand_calls⟩).st.rand_calls).1.rand_calls⟩,
             (tick_loop env rest (serve_client env ⟨server, c, rand_calls⟩).st.server
                (serve_client env ⟨server, c, rand_calls⟩).st.rand_calls).2) := by
          simp only [tick_loop, hc]
          split
          · next st f1 heq => rw [heq] at hfault; cases hfault
          · next st heq => rw [heq]
        rw [hrun]
        refine ⟨by simp [hk], ?_, ?_, fs1 ++ fs, ?_, ?_⟩
        · intro hall p hp
          rcases List.mem_cons.mp hp with h | h
          · rw [h]
            exact hid1.trans (hall (k, c) (List.mem_cons_self _ _))
          · exact hid (fun p hp => hall p (List.mem_cons_of_mem _ hp)) p h
        · intro id c0 h0 hc0
          by_cases hkid : k = id
          · simp only [clients_at, hkid, if_true, Option.some.injEq] at h0
            rw [h0] at hc
            rw [hc0] at hc
            cases hc
          · simp only [clients_at, hkid, if_false] at h0 ⊢
            exact hkeep id c0 h0 hc0
        · rw [hs, hs1, List.append_assoc]
        · intro e he
          rcases List.mem_append.mp he with h | h
          · exact ⟨(k, c), List.mem_cons_self _ _, (hf1 e h).symm, hbound⟩
          · obtain ⟨p, hp, h2⟩ := hf e h
            exact ⟨p, List.mem_cons_of_mem _ hp, h2⟩


theorem handle_client_init_client (env : Env) (st : St) (message : ClientInitMessage) :
    (handle_client_init env st message).st.client.connection_id = st.client.connection_id := by
  unfold handle_client_init
  dsimp only
  split
  · rfl
  · split <;> rfl

theorem handle_client_info_client (client : WebSocketClient) (message : ClientInfoMessage) :
    (handle_client_info client message).connection_id = client.connection_id ∧
    (handle_client_info client message).channel = client.channel := by
  unfold handle_client_info
  split <;> exact ⟨rfl, rfl⟩

theorem clients_erase_sublist (l : List (Nat × WebSocketClient)) (id : Nat) :
    (clients_erase l id).Sublist l := by
  induction l with
  | nil => exact List.Sublist.slnil
  | cons p rest ih =>
    obtain ⟨k, c⟩ := p
    by_cases hk : k = id
    · simp only [clients_erase, hk, if_true]
      exact List.Sublist.cons _ ih
    · simp only [clients_erase, hk, if_false]
      exact List.Sublist.cons₂ _ ih

theorem registry_ok_erase (l : List (Nat × WebSocketClient)) (id : Nat) (h : registry_ok l) :
    registry_ok (clients_erase l id) :=
  ⟨fun p hp => h.1 p ((clients_erase_sublist l id).subset hp),
    h.2.sublist ((clients_erase_sublist l id).map Prod.fst)⟩

theorem clients_set_keys (l : List (Nat × WebSocketClient)) (id : Nat) (c1 : WebSocketClient) :
    (clients_set l id c1).map Prod.fst = l.map Prod.fst ∧
    ∀ p ∈ clients_set l id c1, p = (id, c1) ∨ p ∈ l := by
  induction l with
  | nil => exact ⟨rfl, fun p hp => by cases hp⟩
  | cons q rest ih =>
    obtain ⟨k, c⟩ := q
    by_cases hk : k = id
    · simp only [clients_set, hk, if_true, List.map_cons, true_and]
      intro p hp
      rcases List.mem_cons.mp hp with h | h
      · exact Or.inl h
      · exact Or.inr (List.mem_cons_of_mem _ h)
    · simp only [clients_set, hk, if_false, List.map_cons, ih.1, true_and]
      intro p hp
      rcases List.mem_cons.mp hp with h | h
      · exact Or.inr (by rw [h]; exact List.mem_cons_self _ _)
      · rcases ih.2 p h with h1 | h1
        · exact Or.inl h1
        · exact Or.inr (List.mem_cons_of_mem _ h1)

theorem registry_ok_set (l : List (Nat × WebSocketClient)) (id : Nat) (c1 : WebSocketClient)
    (h : registry_ok l) (hid : c1.connection_id = id) : registry_ok (clients_set l id c1) := by
  refine ⟨?_, by rw [(clients_set_keys l id c1).1]; exact h.2⟩
  intro p hp
  rcases (clients_set_keys l id c1).2 p hp with h1 | h1
  · rw [h1]
    exact hid
  · exact h.1 p h1

/-- The clients of the message callback's result: the registry with the sender's entry
rewritten, or that registry with the sender erased, or the registry as it was. -/
theorem on_message_clients (env : Env) (sys : Sys) (id : Nat) (msg : ClientMsg) :
    (on_message env sys id msg).sys.clients = sys.clients ∨
    (on_message env sys id msg).sys.clients = clients_erase sys.clients id ∨
    ∃ client c1, clients_at sys.clients id = some client ∧
      c1.connection_id = client.connection_id ∧
      ((∀ m, msg ≠ .init m) → c1.channel = client.channel) ∧
      (on_message env sys id msg).sys.clients = clients_set sys.clients id c1 := by
  cases hreg : clients_at sys.clients id with
  | none => left; simp only [on_message, hreg]
  | some client =>
    cases msg with
    | unparsable => right; left; simp only [on_message, hreg]
    | other => left; simp only [on_message, hreg]
    | info m =>
      right; right
      exact ⟨client, handle_client_info client m, rfl, (handle_client_info_client client m).1,
        fun _ => (handle_client_info_client client m).2, by simp only [on_message, hreg]⟩
    | init m =>
      have hid := handle_client_init_client env ⟨sys.server, client, sys.rand_calls⟩ m
      simp only [on_message, hreg]
      split
      · next st heq =>
        rw [heq] at hid
        right; right
        exact ⟨client, st.client, rfl, hid, fun h => absurd rfl (h m), rfl⟩
      · next st heq =>
        right; left
        exact clients_erase_set _ _ _
      · next st f hf heq =>
        rw [heq] at hid
        right; right
        exact ⟨client, st.client, rfl, hid, fun h => absurd rfl (h m), rfl⟩

/-- The clients of the open callback's result: the registry with a fresh client inserted
for a key that was absent, or, on a fault, the registry as it was. -/
theorem on_open_clients (env : Env) (names : List String) (sys : Sys) (id : Nat) :
    ((on_open env names sys id).fault = none ∧ clients_at sys.clients id = none ∧
      (on_open env names sys id).sys.clients =
        clients_insert sys.clients id (WebSocketClient.fresh id)) ∨
    ((on_open env names sys id).fault ≠ none ∧
      (on_open env names sys id).sys.clients = sys.clients) := by
  cases hreg : clients_at sys.clients id with
  | none => left; simp [on_open, clients_emplace, hreg]
  | some c => right; simp [on_open, clients_emplace, hreg]

theorem sys_step_tick (env : Env) (pending : Nat → Nat) (sys : Sys) :
    (sys_step sys (.tick env pending)).sys =
      (tick_loop env sys.clients ⟨pending, sys.server.sent⟩ sys.rand_calls).1 := rfl

/-- Every callback keeps the registry well-formed. -/
theorem sys_step_registry (sys : Sys) (ev : SysEvent) (h : registry_ok sys.clients) :
    registry_ok (sys_step sys ev).sys.clients := by
  cases ev with
  | opened env names id =>
    rcases on_open_clients env names sys id with ⟨-, habs, hc⟩ | ⟨-, hc⟩
    · show registry_ok (on_open env names sys id).sys.clients
      rw [hc]
      refine ⟨?_, clients_insert_nodup _ _ _ h.2 ((clients_at_none _ _).mp habs)⟩
      intro p hp
      rcases (clients_insert_mem _ _ _ p).mp hp with h1 | h1
      · rw [h1]
        rfl
      · exact h.1 p h1
    · show registry_ok (on_open env names sys id).sys.clients
      rw [hc]
      exact h
  | closed id => exact registry_ok_erase _ _ h
  | message env id msg =>
    show registry_ok (on_message env sys id msg).sys.clients
    rcases on_message_clients env sys id msg with hc | hc | ⟨client, c1, hreg, hid, -, hc⟩
    · rw [hc]
      exact h
    · rw [hc]
      exact registry_ok_erase _ _ h
    · rw [hc]
      exact registry_ok_set _ _ _ h (hid.trans (h.1 _ (clients_at_mem _ _ _ hreg)))
  | tick env pending =>
    rw [sys_step_tick]
    obtain ⟨hk, hid, -, -⟩ :=
      tick_loop_effect env sys.clients ⟨pending, sys.server.sent⟩ sys.rand_calls
    exact ⟨hid h.1, by rw [hk]; exact h.2⟩

/-- A property that every callback keeps, for the events allowed, holds along a run. -/
theorem sys_run_inv (P : Sys → Prop) (allowed : SysEvent → Prop)
    (hstep : ∀ sys ev, P sys → allowed ev → P (sys_step sys ev).sys) :
    ∀ (events : List SysEvent) (sys : Sys), P sys → (∀ ev ∈ events, allowed ev) →
      P (sys_run events sys).sys := by
  intro events
  induction events with
  | nil => intro sys h _; exact h
  | cons ev rest ih =>
    intro sys h hall
    have h1 := hstep sys ev h (hall ev (List.mem_cons_self _ _))
    unfold sys_run
    split
    · exact h1
    · exact ih _ h1 (fun e he => hall e (List.mem_cons_of_mem _ he))

theorem sys_run_registry (events : List SysEvent) (sys : Sys) (h : registry_ok sys.clients) :
    registry_ok (sys_run events sys).sys.clients :=
  sys_run_inv (fun s => registry_ok s.clients) (fun _ => True)
    (fun s ev hs _ => sys_step_registry s ev hs) events sys h (fun _ _ => trivial)

theorem registry_ok_init : registry_ok sys_init.clients :=
  ⟨fun p hp => (by cases hp), List.nodup_nil⟩

/-- In a well-formed registry a tick enqueues frames only for registered clients that
have a channel, and leaves the entry of every other connection as it is. -/
theorem tick_effect (env : Env) (pending : Nat → Nat) (sys : Sys)
    (h : registry_ok sys.clients) :
    (∀ e ∈ tick_frames env pending sys,
      ∃ c, clients_at sys.clients e.connection_id = some c ∧ c.channel ≠ none) ∧
    (∀ id, (∀ c, clients_at sys.clients id = some c → c.channel = none) →
      clients_at (sys_step sys (.tick env pending)).sys.clients id =
        clients_at sys.clients id) := by
  obtain ⟨hk, -, hkeep, fs, hs, hf⟩ :=
    tick_loop_effect env sys.clients ⟨pending, sys.server.sent⟩ sys.rand_calls
  constructor
  · intro e he
    have hfs : tick_frames env pending sys = fs := by
      unfold tick_frames sys_new_frames
      rw [sys_step_tick, hs]
      simp
    rw [hfs] at he
    obtain ⟨p, hp, hpid, hpc⟩ := hf e he
    have hkey : p.1 = e.connection_id := (h.1 p hp).symm.trans hpid
    refine ⟨p.2, ?_, hpc⟩
    rw [← hkey]
    exact clients_at_of_mem _ _ _ h.2 hp
  · intro id hid
    rw [sys_step_tick]
    cases hreg : clients_at sys.clients id with
    | none =>
      rw [clients_at_none, hk, ← clients_at_none]
      exact hreg
    | some c => exact hkeep id c hreg (hid c hreg)

/-- A connection without a bound channel stays so until its `Init`. -/
theorem sys_step_unbound (id : Nat) (sys : Sys) (ev : SysEvent)
    (h : registry_ok sys.clients ∧ ∀ c, clients_at sys.clients id = some c → c.channel = none)
    (hev : is_init_from id ev = false) :
    registry_ok (sys_step sys ev).sys.clients ∧
      ∀ c, clients_at (sys_step sys ev).sys.clients id = some c → c.channel = none := by
  refine ⟨sys_step_registry sys ev h.1, ?_⟩
  obtain ⟨hok, h⟩ := h
  cases ev with
  | opened env names j =>
    show ∀ c, clients_at (on_open env names sys j).sys.clients id = some c → c.channel = none
    rcases on_open_clients env names sys j with ⟨-, habs, hc⟩ | ⟨-, hc⟩
    · rw [hc]
      intro c
      rw [clients_at_insert _ _ _ _ habs]
      split
      · intro hc1
        simp only [Option.some.injEq] at hc1
        rw [← hc1]
        rfl
      · exact h c
    · rw [hc]
      exact h
  | closed j =>
    show ∀ c, clients_at (clients_erase sys.clients j) id = some c → c.channel = none
    intro c
    rw [clients_at_erase]
    split
    · intro hc; cases hc
    · exact h c
  | message env j msg =>
    show ∀ c, clients_at (on_message env sys j msg).sys.clients id = some c → c.channel = none
    rcases on_message_clients env sys j msg with hc | hc | ⟨client, c1, hreg, -, hch, hc⟩
    · rw [hc]
      exact h
    · rw [hc]
      intro c
      rw [clients_at_erase]
      split
      · intro hc; cases hc
      · exact h c
    · rw [hc]
      intro c
      rw [clients_at_set]
      split
      · next hij =>
        rw [hreg]
        intro hc1
        simp only [Option.map_some', Option.some.injEq] at hc1
        rw [← hc1, hch]
        · rw [hij] at h
          exact h client hreg
        · intro m hm
          rw [hm] at hev
          simp [is_init_from, hij] at hev
      · exact h c
  | tick env pending =>
    intro c
    rw [(tick_effect env pending sys hok).2 id h]
    exact h c

/-- A connection that is not registered stays so until it is opened. -/
theorem sys_step_absent (id : Nat) (sys : Sys) (ev : SysEvent)
    (h : registry_ok sys.clients ∧ clients_at sys.clients id = none)
    (hev : is_open_of id ev = false) :
    registry_ok (sys_step sys ev).sys.clients ∧
      clients_at (sys_step sys ev).sys.clients id = none := by
  refine ⟨sys_step_registry sys ev h.1, ?_⟩
  obtain ⟨hok, h⟩ := h
  cases ev with
  | opened env names j =>
    show clients_at (on_open env names sys j).sys.clients id = none
    have hij : ¬ id = j := by
      intro hij
      simp [is_open_of, hij] at hev
    rcases on_open_clients env names sys j with ⟨-, habs, hc⟩ | ⟨-, hc⟩
    · rw [hc, clients_at_insert _ _ _ _ habs, if_neg hij]
      exact h
    · rw [hc]
      exact h
  | closed j =>
    show clients_at (clients_erase sys.clients j) id = none
    rw [clients_at_erase]
    split
    · rfl
    · exact h
  | message env j msg =>
    show clients_at (on_message env sys j msg).sys.clients id = none
    rcases on_message_clients env sys j msg with hc | hc | ⟨client, c1, hreg, -, -, hc⟩
    · rw [hc]
      exact h
    · rw [hc, clients_at_erase]
      split
      · rfl
      · exact h
    · rw [hc, clients_at_set]
      split
      · next hij => rw [← hij, h]; rfl
      · exact h
  | tick env pending =>
    rw [(tick_effect env pending sys hok).2 id (fun c hc => by rw [h] at hc; cases hc)]
    exact h


/-- C15: along every run from start-up, (1) each frame a tick enqueues is for a
connection that is registered and has a bound channel; (2) a connection that was opened
and has sent no `Init` since gets no frame from a tick, and a tick leaves its entry as
it is; (3) after the close callback of a connection, and until that connection is
opened again, no tick enqueues a frame for it. -/
theorem tick_serves_bound_clients (pre mid : List SysEvent) (env0 : Env)
    (names : List String) (id : Nat) (env : Env) (pending : Nat → Nat) :
    (∀ e ∈ tick_frames env pending (sys_run pre sys_init).sys,
      ∃ c, clients_at (sys_run pre sys_init).sys.clients e.connection_id = some c ∧
        c.channel ≠ none) ∧
    ((sys_step (sys_run pre sys_init).sys (.opened env0 names id)).fault = none →
      (∀ ev ∈ mid, is_init_from id ev = false) →
      clients_at (sys_step (sys_run pre sys_init).sys (.opened env0 names id)).sys.clients id =
        some (WebSocketClient.fresh id) ∧
      (∀ e ∈ tick_frames env pending
          (sys_run mid (sys_step (sys_run pre sys_init).sys (.opened env0 names id)).sys).sys,
        e.connection_id ≠ id) ∧
      clients_at (sys_step
          (sys_run mid (sys_step (sys_run pre sys_init).sys (.opened env0 names id)).sys).sys
          (.tick env pending)).sys.clients id =
        clients_at
          (sys_run mid (sys_step (sys_run pre sys_init).sys (.opened env0 names id)).sys).sys.clients
          id) ∧
    ((∀ ev ∈ mid, is_open_of id ev = false) →
      ∀ e ∈ tick_frames env pending
          (sys_run mid (sys_step (sys_run pre sys_init).sys (.closed id)).sys).sys,
        e.connection_id ≠ id) := by
  have h0 : registry_ok (sys_run pre sys_init).sys.clients :=
    sys_run_registry pre sys_init registry_ok_init
  refine ⟨(tick_effect env pending _ h0).1, ?_, ?_⟩
  · intro hopen hmid
    have hfresh : clients_at
        (sys_step (sys_run pre sys_init).sys (.opened env0 names id)).sys.clients id =
        some (WebSocketClient.fresh id) := by
      rcases on_open_clients env0 names (sys_run pre sys_init).sys id with
        ⟨-, habs, hc⟩ | ⟨hf, -⟩
      · show clients_at (on_open env0 names (sys_run pre sys_init).sys id).sys.clients id = _
        rw [hc, clients_at_insert _ _ _ _ habs, if_pos rfl]
      · exact absurd hopen hf
    have h1 : registry_ok
          (sys_step (sys_run pre sys_init).sys (.opened env0 names id)).sys.clients ∧
        ∀ c, clients_at
          (sys_step (sys_run pre sys_init).sys (.opened env0 names id)).sys.clients id =
            some c → c.channel = none := by
      refine ⟨sys_step_registry _ _ h0, ?_⟩
      intro c hc
      rw [hfresh] at hc
      simp only [Option.some.injEq] at hc
      rw [← hc]
      rfl
    have h2 := sys_run_inv
      (fun s => registry_ok s.clients ∧ ∀ c, clients_at s.clients id = some c → c.channel = none)
      (fun ev => is_init_from id ev = false) (sys_step_unbound id) mid _ h1 hmid
    obtain ⟨hframes, hkeep⟩ := tick_effect env pending _ h2.1
    refine ⟨hfresh, ?_, hkeep id h2.2⟩
    intro e he hid
    obtain ⟨c, hc, hbound⟩ := hframes e he
    rw [hid] at hc
    exact hbound (h2.2 c hc)
  · intro hmid
    have h1 : registry_ok (sys_step (sys_run pre sys_init).sys (.closed id)).sys.clients ∧
        clients_at (sys_step (sys_run pre sys_init).sys (.closed id)).sys.clients id = none := by
      refine ⟨sys_step_registry _ _ h0, ?_⟩
      show clients_at (clients_erase (sys_run pre sys_init).sys.clients id) id = none
      rw [clients_at_erase, if_pos rfl]
    have h2 := sys_run_inv
      (fun s => registry_ok s.clients ∧ clients_at s.clients id = none)
      (fun ev => is_open_of id ev = false) (sys_step_absent id) mid _ h1 hmid
    intro e he hid
    obtain ⟨c, hc, -⟩ := (tick_effect env pending _ h2.1).1 e he
    rw [hid, h2.2] at hc
    cases hc

/-- C15 on concrete runs. Connection 7 is subscribed to `news` and connection 9 is opened
and sends an `Info` only: the next tick enqueues two frames, both for 7, and leaves the
entry of 9 as it is. Connections 7 and 9 are both subscribed and 7 is closed: the ticks
that follow enqueue frames for 9 only. -/
theorem tick_serves_bound_clients_witness :
    ((sys_step (sys_run one_subscriber sys_init).sys
        (.opened (demo_env 100 1000) ["news"] 9)).fault = none ∧
      (∀ ev ∈ quiet_events, is_init_from 9 ev = false) ∧
      (tick_frames (demo_env 100 1000) (fun _ => 0)
        (sys_run quiet_events (sys_step (sys_run one_subscriber sys_init).sys
          (.opened (demo_env 100 1000) ["news"] 9)).sys).sys).map
        (fun e => e.connection_id) = [7, 7] ∧
      ∀ e ∈ tick_frames (demo_env 100 1000) (fun _ => 0)
          (sys_run quiet_events (sys_step (sys_run one_subscriber sys_init).sys
            (.opened (demo_env 100 1000) ["news"] 9)).sys).sys,
        e.connection_id ≠ 9) ∧
    ((∀ ev ∈ [SysEvent.tick (demo_env 100 1000) (fun _ => 0)], is_open_of 7 ev = false) ∧
      (tick_frames (demo_env 100 1000) (fun _ => 0)
        (sys_run [.tick (demo_env 100 1000) (fun _ => 0)]
          (sys_step (sys_run two_subscribers sys_init).sys (.closed 7)).sys).sys).map
        (fun e => e.connection_id) = [9, 9] ∧
      ∀ e ∈ tick_frames (demo_env 100 1000) (fun _ => 0)
          (sys_run [.tick (demo_env 100 1000) (fun _ => 0)]
            (sys_step (sys_run two_subscribers sys_init).sys (.closed 7)).sys).sys,
        e.connection_id ≠ 7) :=
  ⟨⟨rfl, by decide, rfl,
      ((tick_serves_bound_clients one_subscriber quiet_events (demo_env 100 1000) ["news"] 9
        (demo_env 100 1000) (fun _ => 0)).2.1 rfl (by decide)).2.1⟩,
    ⟨by decide, rfl,
      (tick_serves_bound_clients two_subscribers [.tick (demo_env 100 1000) (fun _ => 0)]
        (demo_env 100 1000) ["news"] 7 (demo_env 100 1000) (fun _ => 0)).2.2 (by decide)⟩⟩


/-! ## C17: the default queue cap -/

/-- C17 as stated fails: with `max_ws_frame_b: 50000` and no `max_ws_queue_b` the frame cap
in effect is 50000 but the queue cap is 100000. -/
theorem default_queue_cap_not_frame_cap :
    two_channel_config.max_ws_queue_b = none ∧
    (main_config two_channel_config).max_ws_frame_len = 50000 ∧
    (main_config two_channel_config).max_ws_queue_len = 100000 ∧
    (main_config two_channel_config).max_ws_queue_len ≠
      (main_config two_channel_config).max_ws_frame_len :=
  ⟨rfl, by decide, by decide, by decide⟩

/-- C17, amended. Default queue cap: for every configuration without a `max_ws_queue_b`
key, `max_ws_queue_len` is the constant `DEFAULT_MAX_WS_FRAME_LEN`, 100000; it equals the
frame cap in effect when `max_ws_frame_b` is absent too, and otherwise exactly when the
configured frame cap is 100000. -/
theorem default_queue_cap (cfg : Config) (h : cfg.max_ws_queue_b = none) :
    (main_config cfg).max_ws_queue_len = DEFAULT_MAX_WS_FRAME_LEN ∧
    (main_config cfg).max_ws_queue_len = 100000 ∧
    (cfg.max_ws_frame_b = none →
      (main_config cfg).max_ws_queue_len = (main_config cfg).max_ws_frame_len) ∧
    (∀ i, cfg.max_ws_frame_b = some i →
      (main_config cfg).max_ws_frame_len = to_size_t i ∧
      ((main_config cfg).max_ws_queue_len = (main_config cfg).max_ws_frame_len ↔
        to_size_t i = 100000)) := by
  have hq : (main_config cfg).max_ws_queue_len = DEFAULT_MAX_WS_FRAME_LEN := by
    simp only [main_config, h, DEFAULT_MAX_WS_QUEUE_LEN]
  refine ⟨hq, hq, ?_, ?_⟩
  · intro hf
    rw [hq]
    simp only [main_config, hf]
  · intro i hf
    have hfl : (main_config cfg).max_ws_frame_len = to_size_t i := by
      simp only [main_config, hf]
    refine ⟨hfl, ?_⟩
    rw [hq, hfl]
    exact ⟨fun h => h.symm, fun h => h.symm⟩

/-- C17 on a configuration with `max_ws_frame_b: 50000` and no `max_ws_queue_b`. -/
theorem default_queue_cap_witness :
    (main_config two_channel_config).max_ws_queue_len = 100000 ∧
    (main_config two_channel_config).max_ws_frame_len = to_size_t 50000 :=
  ⟨(default_queue_cap two_channel_config rfl).2.1,
   ((default_queue_cap two_channel_config rfl).2.2.2 50000 rfl).1⟩

/-! ## C18: range of the selector -/

/-- The index `randint(0, n)` returns: for an `int` `n ≥ 1` and every value of `rand()`
both assertions hold and the result lies in `[0, n)`. -/
theorem randint_range (n : Int) (r : Nat) (hn : 1 ≤ n) (h31 : n < 2147483648) :
    ∃ i, randint 0 n r = .ok i ∧ 0 ≤ i ∧ i < n := by
  have hpos : (0 : Int) < n := by omega
  have h1 : 0 ≤ Int.tmod (r : Int) n := Int.tmod_nonneg n (Int.ofNat_nonneg r)
  have h2 : Int.tmod (r : Int) n < n := Int.tmod_lt_of_pos _ hpos
  have hw : wrap_int n = n := wrap_int_of_range _ (by omega) h31
  have hw2 : wrap_int (Int.tmod (r : Int) n) = Int.tmod (r : Int) n :=
    wrap_int_of_range _ h1 (by omega)
  have hne : ¬ n = 0 := by omega
  refine ⟨Int.tmod (r : Int) n, ?_, h1, h2⟩
  simp only [randint, hpos, if_true, Int.sub_zero, Int.zero_add, hw, hne, if_false, hw2,
    ge_iff_le, h1, h2, and_self]

/-- When the size of the format list reaches `randint` as an `int` that is not positive,
the assertion `a < b` fails. -/
theorem select_video_quality_assert (env : Env) (client : WebSocketClient) (r : Nat)
    (name : String) (channel : Channel)
    (hc : client.channel = some name) (hch : channels_at env.channels name = some channel)
    (h : to_int channel.vformats.length ≤ 0) :
    select_video_quality env client r = .error .assertion_failed := by
  have hr : randint 0 (to_int channel.vformats.length) r = .error .assertion_failed := by
    simp only [randint, Int.not_lt.mpr h, if_false]
  simp only [select_video_quality, hc, hch, hr]

/-- When the size of the format list reaches `randint` as an `int` that is not positive,
the assertion `a < b` fails. -/
theorem select_audio_quality_assert (env : Env) (client : WebSocketClient) (r : Nat)
    (name : String) (channel : Channel)
    (hc : client.channel = some name) (hch : channels_at env.channels name = some channel)
    (h : to_int channel.aformats.length ≤ 0) :
    select_audio_quality env client r = .error .assertion_failed := by
  have hr : randint 0 (to_int channel.aformats.length) r = .error .assertion_failed := by
    simp only [randint, Int.not_lt.mpr h, if_false]
  simp only [select_audio_quality, hc, hch, hr]

/-- C18 fails on the code for a format list whose size does not fit an `int`: with `2^32`
formats the `size_t` size reaches `randint` as the `int` 0, its own assertion `a < b`
fails and no format is returned, whatever `rand()` gives. For lists of fewer than `2^31`
formats the selectors return an element (`select_video_quality_ok`,
`select_audio_quality_ok`, `randint_range`). -/
theorem selector_faults_on_huge_list :
    huge_channel.vformats ≠ [] ∧ huge_channel.aformats ≠ [] ∧
    (∀ r, select_video_quality huge_env (demo_client 0 0) r = .error .assertion_failed) ∧
    (∀ r, select_audio_quality huge_env (demo_client 0 0) r = .error .assertion_failed) := by
  have hlen : to_int 4294967296 = 0 := by decide
  have hv : huge_channel.vformats.length = 4294967296 :=
    List.length_replicate 4294967296 (⟨"1280x720-23"⟩ : VideoFormat)
  have ha : huge_channel.aformats.length = 4294967296 :=
    List.length_replicate 4294967296 (⟨"128k"⟩ : AudioFormat)
  have hc : (demo_client 0 0).channel = some "news" := rfl
  have hch : channels_at huge_env.channels "news" = some huge_channel := rfl
  refine ⟨?_, ?_, ?_, ?_⟩
  · intro h
    rw [h, List.length_nil] at hv
    exact absurd hv (by decide)
  · intro h
    rw [h, List.length_nil] at ha
    exact absurd ha (by decide)
  · intro r
    apply select_video_quality_assert huge_env (demo_client 0 0) r "news" huge_channel hc hch
    rw [hv, hlen]
  · intro r
    apply select_audio_quality_assert huge_env (demo_client 0 0) r "news" huge_channel hc hch
    rw [ha, hlen]


/-! ## Eligibility of the frames of a tick -/

/-- Every frame that `serve_client` enqueues belongs to a stream that was eligible on
entry. -/
theorem serve_client_frame_eligible (env : Env) (st : St) :
    ∀ e ∈ new_frames st (serve_client env st).st,
      ∃ name channel, st.client.channel = some name ∧
        channels_at env.channels name = some channel ∧
        (is_video e.frame → can_send_video env channel st.client = .ok true) ∧
        (is_audio e.frame → can_send_audio env channel st.client = .ok true) := by
  have full :
      (∀ e ∈ new_frames st (serve_client env st).st,
        e.connection_id = st.client.connection_id ∧
        e.queue_before < env.max_ws_queue_len ∧
        ∃ name channel, st.client.channel = some name ∧
          channels_at env.channels name = some channel ∧
          (is_video e.frame → can_send_video env channel st.client = .ok true) ∧
          (is_audio e.frame → can_send_audio env channel st.client = .ok true)) ∧
      (new_frames st (serve_client env st).st).length ≤ 2 ∧
      (∀ e1 e2, new_frames st (serve_client env st).st = [e1, e2] →
        e1.queue_before = st.server.queue_size st.client.connection_id ∧
        e2.queue_before = env.queue_after e1.queue_before e1.frame) := by
    have audio_not_video : ∀ f, is_audio f → ¬ is_video f := by
      rintro f ⟨_, _, _, _, _, h1⟩ ⟨_, _, _, _, _, h2⟩
      rw [h1] at h2
      cases h2
    rcases serve_client_cases env st with h | ⟨name, channel, csv, csa, v, a, hc, hch, hq, hv, ha,
        -, -, hbranch⟩
    · rw [h, new_frames_self]
      simp
    · have key : new_frames st (serve_client env st).st = [] ∨
          (∃ f, is_audio f ∧ csa = true ∧
            new_frames st (serve_client env st).st =
              [⟨st.client.connection_id, f, st.server.queue_size st.client.connection_id⟩]) ∨
          (∃ f, is_video f ∧ csv = true ∧
            new_frames st (serve_client env st).st =
              [⟨st.client.connection_id, f, st.server.queue_size st.client.connection_id⟩]) ∨
          (∃ f1 f2, (is_audio f1 ∨ is_video f1) ∧ (is_audio f2 ∨ is_video f2) ∧
            csa = true ∧ csv = true ∧
            env.queue_after (st.server.queue_size st.client.connection_id) f1
              < env.max_ws_queue_len ∧
            new_frames st (serve_client env st).st =
              [⟨st.client.connection_id, f1, st.server.queue_size st.client.connection_id⟩,
               ⟨st.client.connection_id, f2,
                 env.queue_after (st.server.queue_size st.client.connection_id) f1⟩]) := by
        rcases hbranch with ⟨-, hb⟩ | ⟨-, hb⟩
        · rw [hb]
          rcases serve_audio_first_frames env csv csa st with h | h | h | h
          · exact Or.inl h
          · exact Or.inr (Or.inl h)
          · exact Or.inr (Or.inr (Or.inl h))
          · obtain ⟨f1, f2, h1, h2, h3, h4, h5, h6⟩ := h
            exact Or.inr (Or.inr (Or.inr ⟨f1, f2, Or.inl h1, Or.inr h2, h3, h4, h5, h6⟩))
        · rw [hb]
          rcases serve_video_first_frames env csv csa st with h | h | h | h
          · exact Or.inl h
          · exact Or.inr (Or.inr (Or.inl h))
          · exact Or.inr (Or.inl h)
          · obtain ⟨f1, f2, h1, h2, h3, h4, h5, h6⟩ := h
            exact Or.inr (Or.inr (Or.inr ⟨f1, f2, Or.inr h1, Or.inl h2, h4, h3, h5, h6⟩))
      have elig : ∀ f, (is_audio f ∧ csa = true) ∨ (is_video f ∧ csv = true) ∨
          ((is_audio f ∨ is_video f) ∧ csa = true ∧ csv = true) →
          ∃ name channel, st.client.channel = some name ∧
            channels_at env.channels name = some channel ∧
            (is_video f → can_send_video env channel st.client = .ok true) ∧
            (is_audio f → can_send_audio env channel st.client = .ok true) := by
        intro f hf
        refine ⟨name, channel, hc, hch, ?_, ?_⟩
        · intro hvid
          rcases hf with ⟨haud, -⟩ | ⟨-, h⟩ | ⟨-, -, h⟩
          · exact absurd hvid (audio_not_video f haud)
          · rw [hv, h]
          · rw [hv, h]
        · intro haud
          rcases hf with ⟨-, h⟩ | ⟨hvid, -⟩ | ⟨-, h, -⟩
          · rw [ha, h]
          · exact absurd hvid (audio_not_video f haud)
          · rw [ha, h]
      rcases key with h | ⟨f, hf, hcs, h⟩ | ⟨f, hf, hcs, h⟩ | ⟨f1, f2, hf1, hf2, hcsa, hcsv, hq2, h⟩
      · rw [h]; simp
      · rw [h]
        refine ⟨?_, by simp, by simp⟩
        intro e he
        simp only [List.mem_singleton] at he
        subst he
        exact ⟨rfl, hq, elig f (Or.inl ⟨hf, hcs⟩)⟩
      · rw [h]
        refine ⟨?_, by simp, by simp⟩
        intro e he
        simp only [List.mem_singleton] at he
        subst he
        exact ⟨rfl, hq, elig f (Or.inr (Or.inl ⟨hf, hcs⟩))⟩
      · rw [h]
        refine ⟨?_, by simp, ?_⟩
        · intro e he
          simp only [List.mem_cons, List.mem_singleton, List.not_mem_nil, or_false] at he
          rcases he with he | he
          · subst he
            exact ⟨rfl, hq, elig f1 (Or.inr (Or.inr ⟨hf1, hcsa, hcsv⟩))⟩
          · subst he
            exact ⟨rfl, hq2, elig f2 (Or.inr (Or.inr ⟨hf2, hcsa, hcsv⟩))⟩
        · intro e1 e2 he
          simp only [List.cons.injEq, and_true] at he
          obtain ⟨h1, h2⟩ := he
          subst h1 h2
          exact ⟨rfl, rfl⟩
  intro e he
  exact (full.1 e he).2.2


/-- What `can_send_video = true` means: the buffer and the in-flight seconds, as the code
computes them, are both below their caps. -/
theorem can_send_video_true (env : Env) (channel : Channel) (client : WebSocketClient)
    (h : can_send_video env channel client = .ok true) :
    client.video_playback_buf < env.max_buffer_seconds ∧
    ∃ s, video_in_flight channel client = .ok s ∧ s < env.max_inflight_seconds := by
  unfold can_send_video at h
  by_cases hb : client.video_playback_buf < env.max_buffer_seconds
  · rw [if_pos hb] at h
    refine ⟨hb, ?_⟩
    cases hv : video_in_flight channel client with
    | error f => rw [hv] at h; cases h
    | ok s =>
      rw [hv] at h
      simp only [Except.ok.injEq, decide_eq_true_eq] at h
      exact ⟨s, rfl, h⟩
  · rw [if_neg hb] at h
    cases h

/-- What `can_send_audio = true` means: the buffer and the in-flight seconds, as the code
computes them, are both below their caps. -/
theorem can_send_audio_true (env : Env) (channel : Channel) (client : WebSocketClient)
    (h : can_send_audio env channel client = .ok true) :
    client.audio_playback_buf < env.max_buffer_seconds ∧
    ∃ s, audio_in_flight channel client = .ok s ∧ s < env.max_inflight_seconds := by
  unfold can_send_audio at h
  by_cases hb : client.audio_playback_buf < env.max_buffer_seconds
  · rw [if_pos hb] at h
    refine ⟨hb, ?_⟩
    cases hv : audio_in_flight channel client with
    | error f => rw [hv] at h; cases h
    | ok s =>
      rw [hv] at h
      simp only [Except.ok.injEq, decide_eq_true_eq] at h
      exact ⟨s, rfl, h⟩
  · rw [if_neg hb] at h
    cases h

/-! ## The cursors after a tick -/

/-- The cursors after one call of `serve_video_to_client`: `next_ats` is untouched, the
carrier gains at most one frame, a `Video` frame, and `next_vts` either stays or, with a
frame enqueued, advances by `vduration` (in 64 bits). -/
theorem serve_video_cursor (env : Env) (st : St) :
    (serve_video_to_client env st).st.client.channel = st.client.channel ∧
    (serve_video_to_client env st).st.client.next_ats = st.client.next_ats ∧
    ∃ l, (serve_video_to_client env st).st.server.sent = st.server.sent ++ l ∧
      (∀ e ∈ l, is_video e.frame) ∧
      ((serve_video_to_client env st).st.client.next_vts = st.client.next_vts ∨
        (l ≠ [] ∧ ∃ name channel ts, st.client.channel = some name ∧
          channels_at env.channels name = some channel ∧ st.client.next_vts = some ts ∧
          (serve_video_to_client env st).st.client.next_vts =
            some (add64 ts channel.vduration))) := by
  obtain ⟨hch, hats, -, -⟩ := serve_video_keeps_audio env st
  refine ⟨hch, hats, ?_⟩
  rcases serve_video_step env st with h | ⟨name, channel, ts, seg, hc, hch2, hts, -, hsent, hafter⟩
  · exact ⟨[], by rw [h, List.append_nil], fun e he => (by cases he), Or.inl (by rw [h])⟩
  · refine ⟨_, hsent, ?_, ?_⟩
    · intro e he
      rw [List.mem_singleton] at he
      rw [he]
      exact ⟨_, _, _, _, _, rfl⟩
    · rcases hafter with ⟨-, h, -⟩ | ⟨-, h, -⟩
      · exact Or.inr ⟨by simp, name, channel, ts, hc, hch2, hts, h⟩
      · exact Or.inl (h.trans hts.symm)

/-- The cursors after one call of `serve_audio_to_client`: `next_vts` is untouched, the
carrier gains at most one frame, a `Audio` frame, and `next_ats` either stays or, with a
frame enqueued, advances by `aduration` (in 64 bits). -/
theorem serve_audio_cursor (env : Env) (st : St) :
    (serve_audio_to_client env st).st.client.channel = st.client.channel ∧
    (serve_audio_to_client env st).st.client.next_vts = st.client.next_vts ∧
    ∃ l, (serve_audio_to_client env st).st.server.sent = st.server.sent ++ l ∧
      (∀ e ∈ l, is_audio e.frame) ∧
      ((serve_audio_to_client env st).st.client.next_ats = st.client.next_ats ∨
        (l ≠ [] ∧ ∃ name channel ts, st.client.channel = some name ∧
          channels_at env.channels name = some channel ∧ st.client.next_ats = some ts ∧
          (serve_audio_to_client env st).st.client.next_ats =
            some (add64 ts channel.aduration))) := by
  obtain ⟨hch, hats, -, -⟩ := serve_audio_keeps_video env st
  refine ⟨hch, hats, ?_⟩
  rcases serve_audio_step env st with h | ⟨name, channel, ts, seg, hc, hch2, hts, -, hsent, hafter⟩
  · exact ⟨[], by rw [h, List.append_nil], fun e he => (by cases he), Or.inl (by rw [h])⟩
  · refine ⟨_, hsent, ?_, ?_⟩
    · intro e he
      rw [List.mem_singleton] at he
      rw [he]
      exact ⟨_, _, _, _, _, rfl⟩
    · rcases hafter with ⟨-, h, -⟩ | ⟨-, h, -⟩
      · exact Or.inr ⟨by simp, name, channel, ts, hc, hch2, hts, h⟩
      · exact Or.inl (h.trans hts.symm)


theorem video_cursor_step_refl (env : Env) (st : St) : video_cursor_step env st st :=
  ⟨rfl, rfl, [], by rw [List.append_nil], fun e he => (by cases he), Or.inl rfl⟩

theorem audio_cursor_step_refl (env : Env) (st : St) : audio_cursor_step env st st :=
  ⟨rfl, rfl, [], by rw [List.append_nil], fun e he => (by cases he), Or.inl rfl⟩

theorem tick_cursors_refl (channel : Channel) (v a : Nat) (st : St)
    (hvts : st.client.next_vts = some v) (hats : st.client.next_ats = some a) :
    tick_cursors channel v a st st :=
  ⟨[], by rw [List.append_nil], Or.inl hvts, Or.inl hats⟩

/-- An audio call followed by a video call. -/
theorem tick_cursors_audio_video (env : Env) (name : String) (channel : Channel) (v a : Nat)
    (st s1 s2 : St)
    (hc : st.client.channel = some name) (hch : channels_at env.channels name = some channel)
    (hvts : st.client.next_vts = some v) (hats : st.client.next_ats = some a)
    (h1 : audio_cursor_step env st s1) (h2 : video_cursor_step env s1 s2) :
    tick_cursors channel v a st s2 := by
  obtain ⟨hch1, hv1, l1, hs1, hl1, ha1⟩ := h1
  obtain ⟨-, ha2, l2, hs2, hl2, hv2⟩ := h2
  refine ⟨l1 ++ l2, by rw [hs2, hs1, List.append_assoc], ?_, ?_⟩
  · rcases hv2 with h | ⟨hne, n2, c2, t2, hc2, hch2, hts2, h⟩
    · exact Or.inl (h.trans (hv1.trans hvts))
    · right
      rw [hch1, hc] at hc2
      cases hc2
      rw [hch] at hch2
      cases hch2
      rw [hv1, hvts] at hts2
      cases hts2
      obtain ⟨e, rest, he⟩ := List.exists_cons_of_ne_nil hne
      have hmem : e ∈ l2 := by rw [he]; exact List.mem_cons_self _ _
      exact ⟨⟨e, List.mem_append_right _ hmem, hl2 e hmem⟩, h⟩
  · rcases ha1 with h | ⟨hne, n2, c2, t2, hc2, hch2, hts2, h⟩
    · exact Or.inl (ha2.trans (h.trans hats))
    · right
      rw [hc] at hc2
      cases hc2
      rw [hch] at hch2
      cases hch2
      rw [hats] at hts2
      cases hts2
      obtain ⟨e, rest, he⟩ := List.exists_cons_of_ne_nil hne
      have hmem : e ∈ l1 := by rw [he]; exact List.mem_cons_self _ _
      exact ⟨⟨e, List.mem_append_left _ hmem, hl1 e hmem⟩, ha2.trans h⟩

/-- A video call followed by an audio call. -/
theorem tick_cursors_video_audio (env : Env) (name : String) (channel : Channel) (v a : Nat)
    (st s1 s2 : St)
    (hc : st.client.channel = some name) (hch : channels_at env.channels name = some channel)
    (hvts : st.client.next_vts = some v) (hats : st.client.next_ats = some a)
    (h1 : video_cursor_step env st s1) (h2 : audio_cursor_step env s1 s2) :
    tick_cursors channel v a st s2 := by
  obtain ⟨hch1, ha1, l1, hs1, hl1, hv1⟩ := h1
  obtain ⟨-, hv2, l2, hs2, hl2, ha2⟩ := h2
  refine ⟨l1 ++ l2, by rw [hs2, hs1, List.append_assoc], ?_, ?_⟩
  · rcases hv1 with h | ⟨hne, n2, c2, t2, hc2, hch2, hts2, h⟩
    · exact Or.inl (hv2.trans (h.trans hvts))
    · right
      rw [hc] at hc2
      cases hc2
      rw [hch] at hch2
      cases hch2
      rw [hvts] at hts2
      cases hts2
      obtain ⟨e, rest, he⟩ := List.exists_cons_of_ne_nil hne
      have hmem : e ∈ l1 := by rw [he]; exact List.mem_cons_self _ _
      exact ⟨⟨e, List.mem_append_left _ hmem, hl1 e hmem⟩, hv2.trans h⟩
  · rcases ha2 with h | ⟨hne, n2, c2, t2, hc2, hch2, hts2, h⟩
    · exact Or.inl (h.trans (ha1.trans hats))
    · right
      rw [hch1, hc] at hc2
      cases hc2
      rw [hch] at hch2
      cases hch2
      rw [ha1, hats] at hts2
      cases hts2
      obtain ⟨e, rest, he⟩ := List.exists_cons_of_ne_nil hne
      have hmem : e ∈ l2 := by rw [he]; exact List.mem_cons_self _ _
      exact ⟨⟨e, List.mem_append_right _ hmem, hl2 e hmem⟩, h⟩

/-- The cursors after a call of `serve_client`: each stays, or advances by its segment
duration with a frame of its stream enqueued in this call. -/
theorem serve_client_cursors (env : Env) (st : St) (name : String) (channel : Channel)
    (v a : Nat)
    (hc : st.client.channel = some name) (hch : channels_at env.channels name = some channel)
    (hvts : st.client.next_vts = some v) (hats : st.client.next_ats = some a) :
    tick_cursors channel v a st (serve_client env st).st := by
  rcases serve_client_cases env st with h | ⟨_, _, csv, csa, _, _, -, -, -, -, -, -, -, hb⟩
  · rw [h]; exact tick_cursors_refl channel v a st hvts hats
  · rcases hb with ⟨-, hb⟩ | ⟨-, hb⟩
    · rw [hb]
      have h1 : audio_cursor_step env st
          (if csa = true then serve_audio_to_client env st else ⟨st, none⟩).st := by
        cases csa with
        | false => exact audio_cursor_step_refl env st
        | true => exact serve_audio_cursor env st
      unfold serve_audio_first
      dsimp only
      generalize (if csa = true then serve_audio_to_client env st else ⟨st, none⟩) = r1 at h1 ⊢
      cases hf : r1.fault with
      | some f =>
        exact tick_cursors_audio_video env name channel v a st r1.st r1.st hc hch hvts hats h1
          (video_cursor_step_refl env r1.st)
      | none =>
        dsimp only
        split
        · exact tick_cursors_audio_video env name channel v a st r1.st _ hc hch hvts hats h1
            (serve_video_cursor env r1.st)
        · exact tick_cursors_audio_video env name channel v a st r1.st r1.st hc hch hvts hats
            h1 (video_cursor_step_refl env r1.st)
    · rw [hb]
      have h1 : video_cursor_step env st
          (if csv = true then serve_video_to_client env st else ⟨st, none⟩).st := by
        cases csv with
        | false => exact video_cursor_step_refl env st
        | true => exact serve_video_cursor env st
      unfold serve_video_first
      dsimp only
      generalize (if csv = true then serve_video_to_client env st else ⟨st, none⟩) = r1 at h1 ⊢
      cases hf : r1.fault with
      | some f =>
        exact tick_cursors_video_audio env name channel v a st r1.st r1.st hc hch hvts hats h1
          (audio_cursor_step_refl env r1.st)
      | none =>
        dsimp only
        split
        · exact tick_cursors_video_audio env name channel v a st r1.st _ hc hch hvts hats h1
            (serve_audio_cursor env r1.st)
        · exact tick_cursors_video_audio env name channel v a st r1.st r1.st hc hch hvts hats
            h1 (audio_cursor_step_refl env r1.st)


/-! ## C20: chunking of one segment -/

/-- The chunks of a stream, in order, make up the stream. -/
theorem chunks_join (F : Nat) : ∀ (n : Nat) (stream : Bytes), stream.length ≤ n * F →
    ((List.range n).map (chunk_bytes stream F)).flatten = stream := by
  intro n
  induction n with
  | zero =>
    intro stream h
    have : stream = [] := List.eq_nil_of_length_eq_zero (by omega)
    rw [this]
    rfl
  | succ n ih =>
    intro stream h
    rw [List.range_succ_eq_map, List.map_cons, List.flatten_cons, List.map_map]
    have hrest : (chunk_bytes stream F ∘ Nat.succ) = chunk_bytes (stream.drop F) F := by
      funext k
      simp only [Function.comp, chunk_bytes, List.drop_drop]
      congr 2
      rw [Nat.succ_mul]
      omega
    rw [hrest, ih (stream.drop F) (by rw [List.length_drop, Nat.succ_mul] at *; omega)]
    simp only [chunk_bytes, Nat.zero_mul, List.drop_zero]
    exact List.take_append_drop F stream

/-- The bounds that define `ceil(L / F)`. -/
theorem chunk_count_spec (L F : Nat) (hL : 0 < L) (hF : 0 < F) :
    ∃ m, chunk_count L F = m + 1 ∧ m * F < L ∧ L ≤ (m + 1) * F := by
  unfold chunk_count
  have h1 := Nat.div_add_mod (L + F - 1) F
  have h2 := Nat.mod_lt (L + F - 1) hF
  have hpos : 0 < (L + F - 1) / F := Nat.div_pos (by omega) hF
  obtain ⟨m, hm⟩ := Nat.exists_eq_succ_of_ne_zero (Nat.pos_iff_ne_zero.mp hpos)
  refine ⟨m, hm, ?_, ?_⟩
  · rw [hm, Nat.mul_succ] at h1
    rw [Nat.mul_comm m F]
    omega
  · rw [hm, Nat.mul_succ] at h1
    rw [Nat.succ_mul, Nat.mul_comm m F]
    omega


/-- With a segment in progress, `serve_video_to_client` goes straight to the emit part. -/
theorem serve_video_in_progress (env : Env) (st : St) (name : String) (channel : Channel)
    (ts : Nat) (seg : VideoSegment)
    (hc : st.client.channel = some name) (hch : channels_at env.channels name = some channel)
    (hts : st.client.next_vts = some ts) (hseg : st.client.next_vsegment = some seg) :
    serve_video_to_client env st = emit_video env channel ts st := by
  simp only [serve_video_to_client, hc, hch, hts, start_vsegment, hseg]

/-- The frame cut from a segment whose cursor is at `j * F` is the `j`-th chunk. -/
theorem video_frame_eq_chunk (env : Env) (channel : Channel) (ts : Nat) (seg : VideoSegment)
    (j : Nat) (hoff : seg.offset = j * env.max_ws_frame_len) :
    video_frame env channel ts seg =
      video_chunk seg.format.to_string ts channel.vduration seg.stream
        env.max_ws_frame_len j := by
  simp only [video_frame, video_chunk, chunk_bytes, Segment.read, Segment.length, hoff]

/-- From a segment in progress with its cursor at `j * F` and `m + 1` chunks to go, `m + 1`
calls of `serve_video_to_client` enqueue the chunks `j, …, j + m` and complete the segment
with the last one, not before. -/
theorem video_chunks_from (env : Env) (name : String) (channel : Channel) (ts : Nat)
    (hch : channels_at env.channels name = some channel) (hF : 0 < env.max_ws_frame_len) :
    ∀ (m j : Nat) (st : St) (seg : VideoSegment),
      st.client.channel = some name → st.client.next_vts = some ts →
      st.client.next_vsegment = some seg → seg.offset = j * env.max_ws_frame_len →
      (j + m) * env.max_ws_frame_len < seg.length →
      seg.length ≤ (j + m + 1) * env.max_ws_frame_len →
      (serve_video_n env (m + 1) st).server.sent.map (fun e => e.frame) =
        st.server.sent.map (fun e => e.frame) ++
          (List.range (m + 1)).map (fun k =>
            video_chunk seg.format.to_string ts channel.vduration seg.stream
              env.max_ws_frame_len (j + k)) ∧
      (serve_video_n env (m + 1) st).client.next_vsegment = none ∧
      (serve_video_n env (m + 1) st).client.next_vts = some (add64 ts channel.vduration) ∧
      (serve_video_n env (m + 1) st).client.curr_vq = some seg.format ∧
      ∀ i, i ≤ m → (serve_video_n env i st).client.next_vsegment ≠ none := by
  intro m
  induction m with
  | zero =>
    intro j st seg hc hts hseg hoff hlo hhi
    have hL : seg.length = seg.stream.length := rfl
    have hdone : (seg.read env.max_ws_frame_len).2.done = true := by
      show (seg.offset + ((seg.stream.drop seg.offset).take env.max_ws_frame_len).length ==
        seg.stream.length) = true
      rw [beq_iff_eq, List.length_take, List.length_drop]
      rw [Nat.add_zero, hL] at hlo
      rw [Nat.add_zero, Nat.succ_mul, hL] at hhi
      omega
    have hrun : serve_video_n env 1 st = (emit_video env channel ts st).st := by
      simp only [serve_video_n, serve_video_in_progress env st name channel ts seg hc hch hts hseg]
    rw [hrun, emit_video_eq env channel ts st seg hseg, if_pos hdone]
    refine ⟨?_, rfl, rfl, rfl, ?_⟩
    · simp only [WebSocketServer.queue_frame, List.map_append, List.map_cons, List.map_nil,
        video_frame_eq_chunk env channel ts seg j hoff]
      rfl
    · intro i hi
      have : i = 0 := by omega
      rw [this]
      simp only [serve_video_n, hseg]
      exact fun h => by cases h
  | succ m ih =>
    intro j st seg hc hts hseg hoff hlo hhi
    have hL : seg.length = seg.stream.length := rfl
    rw [hL] at hlo hhi
    have hlen : ((seg.stream.drop seg.offset).take env.max_ws_frame_len).length =
        env.max_ws_frame_len := by
      rw [List.length_take, List.length_drop]
      have h1 : (j + (m + 1)) * env.max_ws_frame_len =
          j * env.max_ws_frame_len + m * env.max_ws_frame_len + env.max_ws_frame_len := by
        rw [Nat.add_mul, Nat.succ_mul, Nat.add_assoc]
      omega
    have hnot : ¬ (seg.read env.max_ws_frame_len).2.done = true := by
      show ¬ (seg.offset + ((seg.stream.drop seg.offset).take env.max_ws_frame_len).length ==
        seg.stream.length) = true
      rw [beq_iff_eq, hlen]
      have h1 : (j + (m + 1)) * env.max_ws_frame_len =
          j * env.max_ws_frame_len + m * env.max_ws_frame_len + env.max_ws_frame_len := by
        rw [Nat.add_mul, Nat.succ_mul, Nat.add_assoc]
      omega
    have hstep : (serve_video_to_client env st).st =
        { st with
          server := st.server.queue_frame env st.client.connection_id
            (video_frame env channel ts seg),
          client := { st.client with
            next_vsegment := some (seg.read env.max_ws_frame_len).2 } } := by
      rw [serve_video_in_progress env st name channel ts seg hc hch hts hseg,
        emit_video_eq env channel ts st seg hseg, if_neg hnot]
    have hoff1 : (seg.read env.max_ws_frame_len).2.offset =
        (j + 1) * env.max_ws_frame_len := by
      show seg.offset + ((seg.stream.drop seg.offset).take env.max_ws_frame_len).length = _
      rw [hlen, hoff, Nat.succ_mul]
    have hih := ih (j + 1) (serve_video_to_client env st).st (seg.read env.max_ws_frame_len).2
      (by rw [hstep]; exact hc) (by rw [hstep]; exact hts) (by rw [hstep]) hoff1
      (by
        show (j + 1 + m) * env.max_ws_frame_len < seg.length
        have : j + 1 + m = j + (m + 1) := by omega
        rw [this]; exact hL ▸ hlo)
      (by
        show seg.length ≤ (j + 1 + m + 1) * env.max_ws_frame_len
        have : j + 1 + m + 1 = j + (m + 1) + 1 := by omega
        rw [this]; exact hL ▸ hhi)
    obtain ⟨h1, h2, h3, h4, h5⟩ := hih
    have hrun : serve_video_n env (m + 1 + 1) st =
        serve_video_n env (m + 1) (serve_video_to_client env st).st := rfl
    rw [hrun]
    refine ⟨?_, h2, h3, h4, ?_⟩
    · rw [h1, hstep]
      simp only [WebSocketServer.queue_frame, List.map_append, List.map_cons, List.map_nil,
        List.append_assoc, List.singleton_append]
      congr 1
      rw [List.range_succ_eq_map (m + 1), List.map_cons, List.map_map,
        video_frame_eq_chunk env channel ts seg j hoff]
      congr 1
      apply List.map_congr_left
      intro k _
      show video_chunk _ ts channel.vduration _ env.max_ws_frame_len (j + 1 + k) =
        video_chunk _ ts channel.vduration _ env.max_ws_frame_len (j + (k + 1))
      have : j + 1 + k = j + (k + 1) := by omega
      rw [this]
      rfl
    · intro i hi
      cases i with
      | zero =>
        simp only [serve_video_n, hseg]
        exact fun h => by cases h
      | succ i =>
        show (serve_video_n env i (serve_video_to_client env st).st).client.next_vsegment ≠ none
        exact h5 i (by omega)

/-- With a segment in progress, `serve_audio_to_client` goes straight to the emit part. -/
theorem serve_audio_in_progress (env : Env) (st : St) (name : String) (channel : Channel)
    (ts : Nat) (seg : AudioSegment)
    (hc : st.client.channel = some name) (hch : channels_at env.channels name = some channel)
    (hts : st.client.next_ats = some ts) (hseg : st.client.next_asegment = some seg) :
    serve_audio_to_client env st = emit_audio env channel ts st := by
  simp only [serve_audio_to_client, hc, hch, hts, start_asegment, hseg]

/-- The frame cut from a segment whose cursor is at `j * F` is the `j`-th chunk. -/
theorem audio_frame_eq_chunk (env : Env) (channel : Channel) (ts : Nat) (seg : AudioSegment)
    (j : Nat) (hoff : seg.offset = j * env.max_ws_frame_len) :
    audio_frame env channel ts seg =
      audio_chunk seg.format.to_string ts channel.aduration seg.stream
        env.max_ws_frame_len j := by
  simp only [audio_frame, audio_chunk, chunk_bytes, Segment.read, Segment.length, hoff]

/-- From a segment in progress with its cursor at `j * F` and `m + 1` chunks to go, `m + 1`
calls of `serve_audio_to_client` enqueue the chunks `j, …, j + m` and complete the segment
with the last one, not before. -/
theorem audio_chunks_from (env : Env) (name : String) (channel : Channel) (ts : Nat)
    (hch : channels_at env.channels name = some channel) (hF : 0 < env.max_ws_frame_len) :
    ∀ (m j : Nat) (st : St) (seg : AudioSegment),
      st.client.channel = some name → st.client.next_ats = some ts →
      st.client.next_asegment = some seg → seg.offset = j * env.max_ws_frame_len →
      (j + m) * env.max_ws_frame_len < seg.length →
      seg.length ≤ (j + m + 1) * env.max_ws_frame_len →
      (serve_audio_n env (m + 1) st).server.sent.map (fun e => e.frame) =
        st.server.sent.map (fun e => e.frame) ++
          (List.range (m + 1)).map (fun k =>
            audio_chunk seg.format.to_string ts channel.aduration seg.stream
              env.max_ws_frame_len (j + k)) ∧
      (serve_audio_n env (m + 1) st).client.next_asegment = none ∧
      (serve_audio_n env (m + 1) st).client.next_ats = some (add64 ts channel.aduration) ∧
      (serve_audio_n env (m + 1) st).client.curr_aq = some seg.format ∧
      ∀ i, i ≤ m → (serve_audio_n env i st).client.next_asegment ≠ none := by
  intro m
  induction m with
  | zero =>
    intro j st seg hc hts hseg hoff hlo hhi
    have hL : seg.length = seg.stream.length := rfl
    have hdone : (seg.read env.max_ws_frame_len).2.done = true := by
      show (seg.offset + ((seg.stream.drop seg.offset).take env.max_ws_frame_len).length ==
        seg.stream.length) = true
      rw [beq_iff_eq, List.length_take, List.length_drop]
      rw [Nat.add_zero, hL] at hlo
      rw [Nat.add_zero, Nat.succ_mul, hL] at hhi
      omega
    have hrun : serve_audio_n env 1 st = (emit_audio env channel ts st).st := by
      simp only [serve_audio_n, serve_audio_in_progress env st name channel ts seg hc hch hts hseg]
    rw [hrun, emit_audio_eq env channel ts st seg hseg, if_pos hdone]
    refine ⟨?_, rfl, rfl, rfl, ?_⟩
    · simp only [WebSocketServer.queue_frame, List.map_append, List.map_cons, List.map_nil,
        audio_frame_eq_chunk env channel ts seg j hoff]
      rfl
    · intro i hi
      have : i = 0 := by omega
      rw [this]
      simp only [serve_audio_n, hseg]
      exact fun h => by cases h
  | succ m ih =>
    intro j st seg hc hts hseg hoff hlo hhi
    have hL : seg.length = seg.stream.length := rfl
    rw [hL] at hlo hhi
    have hlen : ((seg.stream.drop seg.offset).take env.max_ws_frame_len).length =
        env.max_ws_frame_len := by
      rw [List.length_take, List.length_drop]
      have h1 : (j + (m + 1)) * env.max_ws_frame_len =
          j * env.max_ws_frame_len + m * env.max_ws_frame_len + env.max_ws_frame_len := by
        rw [Nat.add_mul, Nat.succ_mul, Nat.add_assoc]
      omega
    have hnot : ¬ (seg.read env.max_ws_frame_len).2.done = true := by
      show ¬ (seg.offset + ((seg.stream.drop seg.offset).take env.max_ws_frame_len).length ==
        seg.stream.length) = true
      rw [beq_iff_eq, hlen]
      have h1 : (j + (m + 1)) * env.max_ws_frame_len =
          j * env.max_ws_frame_len + m * env.max_ws_frame_len + env.max_ws_frame_len := by
        rw [Nat.add_mul, Nat.succ_mul, Nat.add_assoc]
      omega
    have hstep : (serve_audio_to_client env st).st =
        { st with
          server := st.server.queue_frame env st.client.connection_id
            (audio_frame env channel ts seg),
          client := { st.client with
            next_asegment := some (seg.read env.max_ws_frame_len).2 } } := by
      rw [serve_audio_in_progress env st name channel ts seg hc hch hts hseg,
        emit_audio_eq env channel ts st seg hseg, if_neg hnot]
    have hoff1 : (seg.read env.max_ws_frame_len).2.offset =
        (j + 1) * env.max_ws_frame_len := by
      show seg.offset + ((seg.stream.drop seg.offset).take env.max_ws_frame_len).length = _
      rw [hlen, hoff, Nat.succ_mul]
    have hih := ih (j + 1) (serve_audio_to_client env st).st (seg.read env.max_ws_frame_len).2
      (by rw [hstep]; exact hc) (by rw [hstep]; exact hts) (by rw [hstep]) hoff1
      (by
        show (j + 1 + m) * env.max_ws_frame_len < seg.length
        have : j + 1 + m = j + (m + 1) := by omega
        rw [this]; exact hL ▸ hlo)
      (by
        show seg.length ≤ (j + 1 + m + 1) * env.max_ws_frame_len
        have : j + 1 + m + 1 = j + (m + 1) + 1 := by omega
        rw [this]; exact hL ▸ hhi)
    obtain ⟨h1, h2, h3, h4, h5⟩ := hih
    have hrun : serve_audio_n env (m + 1 + 1) st =
        serve_audio_n env (m + 1) (serve_audio_to_client env st).st := rfl
    rw [hrun]
    refine ⟨?_, h2, h3, h4, ?_⟩
    · rw [h1, hstep]
      simp only [WebSocketServer.queue_frame, List.map_append, List.map_cons, List.map_nil,
        List.append_assoc, List.singleton_append]
      congr 1
      rw [List.range_succ_eq_map (m + 1), List.map_cons, List.map_map,
        audio_frame_eq_chunk env channel ts seg j hoff]
      congr 1
      apply List.map_congr_left
      intro k _
      show audio_chunk _ ts channel.aduration _ env.max_ws_frame_len (j + 1 + k) =
        audio_chunk _ ts channel.aduration _ env.max_ws_frame_len (j + (k + 1))
      have : j + 1 + k = j + (k + 1) := by omega
      rw [this]
      rfl
    · intro i hi
      cases i with
      | zero =>
        simp only [serve_audio_n, hseg]
        exact fun h => by cases h
      | succ i =>
        show (serve_audio_n env i (serve_audio_to_client env st).st).client.next_asegment ≠ none
        exact h5 i (by omega)


/-- The frames of one new video segment of `L > 0` bytes, sent by `ceil(L / F)` calls of
`serve_video_to_client`. -/
theorem video_segment_chunking (env : Env) (st : St) (name : String) (channel : Channel) (ts : Nat)
    (q : VideoFormat) (stream : Bytes) (L : Nat)
    (hF : 0 < env.max_ws_frame_len)
    (hc : st.client.channel = some name)
    (hch : channels_at env.channels name = some channel)
    (hts : st.client.next_vts = some ts)
    (hseg : st.client.next_vsegment = none)
    (hr : channel.vready ts = true)
    (hsel : select_video_quality env st.client (env.rand st.rand_calls) = .ok q)
    (hstream : stream =
      (if st.client.curr_vq = none ∨ st.client.curr_vq ≠ some q then channel.vinit q
       else []) ++ channel.vdata q ts)
    (hL : stream.length = L) (hpos : 0 < L) :
    (new_frames st (serve_video_n env (chunk_count L env.max_ws_frame_len) st)).map
        (fun e => e.frame) =
      (List.range (chunk_count L env.max_ws_frame_len)).map
        (video_chunk q.to_string ts channel.vduration stream env.max_ws_frame_len) ∧
    (serve_video_n env (chunk_count L env.max_ws_frame_len) st).client.next_vsegment = none ∧
    (serve_video_n env (chunk_count L env.max_ws_frame_len) st).client.next_vts =
      some (add64 ts channel.vduration) ∧
    (∀ i, 0 < i → i < chunk_count L env.max_ws_frame_len →
      (serve_video_n env i st).client.next_vsegment ≠ none) ∧
    ((List.range (chunk_count L env.max_ws_frame_len)).map
      (chunk_bytes stream env.max_ws_frame_len)).flatten = stream ∧
    (chunk_count L env.max_ws_frame_len - 1) * env.max_ws_frame_len +
      (chunk_bytes stream env.max_ws_frame_len
        (chunk_count L env.max_ws_frame_len - 1)).length = L := by
  obtain ⟨m, hm, hlo, hhi⟩ := chunk_count_spec L env.max_ws_frame_len hpos hF
  obtain ⟨st1, hdef, hst⟩ : ∃ st1 : St,
      st1 = { st with
        rand_calls := st.rand_calls + 1,
        client := st.client.set_next_vsegment q (channel.vdata q ts)
          (if st.client.curr_vq = none ∨ st.client.curr_vq ≠ some q
           then some (channel.vinit q) else none) } ∧
      start_vsegment env channel ts st = .ok (some st1) :=
    ⟨_, rfl, by simp only [start_vsegment, hseg, hr, if_true, hsel]⟩
  have hseg1 : st1.client.next_vsegment = some
      ⟨q, channel.vdata q ts,
        if st.client.curr_vq = none ∨ st.client.curr_vq ≠ some q
        then some (channel.vinit q) else none, 0⟩ := by
    rw [hdef]; rfl
  have hc1 : st1.client.channel = some name := by rw [hdef]; exact hc
  have hts1 : st1.client.next_vts = some ts := by rw [hdef]; exact hts
  have hsrv1 : st1.server = st.server := by rw [hdef]
  have hfirst : serve_video_to_client env st = serve_video_to_client env st1 := by
    rw [serve_video_in_progress env st1 name channel ts _ hc1 hch hts1 hseg1]
    simp only [serve_video_to_client, hc, hch, hts, hst]
  have hn : ∀ i, serve_video_n env (i + 1) st = serve_video_n env (i + 1) st1 := by
    intro i
    simp only [serve_video_n, hfirst]
  have hstream1 : Segment.stream (⟨q, channel.vdata q ts,
        if st.client.curr_vq = none ∨ st.client.curr_vq ≠ some q
        then some (channel.vinit q) else none, 0⟩ : VideoSegment) = stream := by
    rw [hstream]
    unfold Segment.stream
    split_ifs <;> rfl
  have hlen1 : Segment.length (⟨q, channel.vdata q ts,
        if st.client.curr_vq = none ∨ st.client.curr_vq ≠ some q
        then some (channel.vinit q) else none, 0⟩ : VideoSegment) = L := by
    unfold Segment.length
    rw [hstream1, hL]
  obtain ⟨h1, h2, h3, -, h5⟩ := video_chunks_from env name channel ts hch hF m 0 st1 _
    hc1 hts1 hseg1 (by rw [Nat.zero_mul]) (by rw [hlen1, Nat.zero_add]; exact hlo)
    (by rw [hlen1, Nat.zero_add]; exact hhi)
  rw [hstream1] at h1
  rw [hm]
  refine ⟨?_, ?_, ?_, ?_, ?_, ?_⟩
  · rw [hn m]
    unfold new_frames
    rw [List.map_drop, h1, hsrv1, ← List.length_map st.server.sent (fun e => e.frame),
      List.drop_left]
    apply List.map_congr_left
    intro k _
    rw [Nat.zero_add]
  · rw [hn m]; exact h2
  · rw [hn m]; exact h3
  · intro i hi1 hi2
    obtain ⟨i2, hi3⟩ := Nat.exists_eq_succ_of_ne_zero (Nat.pos_iff_ne_zero.mp hi1)
    rw [hi3, hn i2]
    exact h5 (i2 + 1) (by omega)
  · exact chunks_join env.max_ws_frame_len (m + 1) stream (by rw [hL]; exact hhi)
  · show m * env.max_ws_frame_len +
      ((stream.drop (m * env.max_ws_frame_len)).take env.max_ws_frame_len).length = L
    rw [List.length_take, List.length_drop, hL]
    rw [Nat.succ_mul] at hhi
    omega

/-- The frames of one new audio segment of `L > 0` bytes, sent by `ceil(L / F)` calls of
`serve_audio_to_client`. -/
theorem audio_segment_chunking (env : Env) (st : St) (name : String) (channel : Channel) (ts : Nat)
    (q : AudioFormat) (stream : Bytes) (L : Nat)
    (hF : 0 < env.max_ws_frame_len)
    (hc : st.client.channel = some name)
    (hch : channels_at env.channels name = some channel)
    (hts : st.client.next_ats = some ts)
    (hseg : st.client.next_asegment = none)
    (hr : channel.aready ts = true)
    (hsel : select_audio_quality env st.client (env.rand st.rand_calls) = .ok q)
    (hstream : stream =
      (if st.client.curr_aq = none ∨ st.client.curr_aq ≠ some q then channel.ainit q
       else []) ++ channel.adata q ts)
    (hL : stream.length = L) (hpos : 0 < L) :
    (new_frames st (serve_audio_n env (chunk_count L env.max_ws_frame_len) st)).map
        (fun e => e.frame) =
      (List.range (chunk_count L env.max_ws_frame_len)).map
        (audio_chunk q.to_string ts channel.aduration stream env.max_ws_frame_len) ∧
    (serve_audio_n env (chunk_count L env.max_ws_frame_len) st).client.next_asegment = none ∧
    (serve_audio_n env (chunk_count L env.max_ws_frame_len) st).client.next_ats =
      some (add64 ts channel.aduration) ∧
    (∀ i, 0 < i → i < chunk_count L env.max_ws_frame_len →
      (serve_audio_n env i st).client.next_asegment ≠ none) ∧
    ((List.range (chunk_count L env.max_ws_frame_len)).map
      (chunk_bytes stream env.max_ws_frame_len)).flatten = stream ∧
    (chunk_count L env.max_ws_frame_len - 1) * env.max_ws_frame_len +
      (chunk_bytes stream env.max_ws_frame_len
        (chunk_count L env.max_ws_frame_len - 1)).length = L := by
  obtain ⟨m, hm, hlo, hhi⟩ := chunk_count_spec L env.max_ws_frame_len hpos hF
  obtain ⟨st1, hdef, hst⟩ : ∃ st1 : St,
      st1 = { st with
        rand_calls := st.rand_calls + 1,
        client := st.client.set_next_asegment q (channel.adata q ts)
          (if st.client.curr_aq = none ∨ st.client.curr_aq ≠ some q
           then some (channel.ainit q) else none) } ∧
      start_asegment env channel ts st = .ok (some st1) :=
    ⟨_, rfl, by simp only [start_asegment, hseg, hr, if_true, hsel]⟩
  have hseg1 : st1.client.next_asegment = some
      ⟨q, channel.adata q ts,
        if st.client.curr_aq = none ∨ st.client.curr_aq ≠ some q
        then some (channel.ainit q) else none, 0⟩ := by
    rw [hdef]; rfl
  have hc1 : st1.client.channel = some name := by rw [hdef]; exact hc
  have hts1 : st1.client.next_ats = some ts := by rw [hdef]; exact hts
  have hsrv1 : st1.server = st.server := by rw [hdef]
  have hfirst : serve_audio_to_client env st = serve_audio_to_client env st1 := by
    rw [serve_audio_in_progress env st1 name channel ts _ hc1 hch hts1 hseg1]
    simp only [serve_audio_to_client, hc, hch, hts, hst]
  have hn : ∀ i, serve_audio_n env (i + 1) st = serve_audio_n env (i + 1) st1 := by
    intro i
    simp only [serve_audio_n, hfirst]
  have hstream1 : Segment.stream (⟨q, channel.adata q ts,
        if st.client.curr_aq = none ∨ st.client.curr_aq ≠ some q
        then some (channel.ainit q) else none, 0⟩ : AudioSegment) = stream := by
    rw [hstream]
    unfold Segment.stream
    split_ifs <;> rfl
  have hlen1 : Segment.length (⟨q, channel.adata q ts,
        if st.client.curr_aq = none ∨ st.client.curr_aq ≠ some q
        then some (channel.ainit q) else none, 0⟩ : AudioSegment) = L := by
    unfold Segment.length
    rw [hstream1, hL]
  obtain ⟨h1, h2, h3, -, h5⟩ := audio_chunks_from env name channel ts hch hF m 0 st1 _
    hc1 hts1 hseg1 (by rw [Nat.zero_mul]) (by rw [hlen1, Nat.zero_add]; exact hlo)
    (by rw [hlen1, Nat.zero_add]; exact hhi)
  rw [hstream1] at h1
  rw [hm]
  refine ⟨?_, ?_, ?_, ?_, ?_, ?_⟩
  · rw [hn m]
    unfold new_frames
    rw [List.map_drop, h1, hsrv1, ← List.length_map st.server.sent (fun e => e.frame),
      List.drop_left]
    apply List.map_congr_left
    intro k _
    rw [Nat.zero_add]
  · rw [hn m]; exact h2
  · rw [hn m]; exact h3
  · intro i hi1 hi2
    obtain ⟨i2, hi3⟩ := Nat.exists_eq_succ_of_ne_zero (Nat.pos_iff_ne_zero.mp hi1)
    rw [hi3, hn i2]
    exact h5 (i2 + 1) (by omega)
  · exact chunks_join env.max_ws_frame_len (m + 1) stream (by rw [hL]; exact hhi)
  · show m * env.max_ws_frame_len +
      ((stream.drop (m * env.max_ws_frame_len)).take env.max_ws_frame_len).length = L
    rw [List.length_take, List.length_drop, hL]
    rw [Nat.succ_mul] at hhi
    omega

/-- C20. Chunking of one segment: with `max_ws_frame_len = F > 0`, for a new video segment
whose init ∥ payload `stream` has `L > 0` bytes, `ceil(L / F)` calls of
`serve_video_to_client` enqueue exactly the frames `k = 0, …, ceil(L / F) - 1`, the `k`-th
with offset `k * F`, length field `L` and the bytes `stream[k * F, min((k + 1) * F, L))`;
the segment completes with the last of them and is in progress until then, the last
frame's offset plus chunk length is `L`, and the chunks in order make up `stream`.
Likewise, and independently, for a new audio segment and `serve_audio_to_client`. -/
theorem segment_chunking :
    (∀ (env : Env) (st : St) (name : String) (channel : Channel) (ts : Nat) (q : VideoFormat)
        (stream : Bytes) (L : Nat),
      0 < env.max_ws_frame_len →
      st.client.channel = some name →
      channels_at env.channels name = some channel →
      st.client.next_vts = some ts →
      st.client.next_vsegment = none →
      channel.vready ts = true →
      select_video_quality env st.client (env.rand st.rand_calls) = .ok q →
      stream =
        (if st.client.curr_vq = none ∨ st.client.curr_vq ≠ some q then channel.vinit q
         else []) ++ channel.vdata q ts →
      stream.length = L → 0 < L →
      (new_frames st (serve_video_n env (chunk_count L env.max_ws_frame_len) st)).map
          (fun e => e.frame) =
        (List.range (chunk_count L env.max_ws_frame_len)).map
          (video_chunk q.to_string ts channel.vduration stream env.max_ws_frame_len) ∧
      (serve_video_n env (chunk_count L env.max_ws_frame_len) st).client.next_vsegment = none ∧
      (serve_video_n env (chunk_count L env.max_ws_frame_len) st).client.next_vts =
        some (add64 ts channel.vduration) ∧
      (∀ i, 0 < i → i < chunk_count L env.max_ws_frame_len →
        (serve_video_n env i st).client.next_vsegment ≠ none) ∧
      ((List.range (chunk_count L env.max_ws_frame_len)).map
        (chunk_bytes stream env.max_ws_frame_len)).flatten = stream ∧
      (chunk_count L env.max_ws_frame_len - 1) * env.max_ws_frame_len +
        (chunk_bytes stream env.max_ws_frame_len
          (chunk_count L env.max_ws_frame_len - 1)).length = L) ∧
    (∀ (env : Env) (st : St) (name : String) (channel : Channel) (ts : Nat) (q : AudioFormat)
        (stream : Bytes) (L : Nat),
      0 < env.max_ws_frame_len →
      st.client.channel = some name →
      channels_at env.channels name = some channel →
      st.client.next_ats = some ts →
      st.client.next_asegment = none →
      channel.aready ts = true →
      select_audio_quality env st.client (env.rand st.rand_calls) = .ok q →
      stream =
        (if st.client.curr_aq = none ∨ st.client.curr_aq ≠ some q then channel.ainit q
         else []) ++ channel.adata q ts →
      stream.length = L → 0 < L →
      (new_frames st (serve_audio_n env (chunk_count L env.max_ws_frame_len) st)).map
          (fun e => e.frame) =
        (List.range (chunk_count L env.max_ws_frame_len)).map
          (audio_chunk q.to_string ts channel.aduration stream env.max_ws_frame_len) ∧
      (serve_audio_n env (chunk_count L env.max_ws_frame_len) st).client.next_asegment = none ∧
      (serve_audio_n env (chunk_count L env.max_ws_frame_len) st).client.next_ats =
        some (add64 ts channel.aduration) ∧
      (∀ i, 0 < i → i < chunk_count L env.max_ws_frame_len →
        (serve_audio_n env i st).client.next_asegment ≠ none) ∧
      ((List.range (chunk_count L env.max_ws_frame_len)).map
        (chunk_bytes stream env.max_ws_frame_len)).flatten = stream ∧
      (chunk_count L env.max_ws_frame_len - 1) * env.max_ws_frame_len +
        (chunk_bytes stream env.max_ws_frame_len
          (chunk_count L env.max_ws_frame_len - 1)).length = L) :=
  ⟨fun env st name channel ts q stream L hF hc hch hts hseg hr hsel hstream hL hpos =>
      video_segment_chunking env st name channel ts q stream L hF hc hch hts hseg hr hsel
        hstream hL hpos,
    fun env st name channel ts q stream L hF hc hch hts hseg hr hsel hstream hL hpos =>
      audio_segment_chunking env st name channel ts q stream L hF hc hch hts hseg hr hsel
        hstream hL hpos⟩

/-- C20 at the scenario, on a channel that has video only: a video segment of 250000
bytes with a frame cap of 100000 bytes is sent in `chunk_count 250000 100000 = 3` frames
with offsets 0, 100000 and 200000. On a channel that has audio only, an audio segment of
4 bytes with a frame cap of 3 bytes is sent in 2 frames. -/
theorem segment_chunking_witness :
    (big_video_channel.aformats = [] ∧
      chunk_count 250000 big_video_env.max_ws_frame_len = 3 ∧
      (List.range 3).map (fun k => k * big_video_env.max_ws_frame_len) = [0, 100000, 200000] ∧
      (new_frames fresh_init_st (serve_video_n big_video_env (chunk_count 250000 big_video_env.max_ws_frame_len) fresh_init_st)).map
          (fun e => e.frame) =
        (List.range (chunk_count 250000 big_video_env.max_ws_frame_len)).map
          (video_chunk (⟨"854x480-26"⟩ : VideoFormat).to_string 360000 big_video_channel.vduration (big_video_channel.vinit (⟨"854x480-26"⟩ : VideoFormat) ++ big_video_channel.vdata (⟨"854x480-26"⟩ : VideoFormat) 360000) big_video_env.max_ws_frame_len) ∧
      (serve_video_n big_video_env (chunk_count 250000 big_video_env.max_ws_frame_len) fresh_init_st).client.next_vsegment = none ∧
      (serve_video_n big_video_env (chunk_count 250000 big_video_env.max_ws_frame_len) fresh_init_st).client.next_vts =
        some (add64 360000 big_video_channel.vduration) ∧
      (∀ i, 0 < i → i < chunk_count 250000 big_video_env.max_ws_frame_len →
        (serve_video_n big_video_env i fresh_init_st).client.next_vsegment ≠ none) ∧
      ((List.range (chunk_count 250000 big_video_env.max_ws_frame_len)).map
        (chunk_bytes (big_video_channel.vinit (⟨"854x480-26"⟩ : VideoFormat) ++ big_video_channel.vdata (⟨"854x480-26"⟩ : VideoFormat) 360000) big_video_env.max_ws_frame_len)).flatten = (big_video_channel.vinit (⟨"854x480-26"⟩ : VideoFormat) ++ big_video_channel.vdata (⟨"854x480-26"⟩ : VideoFormat) 360000) ∧
      (chunk_count 250000 big_video_env.max_ws_frame_len - 1) * big_video_env.max_ws_frame_len +
        (chunk_bytes (big_video_channel.vinit (⟨"854x480-26"⟩ : VideoFormat) ++ big_video_channel.vdata (⟨"854x480-26"⟩ : VideoFormat) 360000) big_video_env.max_ws_frame_len
          (chunk_count 250000 big_video_env.max_ws_frame_len - 1)).length = 250000) ∧
    (audio_only_channel.vformats = [] ∧
      chunk_count 4 (audio_only_env 3 100).max_ws_frame_len = 2 ∧
      (new_frames fresh_init_st (serve_audio_n (audio_only_env 3 100) (chunk_count 4 (audio_only_env 3 100).max_ws_frame_len) fresh_init_st)).map
          (fun e => e.frame) =
        (List.range (chunk_count 4 (audio_only_env 3 100).max_ws_frame_len)).map
          (audio_chunk (⟨"128k"⟩ : AudioFormat).to_string 288000 audio_only_channel.aduration (audio_only_channel.ainit (⟨"128k"⟩ : AudioFormat) ++ audio_only_channel.adata (⟨"128k"⟩ : AudioFormat) 288000) (audio_only_env 3 100).max_ws_frame_len) ∧
      (serve_audio_n (audio_only_env 3 100) (chunk_count 4 (audio_only_env 3 100).max_ws_frame_len) fresh_init_st).client.next_asegment = none ∧
      (serve_audio_n (audio_only_env 3 100) (chunk_count 4 (audio_only_env 3 100).max_ws_frame_len) fresh_init_st).client.next_ats =
        some (add64 288000 audio_only_channel.aduration) ∧
      (∀ i, 0 < i → i < chunk_count 4 (audio_only_env 3 100).max_ws_frame_len →
        (serve_audio_n (audio_only_env 3 100) i fresh_init_st).client.next_asegment ≠ none) ∧
      ((List.range (chunk_count 4 (audio_only_env 3 100).max_ws_frame_len)).map
        (chunk_bytes (audio_only_channel.ainit (⟨"128k"⟩ : AudioFormat) ++ audio_only_channel.adata (⟨"128k"⟩ : AudioFormat) 288000) (audio_only_env 3 100).max_ws_frame_len)).flatten = (audio_only_channel.ainit (⟨"128k"⟩ : AudioFormat) ++ audio_only_channel.adata (⟨"128k"⟩ : AudioFormat) 288000) ∧
      (chunk_count 4 (audio_only_env 3 100).max_ws_frame_len - 1) * (audio_only_env 3 100).max_ws_frame_len +
        (chunk_bytes (audio_only_channel.ainit (⟨"128k"⟩ : AudioFormat) ++ audio_only_channel.adata (⟨"128k"⟩ : AudioFormat) 288000) (audio_only_env 3 100).max_ws_frame_len
          (chunk_count 4 (audio_only_env 3 100).max_ws_frame_len - 1)).length = 4) :=
  ⟨⟨rfl, by decide, by decide,
      segment_chunking.1 big_video_env fresh_init_st "news" big_video_channel
        360000 ⟨"854x480-26"⟩ _ 250000
        (by decide) rfl rfl rfl rfl rfl rfl rfl
        (by
          show ([1, 2] ++ List.replicate 249998 (3 : Byte)).length = 250000
          rw [List.length_append, List.length_replicate]
          rfl)
        (by decide)⟩,
    ⟨rfl, by decide,
      segment_chunking.2 (audio_only_env 3 100) fresh_init_st "news" audio_only_channel
        288000 ⟨"128k"⟩ _ 4 (by decide) rfl rfl rfl rfl rfl rfl rfl rfl (by decide)⟩⟩

/-! ## C21: messages from a connection whose client was removed -/

/-- The lookup at line 324 is outside the `try`: a message from a connection without a
client throws `std::out_of_range` out of the callback, whatever the message is. -/
theorem on_message_unregistered (env : Env) (sys : Sys) (id : Nat) (msg : ClientMsg)
    (h : clients_at sys.clients id = none) :
    on_message env sys id msg = ⟨sys, some .out_of_range⟩ := by
  simp only [on_message, h]

/-- An unparsable message from a registered connection erases its client and nothing
else. -/
theorem on_message_unparsable (env : Env) (sys : Sys) (id : Nat) (client : WebSocketClient)
    (h : clients_at sys.clients id = some client) :
    on_message env sys id .unparsable =
      ⟨{ sys with clients := clients_erase sys.clients id }, none⟩ := by
  simp only [on_message, h]

/-- C21 fails on the code. Connections 7 and 9 are open and 9 makes a protocol error (an
unparsable message, or an `Init` for the unknown channel `sports`): the callback ends
without a fault and removes the client of 9 only. Connection 9 is still open, and its
next message, whatever it is, makes the callback fail with `std::out_of_range`; the run
with a well-formed `Init` for `news` as that message ends in this fault. -/
theorem removed_client_message_is_fatal :
    (messages_from_open [] (garbage_from_9 ++ [init_news_from_9]) = true ∧
      (sys_run garbage_from_9 sys_init).fault = none ∧
      (sys_run garbage_from_9 sys_init).sys.clients = [(7, WebSocketClient.fresh 7)] ∧
      (∀ msg, (on_message (demo_env 100 1000) (sys_run garbage_from_9 sys_init).sys 9
        msg).fault = some .out_of_range) ∧
      (sys_run (garbage_from_9 ++ [init_news_from_9]) sys_init).fault =
        some .out_of_range) ∧
    (messages_from_open [] (unknown_channel_from_9 ++ [init_news_from_9]) = true ∧
      (sys_run unknown_channel_from_9 sys_init).fault = none ∧
      (sys_run unknown_channel_from_9 sys_init).sys.clients =
        [(7, WebSocketClient.fresh 7)] ∧
      (∀ msg, (on_message (demo_env 100 1000) (sys_run unknown_channel_from_9 sys_init).sys 9
        msg).fault = some .out_of_range) ∧
      (sys_run (unknown_channel_from_9 ++ [init_news_from_9]) sys_init).fault =
        some .out_of_range) :=
  ⟨⟨by decide, rfl, rfl,
      fun msg => congrArg SysRes.fault
        (on_message_unregistered (demo_env 100 1000) (sys_run garbage_from_9 sys_init).sys 9
          msg rfl), rfl⟩,
    ⟨by decide, rfl, rfl,
      fun msg => congrArg SysRes.fault
        (on_message_unregistered (demo_env 100 1000)
          (sys_run unknown_channel_from_9 sys_init).sys 9 msg rfl), rfl⟩⟩

/-! ## C22: the queue bound of the scheduler -/

theorem queue_step_refl (S : Nat) (st : St) : queue_step S st st :=
  ⟨rfl, Nat.le_add_right _ _, fun _ _ => rfl⟩

/-- Enqueueing a frame of at most `S` bytes for the client is a `queue_step`, when the
carrier counts the bytes of the frame. -/
theorem queue_step_queue_frame (env : Env) (S : Nat) (st st1 : St) (f : WSFrame)
    (hq : ∀ q g, env.queue_after q g = q + payload_len env g)
    (hf : payload_len env f ≤ S)
    (hid : st1.client.connection_id = st.client.connection_id)
    (hs : st1.server = st.server.queue_frame env st.client.connection_id f) :
    queue_step S st st1 := by
  refine ⟨hid, ?_, ?_⟩
  · rw [hs]
    simp only [WebSocketServer.queue_size, WebSocketServer.queue_frame, if_true, hq]
    omega
  · intro j hj
    rw [hs]
    simp only [WebSocketServer.queue_size, WebSocketServer.queue_frame, hj, if_false]

theorem serve_video_queue_step (env : Env) (H : Nat) (st : St)
    (hq : ∀ q f, env.queue_after q f = q + payload_len env f)
    (hH : ∀ f, is_video f ∨ is_audio f → env.header_len f.header ≤ H) :
    queue_step (H + env.max_ws_frame_len) st (serve_video_to_client env st).st := by
  rcases serve_video_run env st with ⟨h, -⟩ |
    ⟨name, channel, ts, st1, seg, -, -, -, hst, hseg, hrun, -⟩
  · rw [h]
    exact queue_step_refl _ st
  · obtain ⟨hs, hid, -, -⟩ := start_vsegment_keeps env channel ts st st1 hst
    have hne : st1.client.next_vsegment ≠ none := by rw [hseg]; simp
    obtain ⟨-, hid2, -, -⟩ := emit_video_effect env channel ts st1 hne
    apply queue_step_queue_frame env _ st _ (video_frame env channel ts seg) hq
    · have h1 := hH (video_frame env channel ts seg) (Or.inl ⟨_, _, _, _, _, rfl⟩)
      have h2 := video_frame_data_le env channel ts seg
      unfold payload_len
      omega
    · rw [hrun]
      exact hid2.trans hid
    · rw [hrun, emit_video_server env channel ts st1 seg hseg, hs, hid]

theorem serve_audio_queue_step (env : Env) (H : Nat) (st : St)
    (hq : ∀ q f, env.queue_after q f = q + payload_len env f)
    (hH : ∀ f, is_video f ∨ is_audio f → env.header_len f.header ≤ H) :
    queue_step (H + env.max_ws_frame_len) st (serve_audio_to_client env st).st := by
  rcases serve_audio_run env st with ⟨h, -⟩ |
    ⟨name, channel, ts, st1, seg, -, -, -, hst, hseg, hrun, -⟩
  · rw [h]
    exact queue_step_refl _ st
  · obtain ⟨hs, hid, -, -⟩ := start_asegment_keeps env channel ts st st1 hst
    have hne : st1.client.next_asegment ≠ none := by rw [hseg]; simp
    obtain ⟨-, hid2, -, -⟩ := emit_audio_effect env channel ts st1 hne
    apply queue_step_queue_frame env _ st _ (audio_frame env channel ts seg) hq
    · have h1 := hH (audio_frame env channel ts seg) (Or.inr ⟨_, _, _, _, _, rfl⟩)
      have h2 := audio_frame_data_le env channel ts seg
      unfold payload_len
      omega
    · rw [hrun]
      exact hid2.trans hid
    · rw [hrun, emit_audio_server env channel ts st1 seg hseg, hs, hid]

/-- Two sends in a row, the first made with the queue below the cap and the second only
if it is still below the cap after the first, end below `cap + S`. -/
theorem queue_below_two_sends (env : Env) (S : Nat) (flag : Bool) (st : St) (r1 : Res)
    (second : St → Res)
    (h0 : st.server.queue_size st.client.connection_id < env.max_ws_queue_len)
    (h1 : queue_step S st r1.st)
    (h2 : ∀ s, queue_step S s (second s).st) :
    queue_below (env.max_ws_queue_len + S) st
      (match r1.fault with
        | some f => (⟨r1.st, some f⟩ : Res)
        | none =>
          if flag ∧ r1.st.server.queue_size r1.st.client.connection_id < env.max_ws_queue_len
          then second r1.st
          else r1).st := by
  obtain ⟨hid1, hle1, hoth1⟩ := h1
  have hfirst : queue_below (env.max_ws_queue_len + S) st r1.st :=
    ⟨hid1, by omega, hoth1⟩
  split
  · exact hfirst
  · split
    · next hg =>
      obtain ⟨hid2, hle2, hoth2⟩ := h2 r1.st
      rw [hid1] at hid2 hle2 hoth2
      have hlt := hg.2
      rw [hid1] at hlt
      refine ⟨hid2, by omega, ?_⟩
      intro j hj
      rw [hoth2 j hj, hoth1 j hj]
    · exact hfirst

theorem serve_client_queue_below (env : Env) (H : Nat) (st : St)
    (hq : ∀ q f, env.queue_after q f = q + payload_len env f)
    (hH : ∀ f, is_video f ∨ is_audio f → env.header_len f.header ≤ H)
    (hbefore : st.server.queue_size st.client.connection_id <
      env.max_ws_queue_len + (H + env.max_ws_frame_len)) :
    queue_below (env.max_ws_queue_len + (H + env.max_ws_frame_len)) st
      (serve_client env st).st := by
  rcases serve_client_cases env st with h |
    ⟨_, _, csv, csa, _, _, -, -, h0, -, -, -, -, h⟩
  · rw [h]
    exact ⟨rfl, hbefore, fun _ _ => rfl⟩
  · rcases h with ⟨-, h⟩ | ⟨-, h⟩
    · rw [h]
      have h1 : queue_step (H + env.max_ws_frame_len) st
          (if csa = true then serve_audio_to_client env st else ⟨st, none⟩).st := by
        split
        · exact serve_audio_queue_step env H st hq hH
        · exact queue_step_refl _ st
      exact queue_below_two_sends env _ csv st _ (serve_video_to_client env) h0 h1
        (fun s => serve_video_queue_step env H s hq hH)
    · rw [h]
      have h1 : queue_step (H + env.max_ws_frame_len) st
          (if csv = true then serve_video_to_client env st else ⟨st, none⟩).st := by
        split
        · exact serve_video_queue_step env H st hq hH
        · exact queue_step_refl _ st
      exact queue_below_two_sends env _ csa st _ (serve_audio_to_client env) h0 h1
        (fun s => serve_audio_queue_step env H s hq hH)

theorem serve_client_n_queue_below (env : Env) (H : Nat)
    (hq : ∀ q f, env.queue_after q f = q + payload_len env f)
    (hH : ∀ f, is_video f ∨ is_audio f → env.header_len f.header ≤ H) :
    ∀ (n : Nat) (st : St),
      st.server.queue_size st.client.connection_id <
        env.max_ws_queue_len + (H + env.max_ws_frame_len) →
      queue_below (env.max_ws_queue_len + (H + env.max_ws_frame_len)) st
        (serve_client_n env n st) := by
  intro n
  induction n with
  | zero => intro st h; exact ⟨rfl, h, fun _ _ => rfl⟩
  | succ n ih =>
    intro st h
    obtain ⟨hid, hlt, hoth⟩ := serve_client_queue_below env H st hq hH h
    rw [← hid] at hlt
    obtain ⟨hid2, hlt2, hoth2⟩ := ih (serve_client env st).st hlt
    rw [hid] at hid2 hlt2 hoth2
    refine ⟨hid2, hlt2, ?_⟩
    intro j hj
    show (serve_client_n env n (serve_client env st).st).server.queue_size j = _
    rw [hoth2 j hj, hoth j hj]

/-- C22: assume the carrier's queue grows by exactly the byte length of each enqueued
frame (header plus data) and nothing drains it, and let `S = H + max_ws_frame_len` with
`H` the longest header of a `Video` or `Audio` frame. If the client's queue is below
`max_ws_queue_len + S` before `serve_client`, it is below `max_ws_queue_len + S` after
it, and no other connection's queue has changed; so after any number of consecutive
`serve_client` calls the queue is still below `max_ws_queue_len + S`. -/
theorem scheduler_queue_bound (env : Env) (H : Nat) (st : St) (n : Nat)
    (hq : ∀ q f, env.queue_after q f = q + payload_len env f)
    (hH : ∀ f, is_video f ∨ is_audio f → env.header_len f.header ≤ H)
    (hbefore : st.server.queue_size st.client.connection_id <
      env.max_ws_queue_len + (H + env.max_ws_frame_len)) :
    ((serve_client env st).st.server.queue_size st.client.connection_id <
        env.max_ws_queue_len + (H + env.max_ws_frame_len) ∧
      ∀ j, j ≠ st.client.connection_id →
        (serve_client env st).st.server.queue_size j = st.server.queue_size j) ∧
    ((serve_client_n env n st).server.queue_size st.client.connection_id <
        env.max_ws_queue_len + (H + env.max_ws_frame_len) ∧
      ∀ j, j ≠ st.client.connection_id →
        (serve_client_n env n st).server.queue_size j = st.server.queue_size j) :=
  ⟨(serve_client_queue_below env H st hq hH hbefore).2,
    (serve_client_n_queue_below env H hq hH n st hbefore).2⟩

/-- C22 on a carrier that counts a one-byte header and the data bytes, with a frame cap
and a queue cap of 4 bytes (`S = 5`): from a queue of 3 bytes one call enqueues one frame
of 5 bytes, the queue is 8, the largest value below `4 + 5`, and it stays below 9 over
three calls. -/
theorem scheduler_queue_bound_witness :
    (∀ q f, (demo_env 4 4).queue_after q f = q + payload_len (demo_env 4 4) f) ∧
    (∀ f, is_video f ∨ is_audio f → (demo_env 4 4).header_len f.header ≤ 1) ∧
    (demo_st 3 360000 288000).server.queue_size 7 < 4 + (1 + 4) ∧
    (serve_client (demo_env 4 4) (demo_st 3 360000 288000)).st.server.queue_size 7 = 8 ∧
    (serve_client (demo_env 4 4) (demo_st 3 360000 288000)).st.server.queue_size 7 <
      4 + (1 + 4) ∧
    (serve_client_n (demo_env 4 4) 3 (demo_st 3 360000 288000)).server.queue_size 7 <
      4 + (1 + 4) :=
  ⟨fun _ _ => rfl, fun _ _ => Nat.le_refl 1, by decide, rfl,
    (scheduler_queue_bound (demo_env 4 4) 1 (demo_st 3 360000 288000) 3
      (fun _ _ => rfl) (fun _ _ => Nat.le_refl 1) (by decide)).1.1,
    (scheduler_queue_bound (demo_env 4 4) 1 (demo_st 3 360000 288000) 3
      (fun _ _ => rfl) (fun _ _ => Nat.le_refl 1) (by decide)).2.1⟩

/-! ## C16: committed playback -/

theorem same_reports_refl (c : WebSocketClient) : same_reports c c := ⟨rfl, rfl, rfl, rfl⟩

theorem same_reports_trans (c c1 c2 : WebSocketClient) (h1 : same_reports c c1)
    (h2 : same_reports c1 c2) : same_reports c c2 :=
  ⟨h2.1.trans h1.1, h2.2.1.trans h1.2.1, h2.2.2.1.trans h1.2.2.1, h2.2.2.2.trans h1.2.2.2⟩

/-- The in-flight seconds after the cursor has advanced by `d`: at most `d / t + 1` more
than before, also when a 64-bit difference or the 32-bit result wraps. -/
theorem in_flight_advance (v c d t : Nat) (ht : 0 < t) :
    (sub64 (add64 v d) c / t) % UINT32_MOD ≤ (sub64 v c / t) % UINT32_MOD + d / t + 1 := by
  have hM : 0 < UINT64_MOD := by decide
  have hx : sub64 v c < UINT64_MOD := Nat.mod_lt _ hM
  have hy : sub64 (add64 v d) c = (sub64 v c + d) % UINT64_MOD := by
    unfold sub64 add64
    generalize UINT64_MOD - c % UINT64_MOD = k
    generalize UINT64_MOD = M
    rw [Nat.mod_mod]
    have h1 : ((v + d) % M + k) % M = (v + d + k) % M := Nat.mod_add_mod _ _ _
    have h2 : ((v % M + k) % M + d) % M = (v % M + k + d) % M := Nat.mod_add_mod _ _ _
    have h3 : (v % M + k + d) % M = (v + (k + d)) % M := by
      rw [Nat.add_assoc]; exact Nat.mod_add_mod _ _ _
    rw [h1, h2, h3]
    congr 1
    omega
  rw [hy]
  by_cases hlt : sub64 v c + d < UINT64_MOD
  · rw [Nat.mod_eq_of_lt hlt, Nat.add_div ht]
    have h1 : (sub64 v c / t + d / t + if t ≤ sub64 v c % t + d % t then 1 else 0) ≤
        sub64 v c / t + (d / t + 1) := by
      split_ifs <;> omega
    calc (sub64 v c / t + d / t + if t ≤ sub64 v c % t + d % t then 1 else 0) % UINT32_MOD
        ≤ (sub64 v c / t % UINT32_MOD +
            (d / t + if t ≤ sub64 v c % t + d % t then 1 else 0)) := by
          rw [Nat.add_assoc, Nat.add_mod]
          exact (Nat.mod_le _ _).trans (Nat.add_le_add_left (Nat.mod_le _ _) _)
      _ ≤ sub64 v c / t % UINT32_MOD + d / t + 1 := by
          split_ifs <;> omega
  · have hsmall : (sub64 v c + d) % UINT64_MOD ≤ d := by
      have h2 : (sub64 v c + d) % UINT64_MOD ≤ sub64 v c + d - UINT64_MOD := by
        rw [Nat.mod_eq_sub_mod (Nat.le_of_not_lt hlt)]
        exact Nat.mod_le _ _
      omega
    calc ((sub64 v c + d) % UINT64_MOD / t) % UINT32_MOD
        ≤ (sub64 v c + d) % UINT64_MOD / t := Nat.mod_le _ _
      _ ≤ d / t := Nat.div_le_div_right hsmall
      _ ≤ sub64 v c / t % UINT32_MOD + d / t + 1 := by omega

theorem serve_video_keeps_reports (env : Env) (st : St) :
    same_reports st.client (serve_video_to_client env st).st.client := by
  rcases serve_video_run env st with ⟨h, -⟩ |
    ⟨name, channel, ts, st1, seg, -, -, -, hst, hseg, hrun, -⟩
  · rw [h]
    exact ⟨rfl, rfl, rfl, rfl⟩
  · have h1 : same_reports st.client st1.client := by
      rcases start_vsegment_detail env channel ts st st1 hst with ⟨-, h⟩ | ⟨-, -, q, -, h⟩
      · rw [h]
        exact ⟨rfl, rfl, rfl, rfl⟩
      · rw [h]
        exact ⟨rfl, rfl, rfl, rfl⟩
    rw [hrun, emit_video_eq env channel ts st1 seg hseg]
    split <;> exact h1

theorem serve_audio_keeps_reports (env : Env) (st : St) :
    same_reports st.client (serve_audio_to_client env st).st.client := by
  rcases serve_audio_run env st with ⟨h, -⟩ |
    ⟨name, channel, ts, st1, seg, -, -, -, hst, hseg, hrun, -⟩
  · rw [h]
    exact ⟨rfl, rfl, rfl, rfl⟩
  · have h1 : same_reports st.client st1.client := by
      rcases start_asegment_detail env channel ts st st1 hst with ⟨-, h⟩ | ⟨-, -, q, -, h⟩
      · rw [h]
        exact ⟨rfl, rfl, rfl, rfl⟩
      · rw [h]
        exact ⟨rfl, rfl, rfl, rfl⟩
    rw [hrun, emit_audio_eq env channel ts st1 seg hseg]
    split <;> exact h1

theorem serve_audio_first_keeps_reports (env : Env) (csv csa : Bool) (st : St) :
    same_reports st.client (serve_audio_first env csv csa st).st.client := by
  have h1 : same_reports st.client
      (if csa = true then serve_audio_to_client env st else ⟨st, none⟩).st.client := by
    split
    · exact serve_audio_keeps_reports env st
    · exact same_reports_refl _
  have key : ∀ r1 : Res, same_reports st.client r1.st.client →
      same_reports st.client
        (match r1.fault with
          | some f => (⟨r1.st, some f⟩ : Res)
          | none =>
            if csv ∧ r1.st.server.queue_size r1.st.client.connection_id < env.max_ws_queue_len
            then serve_video_to_client env r1.st
            else r1).st.client := by
    intro r1 hr
    split
    · exact hr
    · split
      · exact same_reports_trans _ _ _ hr (serve_video_keeps_reports env _)
      · exact hr
  exact key _ h1

theorem serve_video_first_keeps_reports (env : Env) (csv csa : Bool) (st : St) :
    same_reports st.client (serve_video_first env csv csa st).st.client := by
  have h1 : same_reports st.client
      (if csv = true then serve_video_to_client env st else ⟨st, none⟩).st.client := by
    split
    · exact serve_video_keeps_reports env st
    · exact same_reports_refl _
  have key : ∀ r1 : Res, same_reports st.client r1.st.client →
      same_reports st.client
        (match r1.fault with
          | some f => (⟨r1.st, some f⟩ : Res)
          | none =>
            if csa ∧ r1.st.server.queue_size r1.st.client.connection_id < env.max_ws_queue_len
            then serve_audio_to_client env r1.st
            else r1).st.client := by
    intro r1 hr
    split
    · exact hr
    · split
      · exact same_reports_trans _ _ _ hr (serve_audio_keeps_reports env _)
      · exact hr
  exact key _ h1

/-- A call of `serve_client` leaves the four reported fields of the client as they are. -/
theorem serve_client_keeps_reports (env : Env) (st : St) :
    same_reports st.client (serve_client env st).st.client := by
  rcases serve_client_cases env st with h | ⟨_, _, csv, csa, _, _, -, -, -, -, -, -, -, h⟩
  · rw [h]
    exact same_reports_refl _
  · rcases h with ⟨-, h⟩ | ⟨-, h⟩
    · rw [h]
      exact serve_audio_first_keeps_reports env csv csa st
    · rw [h]
      exact serve_video_first_keeps_reports env csv csa st

/-- The seconds of video in flight after a tick: what they were before it, or, when the
tick enqueued a `Video` frame, video was eligible on entry and they have grown by at most
`vduration / timescale + 1`. -/
theorem serve_client_video_in_flight (env : Env) (st : St) (name : String)
    (channel : Channel) (s : Nat)
    (hc : st.client.channel = some name) (hch : channels_at env.channels name = some channel)
    (hin : video_in_flight channel st.client = .ok s) :
    ∃ s1, video_in_flight channel (serve_client env st).st.client = .ok s1 ∧
      (s1 = s ∨
        (st.client.video_playback_buf < env.max_buffer_seconds ∧
          s < env.max_inflight_seconds ∧
          (∃ e ∈ new_frames st (serve_client env st).st, is_video e.frame) ∧
          s1 ≤ s + channel.vduration / channel.timescale + 1)) := by
  rcases serve_client_cases env st with h | ⟨name2, channel2, _, _, v, a, hc2, -, -, -, -, hvts, hats, -⟩
  · rw [h]
    exact ⟨s, hin, Or.inl rfl⟩
  · obtain ⟨hcn, hcna, -, -⟩ := serve_client_keeps_reports env st
    obtain ⟨l, hl, hv, ha⟩ := serve_client_cursors env st name channel v a hc hch hvts hats
    have hnew : new_frames st (serve_client env st).st = l := by
      simp [new_frames, hl]
    cases hc0 : st.client.client_next_vts with
    | none => simp [video_in_flight, hvts, hc0] at hin
    | some c =>
      by_cases ht : channel.timescale = 0
      · simp [video_in_flight, hvts, hc0, ht] at hin
      · have hs : (sub64 v c / channel.timescale) % UINT32_MOD = s := by
          simpa [video_in_flight, hvts, hc0, ht] using hin
        rw [hc0] at hcn
        rcases hv with h | ⟨⟨e, he, hvid⟩, h⟩
        · refine ⟨s, ?_, Or.inl rfl⟩
          simp only [video_in_flight, h, hcn, ht, if_false, hs]
        · refine ⟨(sub64 (add64 v channel.vduration) c / channel.timescale) % UINT32_MOD, ?_,
            Or.inr ?_⟩
          · simp only [video_in_flight, h, hcn, ht, if_false]
          · rw [← hnew] at he
            obtain ⟨n3, ch3, hc3, hch3, hel, -⟩ := serve_client_frame_eligible env st e he
            rw [hc] at hc3
            cases hc3
            rw [hch] at hch3
            cases hch3
            obtain ⟨hb, s2, hs2, hlt⟩ := can_send_video_true env channel st.client (hel hvid)
            rw [hin] at hs2
            cases hs2
            refine ⟨hb, hlt, ⟨e, he, hvid⟩, ?_⟩
            rw [← hs]
            exact in_flight_advance v c channel.vduration channel.timescale
              (Nat.pos_of_ne_zero ht)

/-- A tick keeps the video bound when a video segment lasts less than three seconds. -/
theorem serve_client_video_committed (env : Env) (st : St) (name : String)
    (channel : Channel)
    (hc : st.client.channel = some name) (hch : channels_at env.channels name = some channel)
    (hd : channel.vduration < 3 * channel.timescale)
    (h : video_committed_ok env channel st.client) :
    video_committed_ok env channel (serve_client env st).st.client := by
  obtain ⟨s, hin, hle⟩ := h
  obtain ⟨s1, hin1, hs1⟩ := serve_client_video_in_flight env st name channel s hc hch hin
  obtain ⟨-, -, hbuf, hbufa⟩ := serve_client_keeps_reports env st
  refine ⟨s1, hin1, ?_⟩
  rw [hbuf]
  rcases hs1 with h | ⟨hb, hlt, -, hadv⟩
  · rw [h]
    exact hle
  · have hdiv : channel.vduration / channel.timescale < 3 := by
      by_cases ht : channel.timescale = 0
      · rw [ht, Nat.div_zero]
        decide
      · exact (Nat.div_lt_iff_lt_mul (Nat.pos_of_ne_zero ht)).mpr hd
    omega

/-- Over a run of ticks of `env` and `Info` messages whose reports are within the video
bound, the bound holds after the run. -/
theorem session_run_video_committed (env : Env) (name : String) (channel : Channel)
    (hch : channels_at env.channels name = some channel)
    (hd : channel.vduration < 3 * channel.timescale) :
    ∀ (events : List SessionEvent) (st : St),
      st.client.channel = some name →
      video_committed_ok env channel st.client →
      video_reports_ok env channel events st →
      (session_run events st).st.client.channel = some name ∧
        video_committed_ok env channel (session_run events st).st.client := by
  intro events
  induction events with
  | nil => intro st hc h _; exact ⟨hc, h⟩
  | cons ev rest ih =>
    intro st hc h hok
    have hstep : (session_step st ev).st.client.channel = some name ∧
        video_committed_ok env channel (session_step st ev).st.client ∧
        video_reports_ok env channel rest (session_step st ev).st := by
      cases ev with
      | tick env1 pending =>
        obtain ⟨henv, hrest⟩ := hok
        subst henv
        refine ⟨?_, ?_, hrest⟩
        · simp only [session_step, hc]
          exact ((serve_client_own_frames env1 _).2.1).trans hc
        · simp only [session_step, hc]
          exact serve_client_video_committed env1 _ name channel hc hch hd h
      | info message =>
        obtain ⟨hinfo, hrest⟩ := hok
        exact ⟨(handle_client_info_client st.client message).2.trans hc, hinfo, hrest⟩
    unfold session_run
    split
    · exact ⟨hstep.1, hstep.2.1⟩
    · exact ih _ hstep.1 hstep.2.1 hstep.2.2

/-- The conditions on a run hold on each of its initial parts. -/
theorem video_reports_ok_initial (env : Env) (channel : Channel) :
    ∀ (pre suf : List SessionEvent) (st : St),
      video_reports_ok env channel (pre ++ suf) st → video_reports_ok env channel pre st := by
  intro pre
  induction pre with
  | nil => intro _ _ _; trivial
  | cons ev rest ih =>
    intro suf st h
    cases ev with
    | tick env1 pending => exact ⟨h.1, ih suf _ h.2⟩
    | info message => exact ⟨h.1, ih suf _ h.2⟩

/-- The seconds of audio in flight after a tick: what they were before it, or, when the
tick enqueued a `Audio` frame, audio was eligible on entry and they have grown by at most
`aduration / timescale + 1`. -/
theorem serve_client_audio_in_flight (env : Env) (st : St) (name : String)
    (channel : Channel) (s : Nat)
    (hc : st.client.channel = some name) (hch : channels_at env.channels name = some channel)
    (hin : audio_in_flight channel st.client = .ok s) :
    ∃ s1, audio_in_flight channel (serve_client env st).st.client = .ok s1 ∧
      (s1 = s ∨
        (st.client.audio_playback_buf < env.max_buffer_seconds ∧
          s < env.max_inflight_seconds ∧
          (∃ e ∈ new_frames st (serve_client env st).st, is_audio e.frame) ∧
          s1 ≤ s + channel.aduration / channel.timescale + 1)) := by
  rcases serve_client_cases env st with h | ⟨name2, channel2, _, _, v, a, hc2, -, -, -, -, hvts, hats, -⟩
  · rw [h]
    exact ⟨s, hin, Or.inl rfl⟩
  · obtain ⟨hcna, hcn, -, -⟩ := serve_client_keeps_reports env st
    obtain ⟨l, hl, hv, ha⟩ := serve_client_cursors env st name channel v a hc hch hvts hats
    have hnew : new_frames st (serve_client env st).st = l := by
      simp [new_frames, hl]
    cases hc0 : st.client.client_next_ats with
    | none => simp [audio_in_flight, hats, hc0] at hin
    | some c =>
      by_cases ht : channel.timescale = 0
      · simp [audio_in_flight, hats, hc0, ht] at hin
      · have hs : (sub64 a c / channel.timescale) % UINT32_MOD = s := by
          simpa [audio_in_flight, hats, hc0, ht] using hin
        rw [hc0] at hcn
        rcases ha with h | ⟨⟨e, he, hvid⟩, h⟩
        · refine ⟨s, ?_, Or.inl rfl⟩
          simp only [audio_in_flight, h, hcn, ht, if_false, hs]
        · refine ⟨(sub64 (add64 a channel.aduration) c / channel.timescale) % UINT32_MOD, ?_,
            Or.inr ?_⟩
          · simp only [audio_in_flight, h, hcn, ht, if_false]
          · rw [← hnew] at he
            obtain ⟨n3, ch3, hc3, hch3, -, hel⟩ := serve_client_frame_eligible env st e he
            rw [hc] at hc3
            cases hc3
            rw [hch] at hch3
            cases hch3
            obtain ⟨hb, s2, hs2, hlt⟩ := can_send_audio_true env channel st.client (hel hvid)
            rw [hin] at hs2
            cases hs2
            refine ⟨hb, hlt, ⟨e, he, hvid⟩, ?_⟩
            rw [← hs]
            exact in_flight_advance a c channel.aduration channel.timescale
              (Nat.pos_of_ne_zero ht)

/-- A tick keeps the audio bound when an audio segment lasts less than three seconds. -/
theorem serve_client_audio_committed (env : Env) (st : St) (name : String)
    (channel : Channel)
    (hc : st.client.channel = some name) (hch : channels_at env.channels name = some channel)
    (hd : channel.aduration < 3 * channel.timescale)
    (h : audio_committed_ok env channel st.client) :
    audio_committed_ok env channel (serve_client env st).st.client := by
  obtain ⟨s, hin, hle⟩ := h
  obtain ⟨s1, hin1, hs1⟩ := serve_client_audio_in_flight env st name channel s hc hch hin
  obtain ⟨-, -, hbufa, hbuf⟩ := serve_client_keeps_reports env st
  refine ⟨s1, hin1, ?_⟩
  rw [hbuf]
  rcases hs1 with h | ⟨hb, hlt, -, hadv⟩
  · rw [h]
    exact hle
  · have hdiv : channel.aduration / channel.timescale < 3 := by
      by_cases ht : channel.timescale = 0
      · rw [ht, Nat.div_zero]
        decide
      · exact (Nat.div_lt_iff_lt_mul (Nat.pos_of_ne_zero ht)).mpr hd
    omega

/-- Over a run of ticks of `env` and `Info` messages whose reports are within the video
bound, the bound holds after the run. -/
theorem session_run_audio_committed (env : Env) (name : String) (channel : Channel)
    (hch : channels_at env.channels name = some channel)
    (hd : channel.aduration < 3 * channel.timescale) :
    ∀ (events : List SessionEvent) (st : St),
      st.client.channel = some name →
      audio_committed_ok env channel st.client →
      audio_reports_ok env channel events st →
      (session_run events st).st.client.channel = some name ∧
        audio_committed_ok env channel (session_run events st).st.client := by
  intro events
  induction events with
  | nil => intro st hc h _; exact ⟨hc, h⟩
  | cons ev rest ih =>
    intro st hc h hok
    have hstep : (session_step st ev).st.client.channel = some name ∧
        audio_committed_ok env channel (session_step st ev).st.client ∧
        audio_reports_ok env channel rest (session_step st ev).st := by
      cases ev with
      | tick env1 pending =>
        obtain ⟨henv, hrest⟩ := hok
        subst henv
        refine ⟨?_, ?_, hrest⟩
        · simp only [session_step, hc]
          exact ((serve_client_own_frames env1 _).2.1).trans hc
        · simp only [session_step, hc]
          exact serve_client_audio_committed env1 _ name channel hc hch hd h
      | info message =>
        obtain ⟨hinfo, hrest⟩ := hok
        exact ⟨(handle_client_info_client st.client message).2.trans hc, hinfo, hrest⟩
    unfold session_run
    split
    · exact ⟨hstep.1, hstep.2.1⟩
    · exact ih _ hstep.1 hstep.2.1 hstep.2.2

/-- The conditions on a run hold on each of its initial parts. -/
theorem audio_reports_ok_initial (env : Env) (channel : Channel) :
    ∀ (pre suf : List SessionEvent) (st : St),
      audio_reports_ok env channel (pre ++ suf) st → audio_reports_ok env channel pre st := by
  intro pre
  induction pre with
  | nil => intro _ _ _; trivial
  | cons ev rest ih =>
    intro suf st h
    cases ev with
    | tick env1 pending => exact ⟨h.1, ih suf _ h.2⟩
    | info message => exact ⟨h.1, ih suf _ h.2⟩

/-- C16 as stated fails, in two ways. (1) Both terms are what the client reports: after an
`Init` and an `Info` that reports a video buffer of 1000 seconds, the client has a bound
channel and at the next tick `video_in_flight + video_playback_buf = 0 + 1000`, above
`60 + 5 + 1`; the tick sends nothing and changes nothing. (2) The `+ 1` covers segments
of less than three seconds only: on a channel with segments of 10 seconds, after an `Info`
that reports 59 seconds buffered (the sum is 59) one tick sends a whole segment, and the
sum is `10 + 59`. -/
theorem committed_playback_unbounded :
    ((session_run full_buffer_info
        (handle_client_init (demo_env 100 1000) opened_st ⟨some "news"⟩).st).fault = none ∧
      (session_run full_buffer_info
        (handle_client_init (demo_env 100 1000) opened_st ⟨some "news"⟩).st).st.client.channel
          = some "news" ∧
      video_in_flight demo_channel (session_run full_buffer_info
        (handle_client_init (demo_env 100 1000) opened_st ⟨some "news"⟩).st).st.client
          = .ok 0 ∧
      (session_run full_buffer_info
        (handle_client_init (demo_env 100 1000) opened_st
          ⟨some "news"⟩).st).st.client.video_playback_buf = 1000 ∧
      ¬ (0 + 1000 ≤ (demo_env 100 1000).max_buffer_seconds +
          (demo_env 100 1000).max_inflight_seconds + 1) ∧
      serve_client (demo_env 100 1000) (session_run full_buffer_info
        (handle_client_init (demo_env 100 1000) opened_st ⟨some "news"⟩).st).st =
        ⟨(session_run full_buffer_info
          (handle_client_init (demo_env 100 1000) opened_st ⟨some "news"⟩).st).st, none⟩) ∧
    ((session_run honest_info_then_tick
        (handle_client_init long_segment_env opened_st ⟨some "news"⟩).st).fault = none ∧
      video_in_flight long_segment_channel (session_run [.info ⟨1, 59, 59, 32320, 0⟩]
        (handle_client_init long_segment_env opened_st ⟨some "news"⟩).st).st.client
          = .ok 0 ∧
      video_in_flight long_segment_channel (session_run honest_info_then_tick
        (handle_client_init long_segment_env opened_st ⟨some "news"⟩).st).st.client
          = .ok 10 ∧
      (session_run honest_info_then_tick
        (handle_client_init long_segment_env opened_st
          ⟨some "news"⟩).st).st.client.video_playback_buf = 59 ∧
      ¬ (10 + 59 ≤ long_segment_env.max_buffer_seconds +
          long_segment_env.max_inflight_seconds + 1)) :=
  ⟨⟨rfl, rfl, rfl, rfl, by decide, rfl⟩, ⟨rfl, rfl, rfl, rfl, by decide⟩⟩

/-- C16, amended. No tick takes the sum above the bound. (1) A tick leaves
`video_playback_buf` as it is, and the seconds of video in flight after it are what they
were before it, unless the tick enqueued a `Video` frame: then on entry
`video_playback_buf < max_buffer_seconds` and `video_in_flight < max_inflight_seconds`,
and afterwards `video_in_flight` has grown by at most `vduration / timescale + 1`.
(2) So for a channel whose video segments last less than three seconds, over every run of
ticks and `Info` messages from a state within the bound, with each `Info` reporting
values within the bound, `video_in_flight + video_playback_buf ≤ max_buffer_seconds +
max_inflight_seconds + 1` at every tick. (3), (4): likewise, and independently, for
audio. -/
theorem committed_playback_kept_by_ticks :
    (∀ (env : Env) (st : St) (name : String) (channel : Channel) (s : Nat),
      st.client.channel = some name →
      channels_at env.channels name = some channel →
      video_in_flight channel st.client = .ok s →
      (serve_client env st).st.client.video_playback_buf = st.client.video_playback_buf ∧
      ∃ s1, video_in_flight channel (serve_client env st).st.client = .ok s1 ∧
        (s1 = s ∨
          (st.client.video_playback_buf < env.max_buffer_seconds ∧
            s < env.max_inflight_seconds ∧
            (∃ e ∈ new_frames st (serve_client env st).st, is_video e.frame) ∧
            s1 ≤ s + channel.vduration / channel.timescale + 1))) ∧
    (∀ (env : Env) (name : String) (channel : Channel) (events : List SessionEvent) (st : St),
      channels_at env.channels name = some channel →
      channel.vduration < 3 * channel.timescale →
      st.client.channel = some name →
      video_committed_ok env channel st.client →
      video_reports_ok env channel events st →
      ∀ pre suf, events = pre ++ suf →
        video_committed_ok env channel (session_run pre st).st.client) ∧
    (∀ (env : Env) (st : St) (name : String) (channel : Channel) (s : Nat),
      st.client.channel = some name →
      channels_at env.channels name = some channel →
      audio_in_flight channel st.client = .ok s →
      (serve_client env st).st.client.audio_playback_buf = st.client.audio_playback_buf ∧
      ∃ s1, audio_in_flight channel (serve_client env st).st.client = .ok s1 ∧
        (s1 = s ∨
          (st.client.audio_playback_buf < env.max_buffer_seconds ∧
            s < env.max_inflight_seconds ∧
            (∃ e ∈ new_frames st (serve_client env st).st, is_audio e.frame) ∧
            s1 ≤ s + channel.aduration / channel.timescale + 1))) ∧
    (∀ (env : Env) (name : String) (channel : Channel) (events : List SessionEvent) (st : St),
      channels_at env.channels name = some channel →
      channel.aduration < 3 * channel.timescale →
      st.client.channel = some name →
      audio_committed_ok env channel st.client →
      audio_reports_ok env channel events st →
      ∀ pre suf, events = pre ++ suf →
        audio_committed_ok env channel (session_run pre st).st.client) := by
  refine ⟨?_, ?_, ?_, ?_⟩
  · intro env st name channel s hc hch hin
    exact ⟨(serve_client_keeps_reports env st).2.2.1,
      serve_client_video_in_flight env st name channel s hc hch hin⟩
  · intro env name channel events st hch hd hc h hok pre suf hsplit
    rw [hsplit] at hok
    exact (session_run_video_committed env name channel hch hd pre st hc h
      (video_reports_ok_initial env channel pre suf st hok)).2
  · intro env st name channel s hc hch hin
    exact ⟨(serve_client_keeps_reports env st).2.2.2,
      serve_client_audio_in_flight env st name channel s hc hch hin⟩
  · intro env name channel events st hch hd hc h hok pre suf hsplit
    rw [hsplit] at hok
    exact (session_run_audio_committed env name channel hch hd pre st hc h
      (audio_reports_ok_initial env channel pre suf st hok)).2

/-- C16 on the scenario channel (segments of 2 seconds and about 1 second): after `Init`,
an `Info` that reports the seeded timestamps and three ticks, 6 seconds of video and 3
seconds of audio are in flight, one more than the in-flight cap of 5 for video, and both
sums are within `60 + 5 + 1`. -/
theorem committed_playback_kept_by_ticks_witness :
    (video_in_flight demo_channel (session_run info_then_ticks
        (handle_client_init (demo_env 100 1000) opened_st ⟨some "news"⟩).st).st.client =
        .ok 6 ∧
      video_reports_ok (demo_env 100 1000) demo_channel info_then_ticks
        (handle_client_init (demo_env 100 1000) opened_st ⟨some "news"⟩).st ∧
      video_committed_ok (demo_env 100 1000) demo_channel (session_run info_then_ticks
        (handle_client_init (demo_env 100 1000) opened_st ⟨some "news"⟩).st).st.client) ∧
    (audio_in_flight demo_channel (session_run info_then_ticks
        (handle_client_init (demo_env 100 1000) opened_st ⟨some "news"⟩).st).st.client =
        .ok 3 ∧
      audio_reports_ok (demo_env 100 1000) demo_channel info_then_ticks
        (handle_client_init (demo_env 100 1000) opened_st ⟨some "news"⟩).st ∧
      audio_committed_ok (demo_env 100 1000) demo_channel (session_run info_then_ticks
        (handle_client_init (demo_env 100 1000) opened_st ⟨some "news"⟩).st).st.client) :=
  ⟨⟨rfl, ⟨⟨0, rfl, by decide⟩, rfl, rfl, rfl, trivial⟩,
      committed_playback_kept_by_ticks.2.1 (demo_env 100 1000) "news" demo_channel
        info_then_ticks (handle_client_init (demo_env 100 1000) opened_st ⟨some "news"⟩).st
        rfl (by decide) rfl ⟨0, rfl, by decide⟩
        ⟨⟨0, rfl, by decide⟩, rfl, rfl, rfl, trivial⟩ info_then_ticks [] rfl⟩,
    ⟨rfl, ⟨⟨0, rfl, by decide⟩, rfl, rfl, rfl, trivial⟩,
      committed_playback_kept_by_ticks.2.2.2 (demo_env 100 1000) "news" demo_channel
        info_then_ticks (handle_client_init (demo_env 100 1000) opened_st ⟨some "news"⟩).st
        rfl (by decide) rfl ⟨0, rfl, by decide⟩
        ⟨⟨0, rfl, by decide⟩, rfl, rfl, rfl, trivial⟩ info_then_ticks [] rfl⟩⟩

/-! ## C19: the priority rule and the distance between the cursors -/

end Puffer
